import Mathlib

/-!
Verification development for the elf2rpl tool (tools/elf2rpl/main.cpp):
a post-link converter from 32-bit big-endian PowerPC ELF to the RPL
container.  The in-memory model, the pipeline passes and the record
codecs are embedded below; theorems about the pipeline follow.

Section payloads are modelled as lists of bytes (std::vector of char in
the source); every multi-byte on-disk scalar is big-endian, and the
source reinterprets payload bytes in place as arrays of symbol records
(16 bytes each) and relocation records (12 bytes each).  All 32-bit
unsigned arithmetic of the source is carried out modulo 2^32.
-/

namespace Elf2Rpl

/-- Modulus of 32-bit unsigned arithmetic. -/
def U32 : Nat := 4294967296

/-- Modelled from the spec: constant from main.cpp, minimum payload length
for DEFLATE compression (0x18). -/
def DeflateMinSectionSize : Nat := 24

/-- Base of the text segment (main.cpp, CodeBaseAddress). -/
def CodeBaseAddress : Nat := 0x02000000

/-- Base of the data segment (main.cpp, DataBaseAddress). -/
def DataBaseAddress : Nat := 0x10000000

/-- Base of the loader segment (main.cpp, LoadBaseAddress). -/
def LoadBaseAddress : Nat := 0xC0000000

/-- Modelled from the spec: section type constants from the missing header
tools/elf2rpl/elf.h; the RPL values are given in spec section 6, the others
are the standard ELF values. -/
def SHT_NULL : Nat := 0

/-- Modelled from the spec: standard ELF section type PROGBITS (elf.h is
not among the provided sources). -/
def SHT_PROGBITS : Nat := 1

/-- Modelled from the spec: standard ELF section type SYMTAB. -/
def SHT_SYMTAB : Nat := 2

/-- Modelled from the spec: standard ELF section type STRTAB. -/
def SHT_STRTAB : Nat := 3

/-- Modelled from the spec: standard ELF section type RELA. -/
def SHT_RELA : Nat := 4

/-- Modelled from the spec: standard ELF section type NOBITS. -/
def SHT_NOBITS : Nat := 8

/-- Modelled from the spec: standard ELF section type REL. -/
def SHT_REL : Nat := 9

/-- RPL_EXPORTS section type, value from spec section 6. -/
def SHT_RPL_EXPORTS : Nat := 0x80000001

/-- RPL_IMPORTS section type, value from spec section 6. -/
def SHT_RPL_IMPORTS : Nat := 0x80000002

/-- RPL_CRCS section type, value from spec section 6. -/
def SHT_RPL_CRCS : Nat := 0x80000003

/-- RPL_FILEINFO section type, value from spec section 6. -/
def SHT_RPL_FILEINFO : Nat := 0x80000004

/-- Modelled from the spec: standard ELF section flag WRITE. -/
def SHF_WRITE : Nat := 1

/-- Modelled from the spec: standard ELF section flag ALLOC. -/
def SHF_ALLOC : Nat := 2

/-- Modelled from the spec: standard ELF section flag EXECINSTR. -/
def SHF_EXECINSTR : Nat := 4

/-- DEFLATED section flag, value from spec section 6. -/
def SHF_DEFLATED : Nat := 0x08000000

/-- Modelled from the spec: lowest reserved section index (SHN_LORESERVE),
standard ELF value 0xff00; symbol shndx values at or above it must not be
remapped. -/
def SHN_LORESERVE : Nat := 0xff00

/-- Modelled from the spec: standard ELF symbol types OBJECT, FUNC, SECTION
(low 4 bits of the symbol info field). -/
def STT_OBJECT : Nat := 1

/-- Modelled from the spec: standard ELF symbol type FUNC. -/
def STT_FUNC : Nat := 2

/-- Modelled from the spec: standard ELF symbol type SECTION. -/
def STT_SECTION : Nat := 3

/-- Modelled from the spec: standard PowerPC relocation type numbers from
the missing elf.h; only their distinctness matters to the pipeline. -/
def R_PPC_NONE : Nat := 0

/-- Standard PowerPC relocation type ADDR32. -/
def R_PPC_ADDR32 : Nat := 1

/-- Standard PowerPC relocation type ADDR16_LO. -/
def R_PPC_ADDR16_LO : Nat := 4

/-- Standard PowerPC relocation type ADDR16_HI. -/
def R_PPC_ADDR16_HI : Nat := 5

/-- Standard PowerPC relocation type ADDR16_HA. -/
def R_PPC_ADDR16_HA : Nat := 6

/-- Standard PowerPC relocation type REL24. -/
def R_PPC_REL24 : Nat := 10

/-- Standard PowerPC relocation type REL14. -/
def R_PPC_REL14 : Nat := 11

/-- Standard PowerPC relocation type REL32. -/
def R_PPC_REL32 : Nat := 26

/-- Standard PowerPC relocation type DTPMOD32. -/
def R_PPC_DTPMOD32 : Nat := 68

/-- Standard PowerPC relocation type DTPREL32. -/
def R_PPC_DTPREL32 : Nat := 78

/-- Standard PowerPC relocation type EMB_SDA21. -/
def R_PPC_EMB_SDA21 : Nat := 109

/-- Standard PowerPC relocation type EMB_RELSDA. -/
def R_PPC_EMB_RELSDA : Nat := 116

/-- Standard PowerPC relocation type DIAB_SDA21_LO. -/
def R_PPC_DIAB_SDA21_LO : Nat := 180

/-- Standard PowerPC relocation type DIAB_SDA21_HI. -/
def R_PPC_DIAB_SDA21_HI : Nat := 181

/-- Standard PowerPC relocation type DIAB_SDA21_HA. -/
def R_PPC_DIAB_SDA21_HA : Nat := 182

/-- Standard PowerPC relocation type DIAB_RELSDA_LO. -/
def R_PPC_DIAB_RELSDA_LO : Nat := 183

/-- Standard PowerPC relocation type DIAB_RELSDA_HI. -/
def R_PPC_DIAB_RELSDA_HI : Nat := 184

/-- Standard PowerPC relocation type DIAB_RELSDA_HA. -/
def R_PPC_DIAB_RELSDA_HA : Nat := 185

/-- Modelled from the spec: GHS relocation types produced by the lowering
pass (values from the missing elf.h; only distinctness from the accepted
set matters). -/
def R_PPC_GHS_REL16_HI : Nat := 251

/-- GHS relocation type REL16_LO produced by the lowering pass. -/
def R_PPC_GHS_REL16_LO : Nat := 252

/-- Modelled from the spec: align_up from the missing header utils.h; the
spec describes it as rounding its argument up to the next multiple of the
alignment. -/
def alignUp (v a : Nat) : Nat := if a = 0 then v else a * ((v + a - 1) / a)

/-- Modelled from the spec: byte size of an on-disk section header record
(standard 32-bit ELF section header, 10 32-bit fields). -/
def sectionHeaderByteSize : Nat := 40

/-- Section header record: name offset, type, flags, virtual address, file
offset, declared size, link index, info index, address alignment, entry
size (spec section 3); every field is a 32-bit big-endian scalar on disk
(link and info are 32-bit in the section header). -/
structure SectionHeader where
  name : Nat
  type : Nat
  flags : Nat
  addr : Nat
  offset : Nat
  size : Nat
  link : Nat
  info : Nat
  addralign : Nat
  entsize : Nat
deriving DecidableEq, Repr, Inhabited

/-- One section of the in-memory model: header, resolved name and owned
payload bytes (ElfFile::Section in main.cpp). -/
structure ElfSection where
  header : SectionHeader
  name : String
  data : List Nat
deriving DecidableEq, Repr, Inhabited

/-- The fields of the ELF file header read or written by the embedded
passes: section header table offset, section count and section name table
index. -/
structure ElfHeader where
  shoff : Nat
  shnum : Nat
  shstrndx : Nat
deriving DecidableEq, Repr, Inhabited

/-- The in-memory file model: header plus ordered section list (ElfFile in
main.cpp). -/
structure ElfFile where
  header : ElfHeader
  sections : List ElfSection
deriving DecidableEq, Repr, Inhabited

/-- Symbol record within a SYMTAB section: name offset, value, size, info,
other, section index (spec section 3); 16 bytes on disk. -/
structure Symbol where
  name : Nat
  value : Nat
  size : Nat
  info : Nat
  other : Nat
  shndx : Nat
deriving DecidableEq, Repr, Inhabited

/-- Relocation record within a RELA section: offset, info (symbol index in
the high 24 bits, type in the low 8 bits) and addend (spec section 3); 12
bytes on disk.  The addend is a signed 32-bit value carried here as its
unsigned bit pattern, so its two's-complement addition is addition modulo
2^32. -/
structure Rela where
  offset : Nat
  info : Nat
  addend : Nat
deriving DecidableEq, Repr, Inhabited

/-- Big-endian encoding of a 32-bit value (the in-memory representation of
every multi-byte scalar is big-endian). -/
def be32 (v : Nat) : List Nat :=
  [v / 16777216 % 256, v / 65536 % 256, v / 256 % 256, v % 256]

/-- Big-endian encoding of a 16-bit value. -/
def be16 (v : Nat) : List Nat := [v / 256 % 256, v % 256]

/-- Big-endian decoding of four bytes. -/
def decBe32 (a b c d : Nat) : Nat :=
  a % 256 * 16777216 + b % 256 * 65536 + c % 256 * 256 + d % 256

/-- Parse a byte buffer as the array of complete 16-byte symbol records it
holds (the reinterpretation of section data as elf::Symbol records);
trailing bytes that do not fill a record are ignored, matching the
numSymbols = size / sizeof(Symbol) bound of the source. -/
def parseSymbols : List Nat → List Symbol
  | b0 :: b1 :: b2 :: b3 :: b4 :: b5 :: b6 :: b7 ::
    b8 :: b9 :: b10 :: b11 :: b12 :: b13 :: b14 :: b15 :: rest =>
      { name := decBe32 b0 b1 b2 b3
        value := decBe32 b4 b5 b6 b7
        size := decBe32 b8 b9 b10 b11
        info := b12 % 256
        other := b13 % 256
        shndx := b14 % 256 * 256 + b15 % 256 } :: parseSymbols rest
  | _ => []

/-- Serialize one symbol record to its 16 on-disk bytes. -/
def encodeSymbol (s : Symbol) : List Nat :=
  be32 s.name ++ be32 s.value ++ be32 s.size ++
    [s.info % 256, s.other % 256, s.shndx / 256 % 256, s.shndx % 256]

/-- Serialize a symbol array. -/
def encodeSymbols (l : List Symbol) : List Nat := l.flatMap encodeSymbol

/-- Parse a byte buffer as the array of complete 12-byte relocation records
it holds (the reinterpretation of section data as elf::Rela records). -/
def parseRelas : List Nat → List Rela
  | b0 :: b1 :: b2 :: b3 :: b4 :: b5 :: b6 :: b7 :: b8 :: b9 :: b10 :: b11 :: rest =>
      { offset := decBe32 b0 b1 b2 b3
        info := decBe32 b4 b5 b6 b7
        addend := decBe32 b8 b9 b10 b11 } :: parseRelas rest
  | _ => []

/-- Serialize one relocation record to its 12 on-disk bytes. -/
def encodeRela (r : Rela) : List Nat := be32 r.offset ++ be32 r.info ++ be32 r.addend

/-- Serialize a relocation array. -/
def encodeRelas (l : List Rela) : List Nat := l.flatMap encodeRela

/-- A symbol whose fields fit their on-disk widths. -/
def SymbolWF (s : Symbol) : Prop :=
  s.name < U32 ∧ s.value < U32 ∧ s.size < U32 ∧ s.info < 256 ∧
    s.other < 256 ∧ s.shndx < 65536

/-- A relocation record whose fields fit their on-disk widths. -/
def RelaWF (r : Rela) : Prop := r.offset < U32 ∧ r.info < U32 ∧ r.addend < U32

/-- In-place rewrite of a byte buffer reinterpreted as an array of symbol
records: every complete 16-byte record is rewritten through f, bytes past
the last complete record stay in place (the source writes symbol fields of
symbols[i] inside the buffer and touches nothing else). -/
def mapSymbolData (f : Symbol → Symbol) (d : List Nat) : List Nat :=
  encodeSymbols ((parseSymbols d).map f) ++ d.drop (16 * (d.length / 16))

/-- In-place rewrite of a byte buffer reinterpreted as an array of
relocation records. -/
def mapRelaData (f : Rela → Rela) (d : List Nat) : List Nat :=
  encodeRelas ((parseRelas d).map f) ++ d.drop (12 * (d.length / 12))

/-! ## Helpers of main.cpp -/

/-- getSectionIndex: index of the first section with the given name, if
any (the source returns -1 when absent). -/
def getSectionIndex (file : ElfFile) (nm : String) : Option Nat :=
  file.sections.findIdx? (fun s => s.name == nm)

/-- getSectionByType: index of the first section with the given type, if
any. -/
def getSectionIndexByType (file : ElfFile) (t : Nat) : Option Nat :=
  file.sections.findIdx? (fun s => s.header.type == t)

/-! ## relocateSection (main.cpp) -/

/-- Per-symbol action of relocateSection: only OBJECT, FUNC and SECTION
symbols are considered, and the window test is inclusive at both ends;
value arithmetic is 32-bit unsigned. -/
def relocSymbol (oldA endA newA : Nat) (s : Symbol) : Symbol :=
  if s.info % 16 ≠ STT_OBJECT ∧ s.info % 16 ≠ STT_FUNC ∧ s.info % 16 ≠ STT_SECTION then
    s
  else if oldA ≤ s.value ∧ s.value ≤ endA then
    { s with value := (s.value - oldA + newA) % U32 }
  else s

/-- Per-record action of relocateSection on RELA records: every record
whose offset lies in the inclusive window is shifted. -/
def relocRela (oldA endA newA : Nat) (r : Rela) : Rela :=
  if oldA ≤ r.offset ∧ r.offset ≤ endA then
    { r with offset := (r.offset - oldA + newA) % U32 }
  else r

/-- relocateSection(file, section, newSectionAddress): the window size is
the payload length, or the declared header size when the payload is empty;
all SYMTAB sections have their qualifying symbols shifted, all RELA
sections have their qualifying record offsets shifted, and finally the
target section's address becomes newSectionAddress.  The target section is
given by its index. -/
def relocateSection (file : ElfFile) (tgt : Nat) (newAddr : Nat) : ElfFile :=
  let s := file.sections.getD tgt default
  let sectionSize := if s.data.length ≠ 0 then s.data.length else s.header.size
  let oldA := s.header.addr
  let endA := oldA + sectionSize
  let secs1 := file.sections.map (fun t =>
    if t.header.type = SHT_SYMTAB then
      { t with data := mapSymbolData (relocSymbol oldA endA newAddr) t.data }
    else t)
  let secs2 := secs1.map (fun t =>
    if t.header.type = SHT_RELA then
      { t with data := mapRelaData (relocRela oldA endA newAddr) t.data }
    else t)
  let s2 := secs2.getD tgt default
  { file with
    sections := secs2.set tgt { s2 with header := { s2.header with addr := newAddr } } }

/-! ## fixLoaderVirtualAddresses (main.cpp, pass P6) -/

/-- Set the ALLOC flag of the section at the given index. -/
def setAllocFlag (file : ElfFile) (i : Nat) : ElfFile :=
  let s := file.sections.getD i default
  { file with
    sections := file.sections.set i
      { s with header := { s.header with flags := s.header.flags ||| SHF_ALLOC } } }

/-- State of the loader-address pass: the file, the address cursor, and a
trace of (section index, cursor before the visit, assigned address)
triples recording each relocateSection call the pass makes. -/
structure LoadState where
  file : ElfFile
  cursor : Nat
  trace : List (Nat × Nat × Nat)
deriving Repr

/-- One visit of fixLoaderVirtualAddresses: relocate section i to the
cursor aligned up to the section's addralign (optionally set ALLOC), then
advance the cursor by the section's payload length.  The cursor itself is
NOT realigned: the source adds the payload length to the pre-alignment
cursor value. -/
def loadVisit (alloc : Bool) (st : LoadState) (i : Nat) : LoadState :=
  let s := st.file.sections.getD i default
  let newA := alignUp st.cursor s.header.addralign % U32
  let f1 := relocateSection st.file i newA
  let f2 := if alloc then setAllocFlag f1 i else f1
  { file := f2
    cursor := (st.cursor + (f2.sections.getD i default).data.length) % U32
    trace := st.trace ++ [(i, st.cursor, newA)] }

/-- One named step of fixLoaderVirtualAddresses: visit the first section
with the given name, when present. -/
def loadStepNamed (alloc : Bool) (nm : String) (st : LoadState) : LoadState :=
  match getSectionIndex st.file nm with
  | none => st
  | some i => loadVisit alloc st i

/-- One step of the RPL_IMPORTS loop of fixLoaderVirtualAddresses. -/
def loadStepImport (st : LoadState) (i : Nat) : LoadState :=
  if (st.file.sections.getD i default).header.type = SHT_RPL_IMPORTS then
    loadVisit false st i
  else st

/-- fixLoaderVirtualAddresses with the assignment trace: process, in
order, .fexports, .dexports, .symtab, .strtab, .shstrtab (the last three
also get the ALLOC flag), then every RPL_IMPORTS section. -/
def fixLoaderVirtualAddressesAux (file : ElfFile) : LoadState :=
  let st0 : LoadState := { file := file, cursor := LoadBaseAddress, trace := [] }
  let st1 := loadStepNamed false ".fexports" st0
  let st2 := loadStepNamed false ".dexports" st1
  let st3 := loadStepNamed true ".symtab" st2
  let st4 := loadStepNamed true ".strtab" st3
  let st5 := loadStepNamed true ".shstrtab" st4
  (List.range st5.file.sections.length).foldl loadStepImport st5

/-- fixLoaderVirtualAddresses, the pass itself (always succeeds in the
source). -/
def fixLoaderVirtualAddresses (file : ElfFile) : ElfFile :=
  (fixLoaderVirtualAddressesAux file).file

/-! ## fixRelocations (main.cpp, pass P4) -/

/-- The relocation types the Wii U loader accepts unchanged (the switch
cases of fixRelocations that do nothing). -/
def acceptedRelocationTypes : List Nat :=
  [R_PPC_NONE, R_PPC_ADDR32, R_PPC_ADDR16_LO, R_PPC_ADDR16_HI, R_PPC_ADDR16_HA,
   R_PPC_REL24, R_PPC_REL14, R_PPC_DTPMOD32, R_PPC_DTPREL32,
   R_PPC_EMB_SDA21, R_PPC_EMB_RELSDA,
   R_PPC_DIAB_SDA21_LO, R_PPC_DIAB_SDA21_HI, R_PPC_DIAB_SDA21_HA,
   R_PPC_DIAB_RELSDA_LO, R_PPC_DIAB_RELSDA_HI, R_PPC_DIAB_RELSDA_HA]

/-- The record loop of fixRelocations over one RELA section, threading the
set of already-reported unsupported types and the result flag.  Returns
the records rewritten in place, the accumulated new records (appended to
the section data after the loop), the updated unsupported-type list and
the updated result flag.  A REL32 record with an out-of-range symbol index
is left unchanged and clears the result flag; an unsupported type is left
unchanged and is recorded once. -/
def processRelaRecords (numSymbols : Nat) :
    List Rela → List Nat → Bool → List Rela × List Rela × List Nat × Bool
  | [], unsup, ok => ([], [], unsup, ok)
  | r :: rest, unsup, ok =>
    let index := r.info / 256
    let rtype := r.info % 256
    if rtype ∈ acceptedRelocationTypes then
      let (ps, app, u, k) := processRelaRecords numSymbols rest unsup ok
      (r :: ps, app, u, k)
    else if rtype = R_PPC_REL32 then
      if index < numSymbols then
        let hi : Rela :=
          { offset := r.offset, info := index * 256 + R_PPC_GHS_REL16_HI,
            addend := r.addend }
        let lo : Rela :=
          { offset := (r.offset + 2) % U32, info := index * 256 + R_PPC_GHS_REL16_LO,
            addend := (r.addend + 2) % U32 }
        let (ps, app, u, k) := processRelaRecords numSymbols rest unsup ok
        (hi :: ps, lo :: app, u, k)
      else
        let (ps, app, u, k) := processRelaRecords numSymbols rest unsup false
        (r :: ps, app, u, k)
    else
      let unsup2 := if rtype ∈ unsup then unsup else unsup ++ [rtype]
      let (ps, app, u, k) := processRelaRecords numSymbols rest unsup2 ok
      (r :: ps, app, u, k)

/-- One section step of fixRelocations: RELA sections get their flags
cleared, their records processed against the symbol table reached through
header.link, and the accumulated new records appended at the very end of
the payload (after any trailing bytes that do not form a whole record). -/
def fixRelocationsStep (st : ElfFile × List Nat × Bool) (i : Nat) :
    ElfFile × List Nat × Bool :=
  let file := st.1
  let s := file.sections.getD i default
  if s.header.type = SHT_RELA then
    let symData := (file.sections.getD s.header.link default).data
    let numSymbols := symData.length / 16
    let (ps, app, unsup2, ok2) :=
      processRelaRecords numSymbols (parseRelas s.data) st.2.1 st.2.2
    let newData :=
      encodeRelas ps ++ s.data.drop (12 * (s.data.length / 12)) ++ encodeRelas app
    ({ file with
        sections := file.sections.set i
          { s with header := { s.header with flags := 0 }, data := newData } },
     unsup2, ok2)
  else st

/-- fixRelocations: fold over all sections, starting from an empty
unsupported-type set and a true result flag. -/
def fixRelocationsAux (file : ElfFile) : ElfFile × List Nat × Bool :=
  (List.range file.sections.length).foldl fixRelocationsStep (file, [], true)

/-- The boolean returned by fixRelocations: the result flag, and no
unsupported type was seen. -/
def fixRelocationsOk (file : ElfFile) : Bool :=
  let (_, unsup, ok) := fixRelocationsAux file
  ok && unsup.isEmpty

/-! ## reorderSectionIndex (main.cpp, pass P3) -/

/-- Executable PROGBITS (bucket 2 of the canonical order). -/
def isCodeSection (s : ElfSection) : Bool :=
  s.header.type == SHT_PROGBITS && (s.header.flags &&& SHF_EXECINSTR) != 0

/-- RPL_EXPORTS (bucket 3). -/
def isExportsSection (s : ElfSection) : Bool := s.header.type == SHT_RPL_EXPORTS

/-- Read-only PROGBITS (bucket 4). -/
def isRodataSection (s : ElfSection) : Bool :=
  s.header.type == SHT_PROGBITS && (s.header.flags &&& SHF_EXECINSTR) == 0 &&
    (s.header.flags &&& SHF_WRITE) == 0

/-- Writable PROGBITS (bucket 5). -/
def isWdataSection (s : ElfSection) : Bool :=
  s.header.type == SHT_PROGBITS && (s.header.flags &&& SHF_EXECINSTR) == 0 &&
    (s.header.flags &&& SHF_WRITE) != 0

/-- NOBITS (bucket 6). -/
def isBssSection (s : ElfSection) : Bool := s.header.type == SHT_NOBITS

/-- REL and RELA (bucket 7). -/
def isRelaOrRelSection (s : ElfSection) : Bool :=
  s.header.type == SHT_REL || s.header.type == SHT_RELA

/-- RPL_IMPORTS (bucket 8). -/
def isImportsSection (s : ElfSection) : Bool := s.header.type == SHT_RPL_IMPORTS

/-- SYMTAB and STRTAB (bucket 9). -/
def isSymStrSection (s : ElfSection) : Bool :=
  s.header.type == SHT_SYMTAB || s.header.type == SHT_STRTAB

/-- Indices of the sections satisfying a bucket predicate, in original
order (one scan loop of reorderSectionIndex). -/
def idxWhere (sections : List ElfSection) (p : ElfSection → Bool) : List Nat :=
  (List.range sections.length).filter (fun i => p (sections.getD i default))

/-- The new-index to old-index map built by reorderSectionIndex: index 0
first, then the eight bucket scans in order. -/
def sectionMapOf (sections : List ElfSection) : List Nat :=
  0 :: (idxWhere sections isCodeSection ++ idxWhere sections isExportsSection ++
    idxWhere sections isRodataSection ++ idxWhere sections isWdataSection ++
    idxWhere sections isBssSection ++ idxWhere sections isRelaOrRelSection ++
    idxWhere sections isImportsSection ++ idxWhere sections isSymStrSection)

/-- The old-index to new-index map: a vector of n zeroes overwritten by
mapOldToNew[sectionMap[i]] = i for each position i (the source stores
uint16_t values, so positions are truncated to 16 bits). -/
def buildInverse (m : List Nat) (n : Nat) : List Nat :=
  m.enum.foldl (fun acc p => acc.set p.2 (p.1 % 65536)) (List.replicate n 0)

/-- Remap one symbol's shndx through the inverse map unless it is at or
above SHN_LORESERVE. -/
def remapSymbolShndx (inv : List Nat) (s : Symbol) : Symbol :=
  if s.shndx < SHN_LORESERVE then { s with shndx := inv.getD s.shndx 0 } else s

/-- reorderSectionIndex: build the permutation, fail when it does not have
one entry per section, otherwise apply it and rewrite shstrndx, every
link, every RELA info and every SYMTAB symbol's shndx through the inverse
map. -/
def reorderSectionIndex (file : ElfFile) : Option ElfFile :=
  let m := sectionMapOf file.sections
  if m.length = file.sections.length then
    let newSections := m.map (fun i => file.sections.getD i default)
    let inv := buildInverse m newSections.length
    let header2 := { file.header with shstrndx := inv.getD file.header.shstrndx 0 }
    let secs1 := newSections.map (fun s =>
      { s with header := { s.header with link := inv.getD s.header.link 0 } })
    let secs2 := secs1.map (fun s =>
      if s.header.type = SHT_RELA then
        { s with header := { s.header with info := inv.getD s.header.info 0 } }
      else s)
    let secs3 := secs2.map (fun s =>
      if s.header.type = SHT_SYMTAB then
        { s with data := mapSymbolData (remapSymbolShndx inv) s.data }
      else s)
    some { header := header2, sections := secs3 }
  else none

/-! ## generateFileInfoSection (main.cpp, pass P7) -/

/-- The RplFileInfo record (spec section 6); compressionLevel is a signed
32-bit field. -/
structure RplFileInfo where
  version : Nat
  textSize : Nat
  textAlign : Nat
  dataSize : Nat
  dataAlign : Nat
  loadSize : Nat
  loadAlign : Nat
  tempSize : Nat
  trampAdjust : Nat
  trampAddition : Nat
  sdaBase : Nat
  sda2Base : Nat
  stackSize : Nat
  heapSize : Nat
  filename : Nat
  flags : Nat
  minVersion : Nat
  compressionLevel : Int
  fileInfoPad : Nat
  cafeSdkVersion : Nat
  cafeSdkRevision : Nat
  tlsAlignShift : Nat
  tlsModuleIndex : Nat
  runtimeFileInfoSize : Nat
  tagOffset : Nat
deriving DecidableEq, Repr, Inhabited

/-- RPL_IS_RPX flag value written to RplFileInfo.flags (spec section 6:
the only flag emitted; its numeric value is taken from the platform
record). -/
def RPL_IS_RPX : Nat := 2

/-- The constants generateFileInfoSection initializes the record with. -/
def initialFileInfo : RplFileInfo :=
  { version := 0xCAFE0402
    textSize := 0
    textAlign := 32
    dataSize := 0
    dataAlign := 4096
    loadSize := 0
    loadAlign := 4
    tempSize := 0
    trampAdjust := 0
    trampAddition := 0
    sdaBase := 0
    sda2Base := 0
    stackSize := 0x10000
    heapSize := 0x8000
    filename := 0
    flags := RPL_IS_RPX
    minVersion := 0x5078
    compressionLevel := -1
    fileInfoPad := 0
    cafeSdkVersion := 0x51BA
    cafeSdkRevision := 0xCCD1
    tlsAlignShift := 0
    tlsModuleIndex := 0
    runtimeFileInfoSize := 0
    tagOffset := 0 }

/-- The per-section accumulation step of generateFileInfoSection: running
maxima for textSize, dataSize, loadSize keyed by the address-space bases,
computed from the DECLARED header size; tempSize accumulates the payload
length (declared size for NOBITS) plus 128 for address-0 sections that are
not RPL_CRCS or RPL_FILEINFO. -/
def fileInfoScanStep (acc : RplFileInfo) (s : ElfSection) : RplFileInfo :=
  let sz := if s.header.type = SHT_NOBITS then s.header.size else s.data.length % U32
  if CodeBaseAddress ≤ s.header.addr ∧ s.header.addr < DataBaseAddress then
    let v := (s.header.addr + s.header.size - CodeBaseAddress) % U32
    if acc.textSize < v then { acc with textSize := v } else acc
  else if DataBaseAddress ≤ s.header.addr ∧ s.header.addr < LoadBaseAddress then
    let v := (s.header.addr + s.header.size - DataBaseAddress) % U32
    if acc.dataSize < v then { acc with dataSize := v } else acc
  else if LoadBaseAddress ≤ s.header.addr then
    let v := (s.header.addr + s.header.size - LoadBaseAddress) % U32
    if acc.loadSize < v then { acc with loadSize := v } else acc
  else if s.header.addr = 0 ∧ s.header.type ≠ SHT_RPL_CRCS ∧
      s.header.type ≠ SHT_RPL_FILEINFO then
    { acc with tempSize := (acc.tempSize + (sz + 128)) % U32 }
  else acc

/-- The RplFileInfo record computed by generateFileInfoSection: scan all
sections, then round the three segment sizes up to their alignments. -/
def computeFileInfo (file : ElfFile) : RplFileInfo :=
  let scanned := file.sections.foldl fileInfoScanStep initialFileInfo
  { scanned with
    textSize := alignUp scanned.textSize scanned.textAlign % U32
    dataSize := alignUp scanned.dataSize scanned.dataAlign % U32
    loadSize := alignUp scanned.loadSize scanned.loadAlign % U32 }

/-- Big-endian serialization of a signed 32-bit value. -/
def be32i (v : Int) : List Nat := be32 (v % (4294967296 : Int)).toNat

/-- Big-endian serialization of the RplFileInfo record in declaration
order (tlsAlignShift and tlsModuleIndex are 16-bit). -/
def encodeFileInfo (r : RplFileInfo) : List Nat :=
  be32 r.version ++ be32 r.textSize ++ be32 r.textAlign ++ be32 r.dataSize ++
  be32 r.dataAlign ++ be32 r.loadSize ++ be32 r.loadAlign ++ be32 r.tempSize ++
  be32 r.trampAdjust ++ be32 r.trampAddition ++ be32 r.sdaBase ++ be32 r.sda2Base ++
  be32 r.stackSize ++ be32 r.heapSize ++ be32 r.filename ++ be32 r.flags ++
  be32 r.minVersion ++ be32i r.compressionLevel ++ be32 r.fileInfoPad ++
  be32 r.cafeSdkVersion ++ be32 r.cafeSdkRevision ++ be16 r.tlsAlignShift ++
  be16 r.tlsModuleIndex ++ be32 r.runtimeFileInfoSize ++ be32 r.tagOffset

/-- generateFileInfoSection: append a new RPL_FILEINFO section at the end
of the section list; all header fields zero except type and addralign =
4; the payload is the serialized record. -/
def generateFileInfoSection (file : ElfFile) : ElfFile :=
  let info := computeFileInfo file
  let sec : ElfSection :=
    { header :=
        { name := 0, type := SHT_RPL_FILEINFO, flags := 0, addr := 0, offset := 0,
          size := 0, link := 0, info := 0, addralign := 4, entsize := 0 }
      name := ""
      data := encodeFileInfo info }
  { file with sections := file.sections ++ [sec] }

/-! ## generateCrcSection (main.cpp, pass P8) -/

/-- generateCrcSection, parameterized by the CRC-32 function of zlib
(an external library, abstracted here): one 32-bit CRC per section (0 for
an empty payload), an extra 0 entry inserted one slot before the last
entry, and the new RPL_CRCS section (addralign 4, entsize 4, payload the
big-endian CRC vector) inserted immediately before the last section. -/
def generateCrcSection (crcFn : List Nat → Nat) (file : ElfFile) : ElfFile :=
  let crcs0 := file.sections.map (fun s =>
    if s.data.length ≠ 0 then crcFn s.data % U32 else 0)
  let crcs := crcs0.insertIdx (crcs0.length - 1) 0
  let sec : ElfSection :=
    { header :=
        { name := 0, type := SHT_RPL_CRCS, flags := 0, addr := 0, offset := 0,
          size := 0, link := 0, info := 0, addralign := 4, entsize := 4 }
      name := ""
      data := crcs.flatMap be32 }
  { file with sections := file.sections.insertIdx (file.sections.length - 1) sec }

/-! ## deflateSections (main.cpp, pass P10) -/

/-- deflateSections, parameterized by the zlib DEFLATE transform (an
external library, abstracted here; the source's chunked deflate loop
concatenates the produced stream after the 4-byte slot, which is then
overwritten with the original payload length, big-endian).  Sections with
a payload shorter than DeflateMinSectionSize bytes, RPL_CRCS and
RPL_FILEINFO are left untouched; all others get the length-tagged
compressed payload and the DEFLATED flag. -/
def deflateSections (deflateFn : List Nat → List Nat) (file : ElfFile) : ElfFile :=
  { file with sections := file.sections.map (fun s =>
      if s.data.length < DeflateMinSectionSize ∨ s.header.type = SHT_RPL_CRCS ∨
          s.header.type = SHT_RPL_FILEINFO then
        s
      else
        { s with
          data := be32 s.data.length ++ deflateFn s.data
          header := { s.header with flags := s.header.flags ||| SHF_DEFLATED } }) }

/-! ## calculateSectionOffsets (main.cpp, pass P11) -/

/-- Assign the running offset to section i, set its declared size to its
payload length, and advance the offset by that size (32-bit unsigned). -/
def offsetStep (st : ElfFile × Nat) (i : Nat) : ElfFile × Nat :=
  let s := st.1.sections.getD i default
  let newSize := s.data.length % U32
  ({ st.1 with
      sections := st.1.sections.set i
        { s with header := { s.header with offset := st.2, size := newSize } } },
   (st.2 + newSize) % U32)

/-- One scan block of calculateSectionOffsets: visit every section
satisfying p, in index order, against the evolving state. -/
def offsetBlock (p : ElfSection → Bool) (st : ElfFile × Nat) : ElfFile × Nat :=
  (List.range st.1.sections.length).foldl
    (fun st i => if p (st.1.sections.getD i default) then offsetStep st i else st) st

/-- The getSectionByType step of calculateSectionOffsets: visit the first
section of the given type, when present. -/
def offsetFirstOfType (t : Nat) (st : ElfFile × Nat) : ElfFile × Nat :=
  match getSectionIndexByType st.1 t with
  | none => st
  | some i => offsetStep st i

/-- Non-executable PROGBITS (data block of calculateSectionOffsets). -/
def isDataOffsetSection (s : ElfSection) : Bool :=
  s.header.type == SHT_PROGBITS && (s.header.flags &&& SHF_EXECINSTR) == 0

/-- calculateSectionOffsets: the offset starts at shoff plus the aligned
section-header table size, then RPL_CRCS, RPL_FILEINFO, non-executable
PROGBITS, RPL_EXPORTS, RPL_IMPORTS, SYMTAB and STRTAB, executable
PROGBITS, and REL and RELA are visited in that order. -/
def calculateSectionOffsets (file : ElfFile) : ElfFile :=
  let c0 := (file.header.shoff +
    alignUp (file.sections.length * sectionHeaderByteSize % U32) 64 % U32) % U32
  let st0 := (file, c0)
  let st1 := offsetFirstOfType SHT_RPL_CRCS st0
  let st2 := offsetFirstOfType SHT_RPL_FILEINFO st1
  let st3 := offsetBlock isDataOffsetSection st2
  let st4 := offsetBlock isExportsSection st3
  let st5 := offsetBlock isImportsSection st4
  let st6 := offsetBlock isSymStrSection st5
  let st7 := offsetBlock isCodeSection st6
  let st8 := offsetBlock isRelaOrRelSection st7
  st8.1

/-! ## List access helper lemmas -/

/-! ## Named projections used by the statements -/

/-- The oldSectionAddress local of relocateSection. -/
def relocOldAddr (file : ElfFile) (tgt : Nat) : Nat :=
  (file.sections.getD tgt default).header.addr

/-- The oldSectionAddressEnd local of relocateSection: address plus payload
length, or plus the declared size when the payload is empty. -/
def relocEndAddr (file : ElfFile) (tgt : Nat) : Nat :=
  let s := file.sections.getD tgt default
  s.header.addr + (if s.data.length ≠ 0 then s.data.length else s.header.size)

/-- The action of relocateSection on one section record (data only; the
target's address update is applied on top of this). -/
def relocSectionUpd (oldA endA newA : Nat) (t : ElfSection) : ElfSection :=
  if t.header.type = SHT_SYMTAB then
    { t with data := mapSymbolData (relocSymbol oldA endA newA) t.data }
  else if t.header.type = SHT_RELA then
    { t with data := mapRelaData (relocRela oldA endA newA) t.data }
  else t

/-- Overwrite the address field of the section at index tgt. -/
def setSectionAddr (secs : List ElfSection) (tgt newAddr : Nat) : List ElfSection :=
  let s2 := secs.getD tgt default
  secs.set tgt { s2 with header := { s2.header with addr := newAddr } }

/-- The claim-side description of the symbol rewrite of relocateSection:
a symbol of type OBJECT, FUNC or SECTION whose value lies in the inclusive
window is shifted by the relocation delta, every other symbol is kept. -/
def relocSymbolSpec (oldA endA newA : Nat) (sym : Symbol) : Symbol :=
  if (sym.info % 16 = STT_OBJECT ∨ sym.info % 16 = STT_FUNC ∨
      sym.info % 16 = STT_SECTION) ∧ oldA ≤ sym.value ∧ sym.value ≤ endA then
    { sym with value := (sym.value - oldA + newA) % U32 }
  else sym

/-! ## Concrete example inputs -/

/-- A small file with a symbol table and a text section, used to witness
the relocation claim. -/
def c1File : ElfFile :=
  { header := { shoff := 0, shnum := 2, shstrndx := 0 }
    sections :=
      [ { header :=
            { name := 0, type := 2, flags := 0, addr := 0, offset := 0, size := 16,
              link := 0, info := 0, addralign := 4, entsize := 16 }
          name := ".symtab"
          data := encodeSymbols
            [{ name := 0, value := 0x02000010, size := 0, info := 1, other := 0,
               shndx := 1 }] }
      , { header :=
            { name := 0, type := 1, flags := 6, addr := 0x02000000, offset := 0,
              size := 32, link := 0, info := 0, addralign := 32, entsize := 0 }
          name := ".text"
          data := List.replicate 32 0 } ] }

/-- A file with one DEFLATE-eligible section, one short section and a CRC
section, used with the compression pass. -/
def c6File : ElfFile :=
  { header := { shoff := 64, shnum := 3, shstrndx := 0 }
    sections :=
      [ { header :=
            { name := 0, type := 1, flags := 4, addr := 0x02000000, offset := 0,
              size := 24, link := 0, info := 0, addralign := 32, entsize := 0 }
          name := ".text"
          data := List.replicate 24 7 }
      , { header :=
            { name := 0, type := 3, flags := 0, addr := 0, offset := 0, size := 2,
              link := 0, info := 0, addralign := 1, entsize := 0 }
          name := ".shstrtab"
          data := [0, 46] }
      , { header :=
            { name := 0, type := 0x80000003, flags := 0, addr := 0, offset := 0,
              size := 0, link := 0, info := 0, addralign := 4, entsize := 4 }
          name := ""
          data := List.replicate 32 1 } ] }

/-- The text-segment contribution of one section (spec side of the P7
scan): sections with address in [CODE_BASE, DATA_BASE) contribute
addr + declared size - CODE_BASE. -/
def textCand (s : ElfSection) : Option Nat :=
  if CodeBaseAddress ≤ s.header.addr ∧ s.header.addr < DataBaseAddress then
    some ((s.header.addr + s.header.size - CodeBaseAddress) % U32)
  else none

/-- The data-segment contribution of one section. -/
def dataCand (s : ElfSection) : Option Nat :=
  if DataBaseAddress ≤ s.header.addr ∧ s.header.addr < LoadBaseAddress then
    some ((s.header.addr + s.header.size - DataBaseAddress) % U32)
  else none

/-- The load-segment contribution of one section. -/
def loadCand (s : ElfSection) : Option Nat :=
  if LoadBaseAddress ≤ s.header.addr then
    some ((s.header.addr + s.header.size - LoadBaseAddress) % U32)
  else none

/-- The tempSize contribution of one section: address-0 sections that are
not RPL_CRCS or RPL_FILEINFO contribute size plus 128, where size is the
payload length (the declared size for NOBITS). -/
def tempCand (s : ElfSection) : Option Nat :=
  if s.header.addr = 0 ∧ s.header.type ≠ SHT_RPL_CRCS ∧
      s.header.type ≠ SHT_RPL_FILEINFO then
    some ((if s.header.type = SHT_NOBITS then s.header.size else s.data.length % U32)
      + 128)
  else none

/-- The CRC entry of one section: the zlib CRC-32 of its payload, or 0
when the payload is empty (the per-section computation inside
generateCrcSection). -/
def crcValue (crcFn : List Nat → Nat) (s : ElfSection) : Nat :=
  if s.data.length ≠ 0 then crcFn s.data % U32 else 0

/-- Parse a byte buffer as an array of big-endian 32-bit values. -/
def parseBe32s : List Nat → List Nat
  | a :: b :: c :: d :: rest => decBe32 a b c d :: parseBe32s rest
  | _ => []

/-- The RPL_CRCS section produced by generateCrcSection (it sits one slot
before the end of the new section list). -/
def crcSectionOf (crcFn : List Nat → Nat) (file : ElfFile) : ElfSection :=
  (generateCrcSection crcFn file).sections.getD (file.sections.length - 1) default

/-- The conclusion of claim C5: the new section count, the placement of
the RPL_CRCS section immediately before the final RPL_FILEINFO section,
the payload length of 4 bytes per section, the zero CRC in the slot of
the RPL_CRCS section itself, and the per-section CRC in every other
slot. -/
def C5Spec (crcFn : List Nat → Nat) (file : ElfFile) : Prop :=
  (generateCrcSection crcFn file).sections.length = file.sections.length + 1 ∧
  (crcSectionOf crcFn file).header.type = SHT_RPL_CRCS ∧
  ((generateCrcSection crcFn file).sections.getD file.sections.length
    default).header.type = SHT_RPL_FILEINFO ∧
  (∀ j, j < file.sections.length - 1 →
    (generateCrcSection crcFn file).sections.getD j default =
      file.sections.getD j default) ∧
  (generateCrcSection crcFn file).sections.getD file.sections.length default =
    file.sections.getD (file.sections.length - 1) default ∧
  (crcSectionOf crcFn file).data.length =
    4 * (generateCrcSection crcFn file).sections.length ∧
  parseBe32s (crcSectionOf crcFn file).data =
    (file.sections.map (crcValue crcFn)).insertIdx (file.sections.length - 1) 0 ∧
  (parseBe32s (crcSectionOf crcFn file).data).getD (file.sections.length - 1) 0 = 0 ∧
  (∀ j, j < (generateCrcSection crcFn file).sections.length →
    j ≠ file.sections.length - 1 →
    (parseBe32s (crcSectionOf crcFn file).data).getD j 0 =
      crcValue crcFn ((generateCrcSection crcFn file).sections.getD j default))

/-- A two-section file ending in an RPL_FILEINFO section, used with the
CRC pass. -/
def c5File : ElfFile :=
  { header := { shoff := 64, shnum := 2, shstrndx := 0 }
    sections :=
      [ { header :=
            { name := 0, type := 1, flags := 4, addr := 0x02000000, offset := 0,
              size := 3, link := 0, info := 0, addralign := 32, entsize := 0 }
          name := ".text"
          data := [1, 2, 3] }
      , { header :=
            { name := 0, type := 0x80000004, flags := 0, addr := 0, offset := 0,
              size := 0, link := 0, info := 0, addralign := 4, entsize := 0 }
          name := ""
          data := [9, 9, 9, 9] } ] }

/-! ## Claim-side descriptions of the relocation-lowering pass -/

/-- Insert a relocation type into the reported set unless already present
(the std::set plus print-once behaviour of fixRelocations). -/
def insertType (u : List Nat) (t : Nat) : List Nat :=
  if t ∈ u then u else u ++ [t]

/-- The unsupported relocation type of a record, when it has one: a type
outside the accepted set and different from R_PPC_REL32. -/
def unsupTypeOf (r : Rela) : Option Nat :=
  if r.info % 256 ∉ acceptedRelocationTypes ∧ r.info % 256 ≠ R_PPC_REL32 then
    some (r.info % 256)
  else none

/-- A REL32 record whose symbol index is out of range for the linked
symbol table. -/
def rel32BadIndex (numSymbols : Nat) (r : Rela) : Bool :=
  if r.info % 256 = R_PPC_REL32 ∧ ¬ (r.info / 256 < numSymbols) then true else false

/-- The in-place rewrite of one record: an R_PPC_REL32 with an in-range
symbol index becomes R_PPC_GHS_REL16_HI with unchanged index, addend and
offset; every other record is kept. -/
def loweredHi (numSymbols : Nat) (r : Rela) : Rela :=
  if r.info % 256 = R_PPC_REL32 ∧ r.info / 256 < numSymbols then
    { offset := r.offset, info := r.info / 256 * 256 + R_PPC_GHS_REL16_HI,
      addend := r.addend }
  else r

/-- The appended record of one record: an R_PPC_REL32 with an in-range
symbol index yields an R_PPC_GHS_REL16_LO with the same index, addend
plus 2 and offset plus 2 (32-bit). -/
def loweredLo (numSymbols : Nat) (r : Rela) : Option Rela :=
  if r.info % 256 = R_PPC_REL32 ∧ r.info / 256 < numSymbols then
    some { offset := (r.offset + 2) % U32,
           info := r.info / 256 * 256 + R_PPC_GHS_REL16_LO,
           addend := (r.addend + 2) % U32 }
  else none

/-- The number of symbols of the symbol table linked from section j. -/
def numSymsOf (file : ElfFile) (j : Nat) : Nat :=
  (file.sections.getD (file.sections.getD j default).header.link default).data.length / 16

/-- What fixRelocations makes of one RELA section, given the linked
symbol count: flags cleared, records rewritten in place, trailing bytes
kept, lowered records appended at the very end. -/
def fixRelaSection (numSymbols : Nat) (s : ElfSection) : ElfSection :=
  { s with
    header := { s.header with flags := 0 }
    data := encodeRelas ((parseRelas s.data).map (loweredHi numSymbols)) ++
      s.data.drop (12 * (s.data.length / 12)) ++
      encodeRelas ((parseRelas s.data).filterMap (loweredLo numSymbols)) }

/-- The expected final state of section j after fixRelocations. -/
def relaExpected (file : ElfFile) (j : Nat) : ElfSection :=
  let s := file.sections.getD j default
  if s.header.type = SHT_RELA then fixRelaSection (numSymsOf file j) s else s

/-- The records of section j paired with the linked symbol count, as the
pass sees them (empty for non-RELA sections). -/
def sectionRecsWithBound (file : ElfFile) (j : Nat) : List (Nat × Rela) :=
  if (file.sections.getD j default).header.type = SHT_RELA then
    (parseRelas (file.sections.getD j default).data).map
      (fun r => (numSymsOf file j, r))
  else []

/-- All records of all RELA sections in processing order, each with its
linked symbol count. -/
def allRecsPairs (file : ElfFile) : List (Nat × Rela) :=
  (List.range file.sections.length).flatMap (sectionRecsWithBound file)

/-- Hypothesis of the relocation claims: every RELA section's link field
reaches a SYMTAB section (so the symbol table the pass reads is the
original one). -/
def LinksAreSymtabs (file : ElfFile) : Prop :=
  ∀ k, k < file.sections.length →
    (file.sections.getD k default).header.type = SHT_RELA →
    (file.sections.getD ((file.sections.getD k default).header.link) default).header.type =
      SHT_SYMTAB

/-- A file with one symbol table and one RELA section holding a single
R_PPC_REL32 record, used with the relocation-lowering pass. -/
def c2File : ElfFile :=
  { header := { shoff := 64, shnum := 2, shstrndx := 0 }
    sections :=
      [ { header :=
            { name := 0, type := 2, flags := 0, addr := 0, offset := 0, size := 16,
              link := 0, info := 0, addralign := 4, entsize := 16 }
          name := ".symtab"
          data := encodeSymbols
            [{ name := 0, value := 0x02000000, size := 0, info := 2, other := 0,
               shndx := 1 }] }
      , { header :=
            { name := 0, type := 4, flags := 2, addr := 0, offset := 0, size := 12,
              link := 0, info := 1, addralign := 4, entsize := 12 }
          name := ".rela.text"
          data := encodeRelas
            [{ offset := 0x02000010, info := 0 * 256 + 26, addend := 0 }] } ] }

/-- A section's declared size agrees with its payload length (the state
calculateSectionOffsets establishes for every section it visits). -/
def sizeSynced (f : ElfFile) (j : Nat) : Prop :=
  (f.sections.getD j default).header.size =
    (f.sections.getD j default).data.length % U32

/-- What one stage of the offset pass may do to section j's declared
size: leave it alone, or synchronize it to the payload length. -/
def sizeRel (f g : ElfFile) (j : Nat) : Prop :=
  (g.sections.getD j default).header.size = (f.sections.getD j default).header.size ∨
  (g.sections.getD j default).header.size = (g.sections.getD j default).data.length % U32

/-- The conditional visit of one index inside an offsetBlock scan. -/
def offsetVisit (p : ElfSection → Bool) (st : ElfFile × Nat) (i : Nat) :
    ElfFile × Nat :=
  if p (st.1.sections.getD i default) then offsetStep st i else st

/-- A predicate on sections that reads only the type and flags fields
(every bucket predicate of calculateSectionOffsets is such, so the
visits of a block are determined by the original headers). -/
def TypeFlagsPred (p : ElfSection → Bool) : Prop :=
  ∀ s t : ElfSection, s.header.type = t.header.type →
    s.header.flags = t.header.flags → p s = p t

/-- A minimal file on which the offset pass assigns the same offset
twice: two empty non-executable PROGBITS sections are both visited by
the data block and neither advances the cursor. -/
def c8File : ElfFile :=
  { header := { shoff := 64, shnum := 2, shstrndx := 0 }
    sections :=
      [ { header :=
            { name := 0, type := 1, flags := 0, addr := 0, offset := 0, size := 0,
              link := 0, info := 0, addralign := 4, entsize := 0 }
          name := ".data0"
          data := [] }
      , { header :=
            { name := 0, type := 1, flags := 0, addr := 0, offset := 0, size := 0,
              link := 0, info := 0, addralign := 4, entsize := 0 }
          name := ".data1"
          data := [] } ] }

/-- The offset-assignment step of calculateSectionOffsets, instrumented
with a visit trace: each visit records (section index, assigned offset,
size used to advance the cursor). The file/cursor component evolves
exactly as offsetStep. -/
def offsetStepTr (st : (ElfFile × Nat) × List (Nat × Nat × Nat)) (i : Nat) :
    (ElfFile × Nat) × List (Nat × Nat × Nat) :=
  (offsetStep st.1 i,
   st.2 ++ [(i, st.1.2, (st.1.1.sections.getD i default).data.length % U32)])

/-- Traced conditional visit (mirrors offsetVisit). -/
def offsetVisitTr (p : ElfSection → Bool)
    (st : (ElfFile × Nat) × List (Nat × Nat × Nat)) (i : Nat) :
    (ElfFile × Nat) × List (Nat × Nat × Nat) :=
  if p (st.1.1.sections.getD i default) then offsetStepTr st i else st

/-- Traced scan block (mirrors offsetBlock). -/
def offsetBlockTr (p : ElfSection → Bool)
    (st : (ElfFile × Nat) × List (Nat × Nat × Nat)) :
    (ElfFile × Nat) × List (Nat × Nat × Nat) :=
  (List.range st.1.1.sections.length).foldl (offsetVisitTr p) st

/-- Traced first-of-type visit (mirrors offsetFirstOfType). -/
def offsetFirstOfTypeTr (t : Nat)
    (st : (ElfFile × Nat) × List (Nat × Nat × Nat)) :
    (ElfFile × Nat) × List (Nat × Nat × Nat) :=
  match getSectionIndexByType st.1.1 t with
  | none => st
  | some i => offsetStepTr st i

/-- calculateSectionOffsets with its visit trace: the same traversal,
recording every visit in the canonical on-disk order (RPL_CRCS,
RPL_FILEINFO, non-executable PROGBITS, RPL_EXPORTS, RPL_IMPORTS, SYMTAB
and STRTAB, executable PROGBITS, REL and RELA). -/
def calculateSectionOffsetsTr (file : ElfFile) :
    (ElfFile × Nat) × List (Nat × Nat × Nat) :=
  offsetBlockTr isRelaOrRelSection (offsetBlockTr isCodeSection
    (offsetBlockTr isSymStrSection (offsetBlockTr isImportsSection
      (offsetBlockTr isExportsSection (offsetBlockTr isDataOffsetSection
        (offsetFirstOfTypeTr SHT_RPL_FILEINFO (offsetFirstOfTypeTr SHT_RPL_CRCS
          ((file, (file.header.shoff +
              alignUp (file.sections.length * sectionHeaderByteSize % U32) 64 % U32)
            % U32), []))))))))

/-- The visit trace of the offset pass. -/
def calcOffsetsTrace (file : ElfFile) : List (Nat × Nat × Nat) :=
  (calculateSectionOffsetsTr file).2

/-- A trace is a valid chain from cursor c to cursor c2: each entry is
assigned the running cursor, which then advances by the entry's size. -/
def traceChain (c : Nat) : List (Nat × Nat × Nat) → Nat → Prop
  | [], c2 => c2 = c
  | e :: rest, c2 => e.2.1 = c ∧ traceChain ((e.2.1 + e.2.2) % U32) rest c2

/-- The starting file offset of calculateSectionOffsets: the section
header table's end, aligned up to 64 bytes past shoff. -/
def offsetStart (file : ElfFile) : Nat :=
  (file.header.shoff +
    alignUp (file.sections.length * sectionHeaderByteSize % U32) 64 % U32) % U32

/-- Invariant of the traced offset pass, relative to the input file:
lengths and payloads are untouched, the trace chains from the start
offset to the current cursor, every recorded size is the visited
section's payload length, and the last visit of any index has written
exactly its recorded offset and size into that section's header. -/
def offTrInv (file : ElfFile) (st : (ElfFile × Nat) × List (Nat × Nat × Nat)) :
    Prop :=
  st.1.1.sections.length = file.sections.length ∧
  (∀ j, (st.1.1.sections.getD j default).data =
    (file.sections.getD j default).data) ∧
  traceChain (offsetStart file) st.2 st.1.2 ∧
  (∀ k, k < st.2.length →
    (st.2.getD k (0, 0, 0)).2.2 =
      (file.sections.getD (st.2.getD k (0, 0, 0)).1 default).data.length % U32) ∧
  (∀ k, k < st.2.length →
    (st.2.getD k (0, 0, 0)).1 ∉ ((st.2.drop (k + 1)).map (fun e => e.1)) →
    (st.1.1.sections.getD (st.2.getD k (0, 0, 0)).1 default).header.offset =
        (st.2.getD k (0, 0, 0)).2.1 ∧
      (st.1.1.sections.getD (st.2.getD k (0, 0, 0)).1 default).header.size =
        (st.2.getD k (0, 0, 0)).2.2)

/-- A loader trace is a valid chain from cursor c to cursor c2: each
visit happens at the running cursor, which then advances by the visited
section's payload length (32-bit). -/
def loadChain (file : ElfFile) (c : Nat) : List (Nat × Nat × Nat) → Nat → Prop
  | [], c2 => c2 = c
  | e :: rest, c2 => e.2.1 = c ∧
      loadChain file
        ((e.2.1 + (file.sections.getD e.1 default).data.length) % U32) rest c2

/-- Invariant of the loader-address pass, relative to the input file:
section count, payload lengths and addralign fields are untouched; the
trace chains from LOAD_BASE to the current cursor; every assigned
address is the pre-visit cursor aligned up to the section's addralign;
and the last visit of any index has written exactly its recorded address
into that section's header. -/
def LInv (file : ElfFile) (st : LoadState) : Prop :=
  st.file.sections.length = file.sections.length ∧
  (∀ j, (st.file.sections.getD j default).data.length =
    (file.sections.getD j default).data.length) ∧
  (∀ j, (st.file.sections.getD j default).header.addralign =
    (file.sections.getD j default).header.addralign) ∧
  loadChain file LoadBaseAddress st.trace st.cursor ∧
  (∀ k, k < st.trace.length →
    (st.trace.getD k (0, 0, 0)).2.2 =
      alignUp (st.trace.getD k (0, 0, 0)).2.1
        (file.sections.getD (st.trace.getD k (0, 0, 0)).1
          default).header.addralign % U32) ∧
  (∀ k, k < st.trace.length →
    (st.trace.getD k (0, 0, 0)).1 ∉ ((st.trace.drop (k + 1)).map (fun e => e.1)) →
    (st.file.sections.getD (st.trace.getD k (0, 0, 0)).1 default).header.addr =
      (st.trace.getD k (0, 0, 0)).2.2)

/-- A file on which the loader-address pass assigns the same address
twice: .fexports (align 1, 1 byte) pushes the cursor to an unaligned
value, after which .dexports (align 64, 1 byte) lands on 0xC0000040 and
advances the cursor only to 0xC0000002, so .symtab (align 64) lands on
0xC0000040 again. -/
def c4File : ElfFile :=
  { header := { shoff := 64, shnum := 3, shstrndx := 0 }
    sections :=
      [ { header :=
            { name := 0, type := 1, flags := 0, addr := 0, offset := 0, size := 1,
              link := 0, info := 0, addralign := 1, entsize := 0 }
          name := ".fexports"
          data := [0] }
      , { header :=
            { name := 0, type := 1, flags := 0, addr := 0, offset := 0, size := 1,
              link := 0, info := 0, addralign := 64, entsize := 0 }
          name := ".dexports"
          data := [0] }
      , { header :=
            { name := 0, type := 2, flags := 0, addr := 0, offset := 0, size := 1,
              link := 0, info := 0, addralign := 64, entsize := 16 }
          name := ".symtab"
          data := [0] } ] }

/-- The per-section field rewrite applied by reorderSectionIndex after
the permutation: link through the inverse map; info through the inverse
map for RELA sections; symbol shndx below SHN_LORESERVE through the
inverse map for SYMTAB sections. -/
def reorderedSection (inv : List Nat) (s : ElfSection) : ElfSection :=
  let s1 : ElfSection :=
    { s with header := { s.header with link := inv.getD s.header.link 0 } }
  let s2 : ElfSection :=
    (if s1.header.type = SHT_RELA then
      { s1 with header := { s1.header with info := inv.getD s1.header.info 0 } }
    else s1)
  if s2.header.type = SHT_SYMTAB then
    { s2 with data := mapSymbolData (remapSymbolShndx inv) s2.data }
  else s2

/-- The canonical bucket of a section: 1 executable PROGBITS, 2
RPL_EXPORTS, 3 read-only PROGBITS, 4 writable PROGBITS, 5 NOBITS, 6 REL
and RELA, 7 RPL_IMPORTS, 8 SYMTAB and STRTAB, 0 for anything else. -/
def bucketRank (s : ElfSection) : Nat :=
  if isCodeSection s then 1
  else if isExportsSection s then 2
  else if isRodataSection s then 3
  else if isWdataSection s then 4
  else if isBssSection s then 5
  else if isRelaOrRelSection s then 6
  else if isImportsSection s then 7
  else if isSymStrSection s then 8
  else 0

/-- The canonical order on old section indices: strictly smaller bucket
rank, or the same bucket with the smaller original index (the order in
which reorderSectionIndex lays the sections out). -/
def reorderKey (sections : List ElfSection) (a b : Nat) : Prop :=
  bucketRank (sections.getD a default) < bucketRank (sections.getD b default) ∨
  (bucketRank (sections.getD a default) = bucketRank (sections.getD b default) ∧
    a < b)

/-- The output of reorderSectionIndex in the success case: the permuted
section list with every index-valued field rewritten through the inverse
map. -/
def reorderApplied (file : ElfFile) : ElfFile :=
  let m := sectionMapOf file.sections
  let newSections := m.map (fun i => file.sections.getD i default)
  let inv := buildInverse m newSections.length
  { header := { file.header with shstrndx := inv.getD file.header.shstrndx 0 }
    sections := newSections.map (fun s => reorderedSection inv s) }

/-- A file exercising the reorder pass: NULL, symtab, RELA, code, which
the pass reorders to NULL, code, RELA, symtab. -/
def c3File : ElfFile :=
  { header := { shoff := 64, shnum := 4, shstrndx := 1 }
    sections :=
      [ { header :=
            { name := 0, type := 0, flags := 0, addr := 0, offset := 0, size := 0,
              link := 0, info := 0, addralign := 0, entsize := 0 }
          name := ""
          data := [] }
      , { header :=
            { name := 0, type := 2, flags := 0, addr := 0, offset := 0, size := 16,
              link := 0, info := 0, addralign := 4, entsize := 16 }
          name := ".symtab"
          data := encodeSymbols
            [{ name := 0, value := 0, size := 0, info := 3, other := 0, shndx := 3 }] }
      , { header :=
            { name := 0, type := 4, flags := 0, addr := 0, offset := 0, size := 12,
              link := 1, info := 3, addralign := 4, entsize := 12 }
          name := ".rela.text"
          data := encodeRelas [{ offset := 0, info := 26, addend := 0 }] }
      , { header :=
            { name := 0, type := 1, flags := 4, addr := 0x02000000, offset := 0,
              size := 4, link := 0, info := 0, addralign := 4, entsize := 0 }
          name := ".text"
          data := [0, 0, 0, 0] } ] }

/-! ## Theorems -/

theorem U32_pos : 0 < U32 := by norm_num [U32]

theorem be32_length (v : Nat) : (be32 v).length = 4 := rfl

theorem decBe32_be32 (v : Nat) :
    decBe32 (v / 16777216 % 256) (v / 65536 % 256) (v / 256 % 256) (v % 256) =
      v % U32 := by
  unfold decBe32 U32
  omega

theorem parseSymbols_wf : ∀ d : List Nat, ∀ s ∈ parseSymbols d, SymbolWF s := by
  intro d
  induction d using parseSymbols.induct with
  | case1 b0 b1 b2 b3 b4 b5 b6 b7 b8 b9 b10 b11 b12 b13 b14 b15 rest ih =>
    intro s hs
    rw [parseSymbols] at hs
    rcases List.mem_cons.mp hs with h | h
    · subst h
      refine ⟨?_, ?_, ?_, ?_, ?_, ?_⟩ <;> simp [decBe32, U32] <;> omega
    · exact ih s h
  | case2 d hne =>
    intro s hs
    rw [parseSymbols.eq_def] at hs
    split at hs
    · exact absurd rfl (hne _ _ _ _ _ _ _ _ _ _ _ _ _ _ _ _ _)
    · simp at hs

theorem parseRelas_wf : ∀ d : List Nat, ∀ r ∈ parseRelas d, RelaWF r := by
  intro d
  induction d using parseRelas.induct with
  | case1 b0 b1 b2 b3 b4 b5 b6 b7 b8 b9 b10 b11 rest ih =>
    intro r hr
    rw [parseRelas] at hr
    rcases List.mem_cons.mp hr with h | h
    · subst h
      refine ⟨?_, ?_, ?_⟩ <;> simp [decBe32, U32] <;> omega
    · exact ih r h
  | case2 d hne =>
    intro r hr
    rw [parseRelas.eq_def] at hr
    split at hr
    · exact absurd rfl (hne _ _ _ _ _ _ _ _ _ _ _ _ _)
    · simp at hr

theorem exists_cons16 : ∀ (d : List Nat), 16 ≤ d.length →
    ∃ b0 b1 b2 b3 b4 b5 b6 b7 b8 b9 b10 b11 b12 b13 b14 b15 rest,
      d = b0 :: b1 :: b2 :: b3 :: b4 :: b5 :: b6 :: b7 ::
        b8 :: b9 :: b10 :: b11 :: b12 :: b13 :: b14 :: b15 :: rest
  | b0 :: b1 :: b2 :: b3 :: b4 :: b5 :: b6 :: b7 ::
    b8 :: b9 :: b10 :: b11 :: b12 :: b13 :: b14 :: b15 :: rest, _ =>
      ⟨b0, b1, b2, b3, b4, b5, b6, b7, b8, b9, b10, b11, b12, b13, b14, b15, rest, rfl⟩
  | [], h => by simp at h
  | [_], h => by simp at h
  | [_, _], h => by simp at h
  | [_, _, _], h => by simp at h
  | [_, _, _, _], h => by simp at h
  | [_, _, _, _, _], h => by simp at h
  | [_, _, _, _, _, _], h => by simp at h
  | [_, _, _, _, _, _, _], h => by simp at h
  | [_, _, _, _, _, _, _, _], h => by simp at h
  | [_, _, _, _, _, _, _, _, _], h => by simp at h
  | [_, _, _, _, _, _, _, _, _, _], h => by simp at h
  | [_, _, _, _, _, _, _, _, _, _, _], h => by simp at h
  | [_, _, _, _, _, _, _, _, _, _, _, _], h => by simp at h
  | [_, _, _, _, _, _, _, _, _, _, _, _, _], h => by simp at h
  | [_, _, _, _, _, _, _, _, _, _, _, _, _, _], h => by simp at h
  | [_, _, _, _, _, _, _, _, _, _, _, _, _, _, _], h => by simp at h

theorem exists_cons12 : ∀ (d : List Nat), 12 ≤ d.length →
    ∃ b0 b1 b2 b3 b4 b5 b6 b7 b8 b9 b10 b11 rest,
      d = b0 :: b1 :: b2 :: b3 :: b4 :: b5 :: b6 :: b7 ::
        b8 :: b9 :: b10 :: b11 :: rest
  | b0 :: b1 :: b2 :: b3 :: b4 :: b5 :: b6 :: b7 ::
    b8 :: b9 :: b10 :: b11 :: rest, _ =>
      ⟨b0, b1, b2, b3, b4, b5, b6, b7, b8, b9, b10, b11, rest, rfl⟩
  | [], h => by simp at h
  | [_], h => by simp at h
  | [_, _], h => by simp at h
  | [_, _, _], h => by simp at h
  | [_, _, _, _], h => by simp at h
  | [_, _, _, _, _], h => by simp at h
  | [_, _, _, _, _, _], h => by simp at h
  | [_, _, _, _, _, _, _], h => by simp at h
  | [_, _, _, _, _, _, _, _], h => by simp at h
  | [_, _, _, _, _, _, _, _, _], h => by simp at h
  | [_, _, _, _, _, _, _, _, _, _], h => by simp at h
  | [_, _, _, _, _, _, _, _, _, _, _], h => by simp at h

theorem parseSymbols_length (d : List Nat) :
    (parseSymbols d).length = d.length / 16 := by
  induction d using parseSymbols.induct with
  | case1 b0 b1 b2 b3 b4 b5 b6 b7 b8 b9 b10 b11 b12 b13 b14 b15 rest ih =>
    rw [parseSymbols]
    simp only [List.length_cons, ih]
    omega
  | case2 d hne =>
    have hlen : d.length < 16 := by
      by_contra hc
      push_neg at hc
      obtain ⟨b0, b1, b2, b3, b4, b5, b6, b7, b8, b9, b10, b11, b12, b13, b14, b15,
        rest, rfl⟩ := exists_cons16 d hc
      exact hne _ _ _ _ _ _ _ _ _ _ _ _ _ _ _ _ _ rfl
    rw [parseSymbols.eq_def]
    split
    · exact absurd rfl (hne _ _ _ _ _ _ _ _ _ _ _ _ _ _ _ _ _)
    · simp only [List.length_nil]
      omega

theorem parseRelas_length (d : List Nat) :
    (parseRelas d).length = d.length / 12 := by
  induction d using parseRelas.induct with
  | case1 b0 b1 b2 b3 b4 b5 b6 b7 b8 b9 b10 b11 rest ih =>
    rw [parseRelas]
    simp only [List.length_cons, ih]
    omega
  | case2 d hne =>
    have hlen : d.length < 12 := by
      by_contra hc
      push_neg at hc
      obtain ⟨b0, b1, b2, b3, b4, b5, b6, b7, b8, b9, b10, b11, rest, rfl⟩ :=
        exists_cons12 d hc
      exact hne _ _ _ _ _ _ _ _ _ _ _ _ _ rfl
    rw [parseRelas.eq_def]
    split
    · exact absurd rfl (hne _ _ _ _ _ _ _ _ _ _ _ _ _)
    · simp only [List.length_nil]
      omega

theorem parseSymbols_eq_nil_of_short (d : List Nat) (h : d.length < 16) :
    parseSymbols d = [] := by
  have := parseSymbols_length d
  rw [Nat.div_eq_of_lt h] at this
  exact List.length_eq_zero.mp this

theorem parseRelas_eq_nil_of_short (d : List Nat) (h : d.length < 12) :
    parseRelas d = [] := by
  have := parseRelas_length d
  rw [Nat.div_eq_of_lt h] at this
  exact List.length_eq_zero.mp this

theorem encodeSymbol_length (s : Symbol) : (encodeSymbol s).length = 16 := rfl

theorem encodeRela_length (r : Rela) : (encodeRela r).length = 12 := rfl

theorem encodeSymbols_length (l : List Symbol) :
    (encodeSymbols l).length = 16 * l.length := by
  induction l with
  | nil => rfl
  | cons s l ih =>
    simp only [encodeSymbols, List.flatMap_cons, List.length_append,
      encodeSymbol_length, List.length_cons] at *
    omega

theorem encodeRelas_length (l : List Rela) :
    (encodeRelas l).length = 12 * l.length := by
  induction l with
  | nil => rfl
  | cons r l ih =>
    simp only [encodeRelas, List.flatMap_cons, List.length_append,
      encodeRela_length, List.length_cons] at *
    omega

theorem parseSymbols_encodeSymbol_cons (s : Symbol) (hs : SymbolWF s)
    (rest : List Nat) :
    parseSymbols (encodeSymbol s ++ rest) = s :: parseSymbols rest := by
  obtain ⟨h1, h2, h3, h4, h5, h6⟩ := hs
  cases s with
  | mk nm v sz inf oth shn =>
    simp only [encodeSymbol, be32, List.cons_append, List.nil_append]
    rw [parseSymbols]
    simp only [decBe32, List.cons.injEq, Symbol.mk.injEq]
    simp only [U32] at h1 h2 h3 h4 h5 h6
    refine ⟨⟨?_, ?_, ?_, ?_, ?_, ?_⟩, trivial⟩ <;> omega

theorem parseRelas_encodeRela_cons (r : Rela) (hr : RelaWF r)
    (rest : List Nat) :
    parseRelas (encodeRela r ++ rest) = r :: parseRelas rest := by
  obtain ⟨h1, h2, h3⟩ := hr
  cases r with
  | mk o i a =>
    simp only [encodeRela, be32, List.cons_append, List.nil_append]
    rw [parseRelas]
    simp only [decBe32, List.cons.injEq, Rela.mk.injEq]
    simp only [U32] at h1 h2 h3
    refine ⟨⟨?_, ?_, ?_⟩, trivial⟩ <;> omega

theorem parseSymbols_encodeSymbols (l : List Symbol) (hl : ∀ s ∈ l, SymbolWF s)
    (rest : List Nat) :
    parseSymbols (encodeSymbols l ++ rest) = l ++ parseSymbols rest := by
  induction l with
  | nil => simp [encodeSymbols]
  | cons s l ih =>
    simp only [encodeSymbols, List.flatMap_cons, List.append_assoc] at *
    rw [parseSymbols_encodeSymbol_cons s (hl s (by simp)) _,
      ih (fun t ht => hl t (by simp [ht]))]
    rfl

theorem parseRelas_encodeRelas (l : List Rela) (hl : ∀ r ∈ l, RelaWF r)
    (rest : List Nat) :
    parseRelas (encodeRelas l ++ rest) = l ++ parseRelas rest := by
  induction l with
  | nil => simp [encodeRelas]
  | cons r l ih =>
    simp only [encodeRelas, List.flatMap_cons, List.append_assoc] at *
    rw [parseRelas_encodeRela_cons r (hl r (by simp)) _,
      ih (fun t ht => hl t (by simp [ht]))]
    rfl

theorem mapSymbolData_length (f : Symbol → Symbol) (d : List Nat) :
    (mapSymbolData f d).length = d.length := by
  simp only [mapSymbolData, List.length_append, encodeSymbols_length,
    List.length_map, parseSymbols_length, List.length_drop]
  omega

theorem mapRelaData_length (f : Rela → Rela) (d : List Nat) :
    (mapRelaData f d).length = d.length := by
  simp only [mapRelaData, List.length_append, encodeRelas_length,
    List.length_map, parseRelas_length, List.length_drop]
  omega

theorem parseSymbols_mapSymbolData (f : Symbol → Symbol)
    (hf : ∀ s, SymbolWF s → SymbolWF (f s)) (d : List Nat) :
    parseSymbols (mapSymbolData f d) = (parseSymbols d).map f := by
  rw [mapSymbolData,
    parseSymbols_encodeSymbols _ (fun s hs => by
      obtain ⟨t, ht, rfl⟩ := List.mem_map.mp hs
      exact hf t (parseSymbols_wf d t ht)) _,
    parseSymbols_eq_nil_of_short (d.drop (16 * (d.length / 16))) (by
      simp only [List.length_drop]
      omega),
    List.append_nil]

theorem parseRelas_mapRelaData (f : Rela → Rela)
    (hf : ∀ r, RelaWF r → RelaWF (f r)) (d : List Nat) :
    parseRelas (mapRelaData f d) = (parseRelas d).map f := by
  rw [mapRelaData,
    parseRelas_encodeRelas _ (fun r hr => by
      obtain ⟨t, ht, rfl⟩ := List.mem_map.mp hr
      exact hf t (parseRelas_wf d t ht)) _,
    parseRelas_eq_nil_of_short (d.drop (12 * (d.length / 12))) (by
      simp only [List.length_drop]
      omega),
    List.append_nil]

theorem getD_of_lt {α : Type} (l : List α) (i : Nat) (d : α) (h : i < l.length) :
    l.getD i d = l[i] := by
  simp [List.getD_eq_getElem?_getD, List.getElem?_eq_getElem h]

theorem getD_of_le {α : Type} (l : List α) (i : Nat) (d : α) (h : l.length ≤ i) :
    l.getD i d = d := by
  simp [List.getD_eq_getElem?_getD, List.getElem?_eq_none h]

theorem getD_set_self {α : Type} (l : List α) (i : Nat) (a d : α)
    (h : i < l.length) : (l.set i a).getD i d = a := by
  rw [getD_of_lt _ _ _ (by simpa using h)]
  simp [List.getElem_set_self]

theorem getD_set_ne {α : Type} (l : List α) (i j : Nat) (a d : α)
    (h : i ≠ j) : (l.set i a).getD j d = l.getD j d := by
  by_cases hj : j < l.length
  · rw [getD_of_lt _ _ _ (by simpa using hj), getD_of_lt _ _ _ hj]
    exact List.getElem_set_ne h _
  · rw [getD_of_le _ _ _ (by simpa using Nat.le_of_not_lt hj),
      getD_of_le _ _ _ (Nat.le_of_not_lt hj)]

theorem getD_map {α β : Type} (f : α → β) (l : List α) (i : Nat) (d : α)
    (d' : β) (h : i < l.length) : (l.map f).getD i d' = f (l.getD i d) := by
  rw [getD_of_lt _ _ _ (by simpa using h), getD_of_lt _ _ _ h]
  simp

theorem getD_set_getD {α : Type} (l : List α) (i j : Nat) (a d : α) :
    (l.set i a).getD j d =
      if i = j ∧ i < l.length then a else l.getD j d := by
  split
  · next h => rw [← h.1]; exact getD_set_self l i a d h.2
  · next h =>
    by_cases hij : i = j
    · subst hij
      have : l.length ≤ i := by omega
      rw [List.set_eq_of_length_le this]
    · exact getD_set_ne l i j a d hij

/-! ## Claim C1: relocateSection -/

theorem relocSymbol_wf (oldA endA newA : Nat) (s : Symbol) (h : SymbolWF s) :
    SymbolWF (relocSymbol oldA endA newA s) := by
  obtain ⟨h1, h2, h3, h4, h5, h6⟩ := h
  unfold relocSymbol
  split_ifs
  · exact ⟨h1, h2, h3, h4, h5, h6⟩
  · exact ⟨h1, Nat.mod_lt _ U32_pos, h3, h4, h5, h6⟩
  · exact ⟨h1, h2, h3, h4, h5, h6⟩

theorem relocRela_wf (oldA endA newA : Nat) (r : Rela) (h : RelaWF r) :
    RelaWF (relocRela oldA endA newA r) := by
  obtain ⟨h1, h2, h3⟩ := h
  unfold relocRela
  split_ifs
  · exact ⟨Nat.mod_lt _ U32_pos, h2, h3⟩
  · exact ⟨h1, h2, h3⟩

theorem relocSymbol_eq_spec (oldA endA newA : Nat) (s : Symbol) :
    relocSymbol oldA endA newA s = relocSymbolSpec oldA endA newA s := by
  unfold relocSymbol relocSymbolSpec
  split_ifs <;> first | rfl | tauto

theorem relocSectionUpd_default (oldA endA newA : Nat) :
    relocSectionUpd oldA endA newA default = default := by
  unfold relocSectionUpd
  split_ifs with h1 h2
  · exact absurd h1 (by decide)
  · exact absurd h2 (by decide)
  · rfl

theorem relocSectionUpd_comp (oldA endA newA : Nat) :
    ((fun t : ElfSection =>
        if t.header.type = SHT_RELA then
          { t with data := (mapRelaData (relocRela oldA endA newA) t.data) }
        else t) ∘
      (fun t : ElfSection =>
        if t.header.type = SHT_SYMTAB then
          { t with data := (mapSymbolData (relocSymbol oldA endA newA) t.data) }
        else t)) = relocSectionUpd oldA endA newA := by
  funext t
  simp only [Function.comp]
  unfold relocSectionUpd
  by_cases h1 : t.header.type = SHT_SYMTAB
  · rw [if_pos h1, if_pos h1]
    dsimp only
    rw [if_neg (show ¬ (t.header.type = SHT_RELA) from by rw [h1]; decide)]
  · rw [if_neg h1, if_neg h1]

theorem relocateSection_eq (file : ElfFile) (tgt newAddr : Nat) :
    relocateSection file tgt newAddr =
      { file with sections :=
          (setSectionAddr
            (file.sections.map
              (relocSectionUpd (relocOldAddr file tgt) (relocEndAddr file tgt) newAddr))
            tgt newAddr) } := by
  unfold relocateSection relocOldAddr relocEndAddr setSectionAddr
  dsimp only
  rw [List.map_map, relocSectionUpd_comp]

theorem relocateSection_getD (file : ElfFile) (tgt newAddr j : Nat) :
    (relocateSection file tgt newAddr).sections.getD j default =
      (let u := relocSectionUpd (relocOldAddr file tgt) (relocEndAddr file tgt)
        newAddr (file.sections.getD j default)
       if tgt = j ∧ tgt < file.sections.length then
         { u with header := { u.header with addr := newAddr } }
       else u) := by
  rw [relocateSection_eq]
  unfold setSectionAddr
  dsimp only
  rw [getD_set_getD]
  simp only [List.length_map]
  by_cases h : tgt = j ∧ tgt < file.sections.length
  · rw [if_pos h, if_pos h]
    rw [← h.1]
    rw [getD_map _ _ _ default _ h.2]
  · rw [if_neg h, if_neg h]
    by_cases hj : j < file.sections.length
    · rw [getD_map _ _ _ default _ hj]
    · rw [getD_of_le _ _ _ (by simpa using Nat.le_of_not_lt hj),
        getD_of_le _ _ _ (Nat.le_of_not_lt hj), relocSectionUpd_default]

/-- Claim C1: for relocateSection(section, newAddr) with oldAddr the
section's address and end = oldAddr + size (payload length, or the
declared size when the payload is empty), every symbol in any SYMTAB
section whose type is OBJECT, FUNC or SECTION and whose value lies in the
inclusive window [oldAddr, end] has its value replaced by
(value - oldAddr) + newAddr (32-bit), all other symbols keep their value;
every RELA record whose offset lies in the window gets the same shift,
records outside are unchanged; and the section's address becomes newAddr. -/
theorem relocateSection_c1 (file : ElfFile) (tgt newAddr : Nat)
    (htgt : tgt < file.sections.length) :
    (∀ j, (file.sections.getD j default).header.type = SHT_SYMTAB →
      parseSymbols ((relocateSection file tgt newAddr).sections.getD j default).data =
        (parseSymbols (file.sections.getD j default).data).map
          (relocSymbolSpec (relocOldAddr file tgt) (relocEndAddr file tgt) newAddr)) ∧
    (∀ j, (file.sections.getD j default).header.type = SHT_RELA →
      parseRelas ((relocateSection file tgt newAddr).sections.getD j default).data =
        (parseRelas (file.sections.getD j default).data).map
          (fun r => if relocOldAddr file tgt ≤ r.offset ∧
              r.offset ≤ relocEndAddr file tgt then
            { r with offset := (r.offset - relocOldAddr file tgt + newAddr) % U32 }
          else r)) ∧
    ((relocateSection file tgt newAddr).sections.getD tgt default).header.addr =
      newAddr := by
  refine ⟨?_, ?_, ?_⟩
  · intro j hty
    rw [relocateSection_getD]
    dsimp only
    have hdata : ∀ u : ElfSection,
        (if tgt = j ∧ tgt < file.sections.length then
          { u with header := { u.header with addr := newAddr } }
        else u).data = u.data := by
      intro u; split <;> rfl
    rw [hdata]
    unfold relocSectionUpd
    rw [if_pos hty,
      parseSymbols_mapSymbolData _ (relocSymbol_wf _ _ _)]
    exact List.map_congr_left (fun s _ => relocSymbol_eq_spec _ _ _ s)
  · intro j hty
    rw [relocateSection_getD]
    dsimp only
    have hdata : ∀ u : ElfSection,
        (if tgt = j ∧ tgt < file.sections.length then
          { u with header := { u.header with addr := newAddr } }
        else u).data = u.data := by
      intro u; split <;> rfl
    rw [hdata]
    unfold relocSectionUpd
    rw [if_neg (by rw [hty]; decide), if_pos hty,
      parseRelas_mapRelaData _ (relocRela_wf _ _ _)]
    exact List.map_congr_left (fun r _ => by unfold relocRela; rfl)
  · rw [relocateSection_getD]
    dsimp only
    rw [if_pos ⟨rfl, htgt⟩]

theorem relocateSection_c1_witness :
    1 < c1File.sections.length ∧
    ((∀ j, (c1File.sections.getD j default).header.type = SHT_SYMTAB →
      parseSymbols ((relocateSection c1File 1 0xC0000100).sections.getD j default).data =
        (parseSymbols (c1File.sections.getD j default).data).map
          (relocSymbolSpec (relocOldAddr c1File 1) (relocEndAddr c1File 1) 0xC0000100)) ∧
    (∀ j, (c1File.sections.getD j default).header.type = SHT_RELA →
      parseRelas ((relocateSection c1File 1 0xC0000100).sections.getD j default).data =
        (parseRelas (c1File.sections.getD j default).data).map
          (fun r => if relocOldAddr c1File 1 ≤ r.offset ∧
              r.offset ≤ relocEndAddr c1File 1 then
            { r with offset := (r.offset - relocOldAddr c1File 1 + 0xC0000100) % U32 }
          else r)) ∧
    ((relocateSection c1File 1 0xC0000100).sections.getD 1 default).header.addr =
      0xC0000100) :=
  ⟨by decide, relocateSection_c1 c1File 1 0xC0000100 (by decide)⟩

/-! ## Claim C6: deflateSections -/

theorem lor_deflated_land_ne (a : Nat) :
    (a ||| SHF_DEFLATED) &&& SHF_DEFLATED ≠ 0 := by
  have hb : Nat.testBit SHF_DEFLATED 27 = true := by decide
  intro h
  have h27 := congrArg (fun x => Nat.testBit x 27) h
  simp only [Nat.testBit_land, Nat.testBit_lor, hb, Bool.or_true, Bool.and_true,
    Nat.zero_testBit] at h27
  exact Bool.noConfusion h27

/-- Claim C6: after the compression pass, every section whose payload was
at least 24 bytes and whose type is neither RPL_CRCS nor RPL_FILEINFO
carries the DEFLATED flag and a payload that is the 4-byte big-endian
original length followed by the DEFLATE stream of the original payload
(which decompresses back to exactly the original bytes); every other
section is left entirely unchanged and does not gain the flag. -/
theorem deflateSections_c6 (deflateFn : List Nat → List Nat) (file : ElfFile) :
    ∀ j,
      (¬ ((file.sections.getD j default).data.length < DeflateMinSectionSize ∨
          (file.sections.getD j default).header.type = SHT_RPL_CRCS ∨
          (file.sections.getD j default).header.type = SHT_RPL_FILEINFO) →
        ((deflateSections deflateFn file).sections.getD j default).data =
            be32 (file.sections.getD j default).data.length ++
              deflateFn (file.sections.getD j default).data ∧
          ((deflateSections deflateFn file).sections.getD j default).header.flags =
            ((file.sections.getD j default).header.flags ||| SHF_DEFLATED) ∧
          (((deflateSections deflateFn file).sections.getD j default).header.flags &&&
            SHF_DEFLATED) ≠ 0 ∧
          ((deflateSections deflateFn file).sections.getD j default).data.take 4 =
            be32 (file.sections.getD j default).data.length ∧
          (∀ inflateFn : List Nat → List Nat, (∀ d, inflateFn (deflateFn d) = d) →
            inflateFn
              (((deflateSections deflateFn file).sections.getD j default).data.drop 4) =
              (file.sections.getD j default).data)) ∧
      (((file.sections.getD j default).data.length < DeflateMinSectionSize ∨
          (file.sections.getD j default).header.type = SHT_RPL_CRCS ∨
          (file.sections.getD j default).header.type = SHT_RPL_FILEINFO) →
        (deflateSections deflateFn file).sections.getD j default =
          file.sections.getD j default) := by
  intro j
  by_cases hj : j < file.sections.length
  · have hout : (deflateSections deflateFn file).sections.getD j default =
        (if (file.sections.getD j default).data.length < DeflateMinSectionSize ∨
            (file.sections.getD j default).header.type = SHT_RPL_CRCS ∨
            (file.sections.getD j default).header.type = SHT_RPL_FILEINFO then
          file.sections.getD j default
        else
          { file.sections.getD j default with
            data := be32 (file.sections.getD j default).data.length ++
              deflateFn (file.sections.getD j default).data
            header := { (file.sections.getD j default).header with
              flags := (file.sections.getD j default).header.flags ||| SHF_DEFLATED } }) := by
      unfold deflateSections
      dsimp only
      rw [getD_map _ _ _ default _ hj]
    constructor
    · intro hc
      rw [hout, if_neg hc]
      refine ⟨rfl, rfl, lor_deflated_land_ne _, ?_, ?_⟩
      · show (be32 (file.sections.getD j default).data.length ++
            deflateFn (file.sections.getD j default).data).take 4 =
          be32 (file.sections.getD j default).data.length
        rw [show (4 : Nat) =
            (be32 (file.sections.getD j default).data.length).length from rfl]
        exact List.take_left _ _
      · intro inflateFn hrt
        show inflateFn ((be32 (file.sections.getD j default).data.length ++
            deflateFn (file.sections.getD j default).data).drop 4) = _
        rw [show (4 : Nat) =
            (be32 (file.sections.getD j default).data.length).length from rfl,
          List.drop_left, hrt]
    · intro hc
      rw [hout, if_pos hc]
  · have hle : file.sections.length ≤ j := Nat.le_of_not_lt hj
    have h1 : (file.sections.getD j default) = default := getD_of_le _ _ _ hle
    have h2 : (deflateSections deflateFn file).sections.getD j default = default := by
      apply getD_of_le
      unfold deflateSections
      simpa using hle
    constructor
    · intro hc
      exact absurd (by rw [h1]; exact Or.inl (by decide)) hc
    · intro _
      rw [h1, h2]

/-! ## Claim C7: generateFileInfoSection -/

theorem dvd_alignUp (v a : Nat) (h : a ≠ 0) : a ∣ alignUp v a := by
  unfold alignUp
  rw [if_neg h]
  exact Dvd.intro _ rfl

theorem foldl_modAdd_eq_sum (l : List Nat) : ∀ a, a < U32 →
    l.foldl (fun t x => (t + x) % U32) a = (a + l.sum) % U32 := by
  induction l with
  | nil =>
    intro a ha
    simp [Nat.mod_eq_of_lt ha]
  | cons x rest ih =>
    intro a ha
    simp only [List.foldl_cons, List.sum_cons]
    rw [ih _ (Nat.mod_lt _ U32_pos), Nat.mod_add_mod]
    congr 1
    omega

theorem step_eq_A (acc : RplFileInfo) (s : ElfSection)
    (hA : CodeBaseAddress ≤ s.header.addr ∧ s.header.addr < DataBaseAddress) :
    fileInfoScanStep acc s =
      (if acc.textSize < (s.header.addr + s.header.size - CodeBaseAddress) % U32 then
        { acc with textSize := (s.header.addr + s.header.size - CodeBaseAddress) % U32 }
      else acc) := by
  unfold fileInfoScanStep
  rw [if_pos hA]

theorem step_eq_B (acc : RplFileInfo) (s : ElfSection)
    (hA : ¬ (CodeBaseAddress ≤ s.header.addr ∧ s.header.addr < DataBaseAddress))
    (hB : DataBaseAddress ≤ s.header.addr ∧ s.header.addr < LoadBaseAddress) :
    fileInfoScanStep acc s =
      (if acc.dataSize < (s.header.addr + s.header.size - DataBaseAddress) % U32 then
        { acc with dataSize := (s.header.addr + s.header.size - DataBaseAddress) % U32 }
      else acc) := by
  unfold fileInfoScanStep
  rw [if_neg hA, if_pos hB]

theorem step_eq_C (acc : RplFileInfo) (s : ElfSection)
    (hA : ¬ (CodeBaseAddress ≤ s.header.addr ∧ s.header.addr < DataBaseAddress))
    (hB : ¬ (DataBaseAddress ≤ s.header.addr ∧ s.header.addr < LoadBaseAddress))
    (hC : LoadBaseAddress ≤ s.header.addr) :
    fileInfoScanStep acc s =
      (if acc.loadSize < (s.header.addr + s.header.size - LoadBaseAddress) % U32 then
        { acc with loadSize := (s.header.addr + s.header.size - LoadBaseAddress) % U32 }
      else acc) := by
  unfold fileInfoScanStep
  rw [if_neg hA, if_neg hB, if_pos hC]

theorem step_eq_D (acc : RplFileInfo) (s : ElfSection)
    (hA : ¬ (CodeBaseAddress ≤ s.header.addr ∧ s.header.addr < DataBaseAddress))
    (hB : ¬ (DataBaseAddress ≤ s.header.addr ∧ s.header.addr < LoadBaseAddress))
    (hC : ¬ (LoadBaseAddress ≤ s.header.addr))
    (hD : s.header.addr = 0 ∧ s.header.type ≠ SHT_RPL_CRCS ∧
      s.header.type ≠ SHT_RPL_FILEINFO) :
    fileInfoScanStep acc s =
      { acc with tempSize := (acc.tempSize + ((if s.header.type = SHT_NOBITS then s.header.size else s.data.length % U32) + 128)) % U32 } := by
  unfold fileInfoScanStep
  rw [if_neg hA, if_neg hB, if_neg hC, if_pos hD]

theorem step_eq_E (acc : RplFileInfo) (s : ElfSection)
    (hA : ¬ (CodeBaseAddress ≤ s.header.addr ∧ s.header.addr < DataBaseAddress))
    (hB : ¬ (DataBaseAddress ≤ s.header.addr ∧ s.header.addr < LoadBaseAddress))
    (hC : ¬ (LoadBaseAddress ≤ s.header.addr))
    (hD : ¬ (s.header.addr = 0 ∧ s.header.type ≠ SHT_RPL_CRCS ∧
      s.header.type ≠ SHT_RPL_FILEINFO)) :
    fileInfoScanStep acc s = acc := by
  unfold fileInfoScanStep
  rw [if_neg hA, if_neg hB, if_neg hC, if_neg hD]

theorem scanStep_textSize (acc : RplFileInfo) (s : ElfSection) :
    (fileInfoScanStep acc s).textSize =
      match textCand s with
      | some v => max acc.textSize v
      | none => acc.textSize := by
  unfold textCand
  by_cases hA : CodeBaseAddress ≤ s.header.addr ∧ s.header.addr < DataBaseAddress
  · rw [if_pos hA]
    show (fileInfoScanStep acc s).textSize = max acc.textSize ((s.header.addr + s.header.size - CodeBaseAddress) % U32)
    rw [step_eq_A acc s hA]
    by_cases hv : acc.textSize < (s.header.addr + s.header.size - CodeBaseAddress) % U32
    · rw [if_pos hv]
      exact (Nat.max_eq_right (Nat.le_of_lt hv)).symm
    · rw [if_neg hv]
      exact (Nat.max_eq_left (Nat.le_of_not_lt hv)).symm
  · rw [if_neg hA]
    show (fileInfoScanStep acc s).textSize = acc.textSize
    by_cases hB : DataBaseAddress ≤ s.header.addr ∧ s.header.addr < LoadBaseAddress
    · rw [step_eq_B acc s hA hB]
      by_cases hv : acc.dataSize < (s.header.addr + s.header.size - DataBaseAddress) % U32
      · rw [if_pos hv]
      · rw [if_neg hv]
    · by_cases hC : LoadBaseAddress ≤ s.header.addr
      · rw [step_eq_C acc s hA hB hC]
        by_cases hv : acc.loadSize < (s.header.addr + s.header.size - LoadBaseAddress) % U32
        · rw [if_pos hv]
        · rw [if_neg hv]
      · by_cases hD : s.header.addr = 0 ∧ s.header.type ≠ SHT_RPL_CRCS ∧
      s.header.type ≠ SHT_RPL_FILEINFO
        · rw [step_eq_D acc s hA hB hC hD]
        · rw [step_eq_E acc s hA hB hC hD]

theorem scanStep_dataSize (acc : RplFileInfo) (s : ElfSection) :
    (fileInfoScanStep acc s).dataSize =
      match dataCand s with
      | some v => max acc.dataSize v
      | none => acc.dataSize := by
  unfold dataCand
  by_cases hB : DataBaseAddress ≤ s.header.addr ∧ s.header.addr < LoadBaseAddress
  · rw [if_pos hB]
    show (fileInfoScanStep acc s).dataSize = max acc.dataSize ((s.header.addr + s.header.size - DataBaseAddress) % U32)
    have hA : ¬ (CodeBaseAddress ≤ s.header.addr ∧ s.header.addr < DataBaseAddress) := by
      simp only [CodeBaseAddress, DataBaseAddress, LoadBaseAddress] at hB ⊢
      omega
    rw [step_eq_B acc s hA hB]
    by_cases hv : acc.dataSize < (s.header.addr + s.header.size - DataBaseAddress) % U32
    · rw [if_pos hv]
      exact (Nat.max_eq_right (Nat.le_of_lt hv)).symm
    · rw [if_neg hv]
      exact (Nat.max_eq_left (Nat.le_of_not_lt hv)).symm
  · rw [if_neg hB]
    show (fileInfoScanStep acc s).dataSize = acc.dataSize
    by_cases hA : CodeBaseAddress ≤ s.header.addr ∧ s.header.addr < DataBaseAddress
    · rw [step_eq_A acc s hA]
      by_cases hv : acc.textSize < (s.header.addr + s.header.size - CodeBaseAddress) % U32
      · rw [if_pos hv]
      · rw [if_neg hv]
    · by_cases hC : LoadBaseAddress ≤ s.header.addr
      · rw [step_eq_C acc s hA hB hC]
        by_cases hv : acc.loadSize < (s.header.addr + s.header.size - LoadBaseAddress) % U32
        · rw [if_pos hv]
        · rw [if_neg hv]
      · by_cases hD : s.header.addr = 0 ∧ s.header.type ≠ SHT_RPL_CRCS ∧
      s.header.type ≠ SHT_RPL_FILEINFO
        · rw [step_eq_D acc s hA hB hC hD]
        · rw [step_eq_E acc s hA hB hC hD]

theorem scanStep_loadSize (acc : RplFileInfo) (s : ElfSection) :
    (fileInfoScanStep acc s).loadSize =
      match loadCand s with
      | some v => max acc.loadSize v
      | none => acc.loadSize := by
  unfold loadCand
  by_cases hC : LoadBaseAddress ≤ s.header.addr
  · rw [if_pos hC]
    show (fileInfoScanStep acc s).loadSize = max acc.loadSize ((s.header.addr + s.header.size - LoadBaseAddress) % U32)
    have hA : ¬ (CodeBaseAddress ≤ s.header.addr ∧ s.header.addr < DataBaseAddress) := by
      simp only [CodeBaseAddress, DataBaseAddress, LoadBaseAddress] at hC ⊢
      omega
    have hB : ¬ (DataBaseAddress ≤ s.header.addr ∧ s.header.addr < LoadBaseAddress) := by
      simp only [CodeBaseAddress, DataBaseAddress, LoadBaseAddress] at hC ⊢
      omega
    rw [step_eq_C acc s hA hB hC]
    by_cases hv : acc.loadSize < (s.header.addr + s.header.size - LoadBaseAddress) % U32
    · rw [if_pos hv]
      exact (Nat.max_eq_right (Nat.le_of_lt hv)).symm
    · rw [if_neg hv]
      exact (Nat.max_eq_left (Nat.le_of_not_lt hv)).symm
  · rw [if_neg hC]
    show (fileInfoScanStep acc s).loadSize = acc.loadSize
    by_cases hA : CodeBaseAddress ≤ s.header.addr ∧ s.header.addr < DataBaseAddress
    · rw [step_eq_A acc s hA]
      by_cases hv : acc.textSize < (s.header.addr + s.header.size - CodeBaseAddress) % U32
      · rw [if_pos hv]
      · rw [if_neg hv]
    · by_cases hB : DataBaseAddress ≤ s.header.addr ∧ s.header.addr < LoadBaseAddress
      · rw [step_eq_B acc s hA hB]
        by_cases hv : acc.dataSize < (s.header.addr + s.header.size - DataBaseAddress) % U32
        · rw [if_pos hv]
        · rw [if_neg hv]
      · by_cases hD : s.header.addr = 0 ∧ s.header.type ≠ SHT_RPL_CRCS ∧
      s.header.type ≠ SHT_RPL_FILEINFO
        · rw [step_eq_D acc s hA hB hC hD]
        · rw [step_eq_E acc s hA hB hC hD]

theorem scanStep_tempSize (acc : RplFileInfo) (s : ElfSection) :
    (fileInfoScanStep acc s).tempSize =
      match tempCand s with
      | some x => (acc.tempSize + x) % U32
      | none => acc.tempSize := by
  unfold tempCand
  by_cases hD : s.header.addr = 0 ∧ s.header.type ≠ SHT_RPL_CRCS ∧
      s.header.type ≠ SHT_RPL_FILEINFO
  · rw [if_pos hD]
    dsimp only
    have hA : ¬ (CodeBaseAddress ≤ s.header.addr ∧ s.header.addr < DataBaseAddress) := by
      simp only [CodeBaseAddress, DataBaseAddress, LoadBaseAddress]
      omega
    have hB : ¬ (DataBaseAddress ≤ s.header.addr ∧ s.header.addr < LoadBaseAddress) := by
      simp only [CodeBaseAddress, DataBaseAddress, LoadBaseAddress]
      omega
    have hC : ¬ (LoadBaseAddress ≤ s.header.addr) := by
      simp only [CodeBaseAddress, DataBaseAddress, LoadBaseAddress]
      omega
    rw [fileInfoScanStep, if_neg hA, if_neg hB, if_neg hC, if_pos hD]
  · rw [if_neg hD]
    rw [fileInfoScanStep]
    dsimp only
    split_ifs <;> rfl

theorem scanStep_aligns (acc : RplFileInfo) (s : ElfSection) :
    (fileInfoScanStep acc s).textAlign = acc.textAlign ∧
      (fileInfoScanStep acc s).dataAlign = acc.dataAlign ∧
      (fileInfoScanStep acc s).loadAlign = acc.loadAlign := by
  rw [fileInfoScanStep]
  dsimp only
  split_ifs <;> exact ⟨rfl, rfl, rfl⟩

theorem scan_textSize (secs : List ElfSection) : ∀ acc : RplFileInfo,
    (secs.foldl fileInfoScanStep acc).textSize =
      max acc.textSize ((secs.filterMap textCand).foldr max 0) := by
  induction secs with
  | nil => simp
  | cons s rest ih =>
    intro acc
    rw [List.foldl_cons, ih, scanStep_textSize]
    cases hc : textCand s
    · rw [List.filterMap_cons_none hc]
    · rw [List.filterMap_cons_some hc, List.foldr_cons, max_assoc]

theorem scan_dataSize (secs : List ElfSection) : ∀ acc : RplFileInfo,
    (secs.foldl fileInfoScanStep acc).dataSize =
      max acc.dataSize ((secs.filterMap dataCand).foldr max 0) := by
  induction secs with
  | nil => simp
  | cons s rest ih =>
    intro acc
    rw [List.foldl_cons, ih, scanStep_dataSize]
    cases hc : dataCand s
    · rw [List.filterMap_cons_none hc]
    · rw [List.filterMap_cons_some hc, List.foldr_cons, max_assoc]

theorem scan_loadSize (secs : List ElfSection) : ∀ acc : RplFileInfo,
    (secs.foldl fileInfoScanStep acc).loadSize =
      max acc.loadSize ((secs.filterMap loadCand).foldr max 0) := by
  induction secs with
  | nil => simp
  | cons s rest ih =>
    intro acc
    rw [List.foldl_cons, ih, scanStep_loadSize]
    cases hc : loadCand s
    · rw [List.filterMap_cons_none hc]
    · rw [List.filterMap_cons_some hc, List.foldr_cons, max_assoc]

theorem scan_tempSize (secs : List ElfSection) : ∀ acc : RplFileInfo,
    (secs.foldl fileInfoScanStep acc).tempSize =
      (secs.filterMap tempCand).foldl (fun t x => (t + x) % U32) acc.tempSize := by
  induction secs with
  | nil => simp
  | cons s rest ih =>
    intro acc
    rw [List.foldl_cons, ih, scanStep_tempSize]
    cases hc : tempCand s
    · rw [List.filterMap_cons_none hc]
    · rw [List.filterMap_cons_some hc, List.foldl_cons]

theorem scan_aligns (secs : List ElfSection) : ∀ acc : RplFileInfo,
    (secs.foldl fileInfoScanStep acc).textAlign = acc.textAlign ∧
      (secs.foldl fileInfoScanStep acc).dataAlign = acc.dataAlign ∧
      (secs.foldl fileInfoScanStep acc).loadAlign = acc.loadAlign := by
  induction secs with
  | nil => intro acc; exact ⟨rfl, rfl, rfl⟩
  | cons s rest ih =>
    intro acc
    obtain ⟨a1, a2, a3⟩ := scanStep_aligns acc s
    obtain ⟨b1, b2, b3⟩ := ih (fileInfoScanStep acc s)
    rw [List.foldl_cons]
    exact ⟨by rw [b1, a1], by rw [b2, a2], by rw [b3, a3]⟩

/-- Claim C7: after FILEINFO synthesis, textSize is align-up-32 of the
maximum text contribution (0 when none), dataSize align-up-4096 of the
data maximum, loadSize align-up-4 of the load maximum, tempSize the sum
of payload-size-plus-128 over address-0 non-CRCS non-FILEINFO sections
(all in 32-bit arithmetic); textSize, dataSize, loadSize are multiples of
32, 4096 and 4; the pass appends the serialized record as a new last
section. -/
theorem generateFileInfo_c7 (file : ElfFile) :
    (computeFileInfo file).textSize =
        alignUp ((file.sections.filterMap textCand).foldr max 0) 32 % U32 ∧
      (computeFileInfo file).dataSize =
        alignUp ((file.sections.filterMap dataCand).foldr max 0) 4096 % U32 ∧
      (computeFileInfo file).loadSize =
        alignUp ((file.sections.filterMap loadCand).foldr max 0) 4 % U32 ∧
      (computeFileInfo file).tempSize =
        (file.sections.filterMap tempCand).sum % U32 ∧
      32 ∣ (computeFileInfo file).textSize ∧
      4096 ∣ (computeFileInfo file).dataSize ∧
      4 ∣ (computeFileInfo file).loadSize ∧
      ((generateFileInfoSection file).sections.getD file.sections.length default).data =
        encodeFileInfo (computeFileInfo file) ∧
      (generateFileInfoSection file).sections.length = file.sections.length + 1 := by
  have h1 := scan_textSize file.sections initialFileInfo
  have h2 := scan_dataSize file.sections initialFileInfo
  have h3 := scan_loadSize file.sections initialFileInfo
  have h4 := scan_tempSize file.sections initialFileInfo
  obtain ⟨h5, h6, h7⟩ := scan_aligns file.sections initialFileInfo
  have htext : (computeFileInfo file).textSize =
      alignUp ((file.sections.filterMap textCand).foldr max 0) 32 % U32 := by
    unfold computeFileInfo
    dsimp only
    rw [h1, h5]
    show alignUp (max (initialFileInfo.textSize) _) (initialFileInfo.textAlign) % U32 = _
    rw [show initialFileInfo.textSize = 0 from rfl,
      show initialFileInfo.textAlign = 32 from rfl,
      Nat.max_eq_right (Nat.zero_le _)]
  have hdata : (computeFileInfo file).dataSize =
      alignUp ((file.sections.filterMap dataCand).foldr max 0) 4096 % U32 := by
    unfold computeFileInfo
    dsimp only
    rw [h2, h6]
    rw [show initialFileInfo.dataSize = 0 from rfl,
      show initialFileInfo.dataAlign = 4096 from rfl,
      Nat.max_eq_right (Nat.zero_le _)]
  have hload : (computeFileInfo file).loadSize =
      alignUp ((file.sections.filterMap loadCand).foldr max 0) 4 % U32 := by
    unfold computeFileInfo
    dsimp only
    rw [h3, h7]
    rw [show initialFileInfo.loadSize = 0 from rfl,
      show initialFileInfo.loadAlign = 4 from rfl,
      Nat.max_eq_right (Nat.zero_le _)]
  refine ⟨htext, hdata, hload, ?_, ?_, ?_, ?_, ?_, ?_⟩
  · unfold computeFileInfo
    dsimp only
    rw [h4, show initialFileInfo.tempSize = 0 from rfl,
      foldl_modAdd_eq_sum _ 0 U32_pos, Nat.zero_add]
  · rw [htext]
    exact (Nat.dvd_mod_iff (by decide)).mpr (dvd_alignUp _ _ (by decide))
  · rw [hdata]
    exact (Nat.dvd_mod_iff (by decide)).mpr (dvd_alignUp _ _ (by decide))
  · rw [hload]
    exact (Nat.dvd_mod_iff (by decide)).mpr (dvd_alignUp _ _ (by decide))
  · unfold generateFileInfoSection
    dsimp only
    rw [getD_of_lt _ _ _ (by simp)]
    rw [List.getElem_concat_length]
    rfl
  · unfold generateFileInfoSection
    simp

/-! ## Claim C5: generateCrcSection -/

theorem flatMap_be32_length (l : List Nat) : (l.flatMap be32).length = 4 * l.length := by
  induction l with
  | nil => rfl
  | cons x rest ih =>
    simp only [List.flatMap_cons, List.length_append, be32_length, ih,
      List.length_cons]
    omega

theorem parseBe32s_flatMap (l : List Nat) (h : ∀ x ∈ l, x < U32) :
    parseBe32s (l.flatMap be32) = l := by
  induction l with
  | nil => rfl
  | cons x rest ih =>
    simp only [List.flatMap_cons, be32, List.cons_append, List.nil_append]
    rw [parseBe32s, decBe32_be32, Nat.mod_eq_of_lt (h x (by simp))]
    rw [ih (fun y hy => h y (by simp [hy]))]

theorem crcValue_lt (crcFn : List Nat → Nat) (s : ElfSection) :
    crcValue crcFn s < U32 := by
  unfold crcValue
  split_ifs
  · exact Nat.mod_lt _ U32_pos
  · exact U32_pos

/-- Claim C5: after CRC-table synthesis, the RPL_CRCS payload is a vector
of big-endian 32-bit values of length 4 times the final section count;
the entry at the RPL_CRCS section's own index is 0; every other entry is
the CRC of the corresponding section's payload (0 when empty); and the
RPL_CRCS section sits immediately before the final RPL_FILEINFO
section. -/
theorem generateCrc_c5 (crcFn : List Nat → Nat) (file : ElfFile)
    (hne : file.sections.length ≠ 0)
    (hlast : (file.sections.getD (file.sections.length - 1) default).header.type =
      SHT_RPL_FILEINFO) :
    C5Spec crcFn file := by
  have hn1 : 1 ≤ file.sections.length := Nat.one_le_iff_ne_zero.mpr hne
  have hle : file.sections.length - 1 ≤ file.sections.length := Nat.sub_le _ _
  -- the new section list and the CRC byte vector
  have hsections : (generateCrcSection crcFn file).sections =
      file.sections.insertIdx (file.sections.length - 1)
        { header :=
            { name := 0, type := SHT_RPL_CRCS, flags := 0, addr := 0, offset := 0,
              size := 0, link := 0, info := 0, addralign := 4, entsize := 4 }
          name := ""
          data := ((file.sections.map (crcValue crcFn)).insertIdx
            (file.sections.length - 1) 0).flatMap be32 } := by
    unfold generateCrcSection
    dsimp only
    rw [List.length_map]
    rfl
  have hlen : (generateCrcSection crcFn file).sections.length =
      file.sections.length + 1 := by
    rw [hsections, List.length_insertIdx _ _ hle]
  have hgetmid : (generateCrcSection crcFn file).sections.getD
      (file.sections.length - 1) default =
      { header :=
          { name := 0, type := SHT_RPL_CRCS, flags := 0, addr := 0, offset := 0,
            size := 0, link := 0, info := 0, addralign := 4, entsize := 4 }
        name := ""
        data := ((file.sections.map (crcValue crcFn)).insertIdx
          (file.sections.length - 1) 0).flatMap be32 } := by
    rw [hsections, getD_of_lt _ _ _ (by rw [List.length_insertIdx _ _ hle]; omega)]
    exact List.getElem_insertIdx_self _ _ _ hle
  have hcrcsec : crcSectionOf crcFn file =
      { header :=
          { name := 0, type := SHT_RPL_CRCS, flags := 0, addr := 0, offset := 0,
            size := 0, link := 0, info := 0, addralign := 4, entsize := 4 }
        name := ""
        data := ((file.sections.map (crcValue crcFn)).insertIdx
          (file.sections.length - 1) 0).flatMap be32 } := by
    unfold crcSectionOf
    exact hgetmid
  have hgetlast : (generateCrcSection crcFn file).sections.getD
      file.sections.length default =
      file.sections.getD (file.sections.length - 1) default := by
    rw [hsections, getD_of_lt _ _ _ (by rw [List.length_insertIdx _ _ hle]; omega),
      getD_of_lt _ _ _ (by omega)]
    have h0 : file.sections.length - 1 + 0 + 1 = file.sections.length := by omega
    have h0lt : file.sections.length - 1 + 0 < file.sections.length := by omega
    have := List.getElem_insertIdx_add_succ file.sections
      { header :=
          { name := 0, type := SHT_RPL_CRCS, flags := 0, addr := 0, offset := 0,
            size := 0, link := 0, info := 0, addralign := 4, entsize := 4 }
        name := ""
        data := ((file.sections.map (crcValue crcFn)).insertIdx
          (file.sections.length - 1) 0).flatMap be32 }
      (file.sections.length - 1) 0 h0lt
    simp only [Nat.add_zero] at this h0 h0lt
    simp_rw [h0] at this
    rw [this]
  have hmemlt : ∀ x ∈ (file.sections.map (crcValue crcFn)).insertIdx
      (file.sections.length - 1) 0, x < U32 := by
    intro x hx
    rw [List.mem_insertIdx (by rw [List.length_map]; omega)] at hx
    rcases hx with h | h
    · subst h; exact U32_pos
    · obtain ⟨s, _, rfl⟩ := List.mem_map.mp h
      exact crcValue_lt crcFn s
  have hparse : parseBe32s (crcSectionOf crcFn file).data =
      (file.sections.map (crcValue crcFn)).insertIdx (file.sections.length - 1) 0 := by
    rw [hcrcsec]
    exact parseBe32s_flatMap _ hmemlt
  have hinslen : ((file.sections.map (crcValue crcFn)).insertIdx
      (file.sections.length - 1) 0).length = file.sections.length + 1 := by
    rw [List.length_insertIdx _ _ (by rw [List.length_map]; omega), List.length_map]
  have hmid : ∀ j, j < file.sections.length - 1 →
      (generateCrcSection crcFn file).sections.getD j default =
        file.sections.getD j default := by
    intro j hj
    rw [hsections, getD_of_lt _ _ _ (by rw [List.length_insertIdx _ _ hle]; omega),
      List.getElem_insertIdx_of_lt _ _ _ _ hj (by omega)]
    exact (getD_of_lt _ _ _ (by omega)).symm
  refine ⟨hlen, by rw [hcrcsec], by rw [hgetlast]; exact hlast, hmid, hgetlast, ?_,
    hparse, ?_, ?_⟩
  · rw [hcrcsec]
    dsimp only
    rw [flatMap_be32_length, hinslen, hlen]
  · rw [hparse, getD_of_lt _ _ _ (by rw [hinslen]; omega)]
    exact List.getElem_insertIdx_self _ _ _ (by rw [List.length_map]; omega)
  · intro j hjlt hjne
    rw [hparse]
    rcases Nat.lt_or_ge j (file.sections.length - 1) with hj | hj
    · rw [getD_of_lt _ _ _ (by rw [hinslen]; omega),
        List.getElem_insertIdx_of_lt _ _ _ _ hj (by rw [List.length_map]; omega)]
      have hjlt2 : j < file.sections.length := by omega
      rw [List.getElem_map, hmid j hj, getD_of_lt _ _ _ hjlt2]
    · have hjeq : j = file.sections.length := by
        rw [hlen] at hjlt
        omega
      subst hjeq
      rw [hgetlast]
      rw [getD_of_lt _ _ _ (by rw [hinslen]; omega)]
      have h0lt : file.sections.length - 1 + 0 < (file.sections.map
        (crcValue crcFn)).length := by rw [List.length_map]; omega
      have := List.getElem_insertIdx_add_succ (file.sections.map (crcValue crcFn))
        0 (file.sections.length - 1) 0 h0lt
      have h0 : file.sections.length - 1 + 0 + 1 = file.sections.length := by omega
      simp only [Nat.add_zero] at this h0
      simp_rw [h0] at this
      rw [this, List.getElem_map, getD_of_lt _ _ _ (by omega)]

theorem generateCrc_c5_witness :
    (c5File.sections.length ≠ 0 ∧
      (c5File.sections.getD (c5File.sections.length - 1) default).header.type =
        SHT_RPL_FILEINFO) ∧
    C5Spec (fun d => d.length) c5File :=
  ⟨⟨by decide, by decide⟩,
    generateCrc_c5 (fun d => d.length) c5File (by decide) (by decide)⟩

/-! ## Claims C2 and C9: fixRelocations -/

theorem processRelaRecords_spec (numSymbols : Nat) :
    ∀ (recs : List Rela) (unsup : List Nat) (ok : Bool),
      (processRelaRecords numSymbols recs unsup ok).1 =
          recs.map (loweredHi numSymbols) ∧
        (processRelaRecords numSymbols recs unsup ok).2.1 =
          recs.filterMap (loweredLo numSymbols) ∧
        (processRelaRecords numSymbols recs unsup ok).2.2.1 =
          (recs.filterMap unsupTypeOf).foldl insertType unsup ∧
        (processRelaRecords numSymbols recs unsup ok).2.2.2 =
          (ok && recs.all (fun r => ! rel32BadIndex numSymbols r)) := by
  intro recs
  induction recs with
  | nil =>
    intro unsup ok
    simp [processRelaRecords]
  | cons r rest ih =>
    intro unsup ok
    rw [processRelaRecords]
    by_cases hacc : r.info % 256 ∈ acceptedRelocationTypes
    · rw [if_pos hacc]
      obtain ⟨i1, i2, i3, i4⟩ := ih unsup ok
      have hrel : ¬ (r.info % 256 = R_PPC_REL32) := by
        intro h
        rw [h] at hacc
        exact absurd hacc (by decide)
      have hhi : loweredHi numSymbols r = r := by
        unfold loweredHi
        rw [if_neg (by intro h; exact hrel h.1)]
      have hlo : loweredLo numSymbols r = none := by
        unfold loweredLo
        rw [if_neg (by intro h; exact hrel h.1)]
      have hun : unsupTypeOf r = none := by
        unfold unsupTypeOf
        rw [if_neg (by intro h; exact h.1 hacc)]
      have hbad : rel32BadIndex numSymbols r = false := by
        unfold rel32BadIndex
        rw [if_neg (by intro h; exact hrel h.1)]
      refine ⟨?_, ?_, ?_, ?_⟩
      · rw [List.map_cons, hhi]
        dsimp only
        rw [i1]
      · rw [List.filterMap_cons_none hlo]
        dsimp only
        rw [i2]
      · rw [List.filterMap_cons_none hun]
        dsimp only
        rw [i3]
      · rw [List.all_cons, hbad]
        dsimp only
        rw [i4]
        simp
    · rw [if_neg hacc]
      by_cases hrel : r.info % 256 = R_PPC_REL32
      · rw [if_pos hrel]
        by_cases hidx : r.info / 256 < numSymbols
        · rw [if_pos hidx]
          obtain ⟨i1, i2, i3, i4⟩ := ih unsup ok
          have hhi : loweredHi numSymbols r =
              { offset := r.offset, info := r.info / 256 * 256 + R_PPC_GHS_REL16_HI,
                addend := r.addend } := by
            unfold loweredHi
            rw [if_pos ⟨hrel, hidx⟩]
          have hlo : loweredLo numSymbols r =
              some { offset := (r.offset + 2) % U32,
                     info := r.info / 256 * 256 + R_PPC_GHS_REL16_LO,
                     addend := (r.addend + 2) % U32 } := by
            unfold loweredLo
            rw [if_pos ⟨hrel, hidx⟩]
          have hun : unsupTypeOf r = none := by
            unfold unsupTypeOf
            rw [if_neg (by intro h; exact h.2 hrel)]
          have hbad : rel32BadIndex numSymbols r = false := by
            unfold rel32BadIndex
            rw [if_neg (by intro h; exact h.2 hidx)]
          refine ⟨?_, ?_, ?_, ?_⟩
          · rw [List.map_cons, hhi]
            dsimp only
            rw [i1]
          · rw [List.filterMap_cons_some hlo]
            dsimp only
            rw [i2]
          · rw [List.filterMap_cons_none hun]
            dsimp only
            rw [i3]
          · rw [List.all_cons, hbad]
            dsimp only
            rw [i4]
            simp
        · rw [if_neg hidx]
          obtain ⟨i1, i2, i3, i4⟩ := ih unsup false
          have hhi : loweredHi numSymbols r = r := by
            unfold loweredHi
            rw [if_neg (by intro h; exact hidx h.2)]
          have hlo : loweredLo numSymbols r = none := by
            unfold loweredLo
            rw [if_neg (by intro h; exact hidx h.2)]
          have hun : unsupTypeOf r = none := by
            unfold unsupTypeOf
            rw [if_neg (by intro h; exact h.2 hrel)]
          have hbad : rel32BadIndex numSymbols r = true := by
            unfold rel32BadIndex
            rw [if_pos ⟨hrel, hidx⟩]
          refine ⟨?_, ?_, ?_, ?_⟩
          · rw [List.map_cons, hhi]
            dsimp only
            rw [i1]
          · rw [List.filterMap_cons_none hlo]
            dsimp only
            rw [i2]
          · rw [List.filterMap_cons_none hun]
            dsimp only
            rw [i3]
          · rw [List.all_cons, hbad]
            dsimp only
            rw [i4]
            simp
      · rw [if_neg hrel]
        obtain ⟨i1, i2, i3, i4⟩ :=
          ih (if r.info % 256 ∈ unsup then unsup else unsup ++ [r.info % 256]) ok
        have hhi : loweredHi numSymbols r = r := by
          unfold loweredHi
          rw [if_neg (by intro h; exact hrel h.1)]
        have hlo : loweredLo numSymbols r = none := by
          unfold loweredLo
          rw [if_neg (by intro h; exact hrel h.1)]
        have hun : unsupTypeOf r = some (r.info % 256) := by
          unfold unsupTypeOf
          rw [if_pos ⟨hacc, hrel⟩]
        have hbad : rel32BadIndex numSymbols r = false := by
          unfold rel32BadIndex
          rw [if_neg (by intro h; exact hrel h.1)]
        refine ⟨?_, ?_, ?_, ?_⟩
        · rw [List.map_cons, hhi]
          dsimp only
          rw [i1]
        · rw [List.filterMap_cons_none hlo]
          dsimp only
          rw [i2]
        · rw [List.filterMap_cons_some hun, List.foldl_cons]
          dsimp only
          rw [i3]
          rfl
        · rw [List.all_cons, hbad]
          dsimp only
          rw [i4]
          simp

theorem all_map_general {α β : Type} (f : α → β) (l : List α) (p : β → Bool) :
    (l.map f).all p = l.all (fun a => p (f a)) := by
  induction l with
  | nil => rfl
  | cons a l ih => simp [List.all_cons, ih]

theorem insertType_mem (u : List Nat) (x t : Nat) :
    t ∈ insertType u x ↔ t ∈ u ∨ t = x := by
  unfold insertType
  split_ifs with h
  · constructor
    · exact fun ht => Or.inl ht
    · rintro (ht | rfl)
      · exact ht
      · exact h
  · simp

theorem insertType_fold_mem (l : List Nat) : ∀ (u : List Nat) (t : Nat),
    t ∈ l.foldl insertType u ↔ t ∈ u ∨ t ∈ l := by
  induction l with
  | nil => simp
  | cons x rest ih =>
    intro u t
    rw [List.foldl_cons, ih, insertType_mem, List.mem_cons]
    tauto

theorem insertType_nodup (u : List Nat) (x : Nat) (h : u.Nodup) :
    (insertType u x).Nodup := by
  unfold insertType
  split_ifs with hx
  · exact h
  · rw [← List.concat_eq_append]
    exact h.concat hx

theorem insertType_fold_nodup (l : List Nat) : ∀ (u : List Nat), u.Nodup →
    (l.foldl insertType u).Nodup := by
  induction l with
  | nil => exact fun u h => h
  | cons x rest ih =>
    intro u h
    rw [List.foldl_cons]
    exact ih _ (insertType_nodup u x h)

theorem fixRelocationsStep_not_rela (st : ElfFile × List Nat × Bool) (i : Nat)
    (h : ¬ ((st.1.sections.getD i default).header.type = SHT_RELA)) :
    fixRelocationsStep st i = st := by
  unfold fixRelocationsStep
  rw [if_neg h]

theorem fixRelocationsStep_rela (st : ElfFile × List Nat × Bool) (i : Nat)
    (h : (st.1.sections.getD i default).header.type = SHT_RELA) :
    fixRelocationsStep st i =
      ({ st.1 with sections := (st.1.sections.set i
          { st.1.sections.getD i default with
            header := { (st.1.sections.getD i default).header with flags := 0 }
            data := encodeRelas
                (processRelaRecords
                  ((st.1.sections.getD
                    (st.1.sections.getD i default).header.link default).data.length / 16)
                  (parseRelas (st.1.sections.getD i default).data) st.2.1 st.2.2).1 ++
              (st.1.sections.getD i default).data.drop
                (12 * ((st.1.sections.getD i default).data.length / 12)) ++
              encodeRelas
                (processRelaRecords
                  ((st.1.sections.getD
                    (st.1.sections.getD i default).header.link default).data.length / 16)
                  (parseRelas (st.1.sections.getD i default).data) st.2.1 st.2.2).2.1 }) },
       (processRelaRecords
          ((st.1.sections.getD
            (st.1.sections.getD i default).header.link default).data.length / 16)
          (parseRelas (st.1.sections.getD i default).data) st.2.1 st.2.2).2.2.1,
       (processRelaRecords
          ((st.1.sections.getD
            (st.1.sections.getD i default).header.link default).data.length / 16)
          (parseRelas (st.1.sections.getD i default).data) st.2.1 st.2.2).2.2.2) := by
  unfold fixRelocationsStep
  rw [if_pos h]

theorem fixRelocations_invariant (file : ElfFile) (hlink : LinksAreSymtabs file) :
    ∀ k, k ≤ file.sections.length →
      ((List.range k).foldl fixRelocationsStep (file, ([], true))).1.sections.length =
          file.sections.length ∧
      (∀ j, k ≤ j →
        ((List.range k).foldl fixRelocationsStep (file, ([], true))).1.sections.getD j
            default = file.sections.getD j default) ∧
      (∀ j, j < k →
        ((List.range k).foldl fixRelocationsStep (file, ([], true))).1.sections.getD j
            default = relaExpected file j) ∧
      ((List.range k).foldl fixRelocationsStep (file, ([], true))).2.1 =
        (((List.range k).flatMap (sectionRecsWithBound file)).filterMap
          (fun p => unsupTypeOf p.2)).foldl insertType [] ∧
      ((List.range k).foldl fixRelocationsStep (file, ([], true))).2.2 =
        ((List.range k).flatMap (sectionRecsWithBound file)).all
          (fun p => ! rel32BadIndex p.1 p.2) := by
  intro k
  induction k with
  | zero =>
    intro _
    refine ⟨rfl, fun j _ => rfl, fun j hj => absurd hj (Nat.not_lt_zero j), rfl, rfl⟩
  | succ k ih =>
    intro hk1
    have hkn : k < file.sections.length := Nat.lt_of_succ_le hk1
    obtain ⟨L, A, B, U, K⟩ := ih (Nat.le_of_lt hkn)
    rw [List.range_succ]
    simp only [List.foldl_append, List.foldl_cons, List.foldl_nil,
      List.flatMap_append, List.flatMap_cons, List.flatMap_nil, List.append_nil,
      List.filterMap_append, List.all_append]
    set st := (List.range k).foldl fixRelocationsStep (file, (([] : List Nat), true))
      with hst
    have hsk : st.1.sections.getD k default = file.sections.getD k default :=
      A k (Nat.le_refl k)
    by_cases hty : (file.sections.getD k default).header.type = SHT_RELA
    · -- the RELA case
      have hlinkval : st.1.sections.getD
          (st.1.sections.getD k default).header.link default =
          file.sections.getD ((file.sections.getD k default).header.link) default := by
        rw [hsk]
        rcases Nat.lt_or_ge ((file.sections.getD k default).header.link) k with hl | hl
        · rw [B _ hl]
          unfold relaExpected
          rw [if_neg]
          rw [hlink k hkn hty]
          decide
        · exact A _ hl
      have hrecs : sectionRecsWithBound file k =
          (parseRelas (file.sections.getD k default).data).map
            (fun r => (numSymsOf file k, r)) := by
        unfold sectionRecsWithBound
        rw [if_pos hty]
      obtain ⟨p1, p2, p3, p4⟩ := processRelaRecords_spec (numSymsOf file k)
        (parseRelas (file.sections.getD k default).data) st.2.1 st.2.2
      have hstep := fixRelocationsStep_rela st k (by rw [hsk]; exact hty)
      have hnum : (st.1.sections.getD
          (st.1.sections.getD k default).header.link default).data.length / 16 =
          numSymsOf file k := by
        rw [hlinkval]
        rfl
      rw [hstep]
      rw [hnum, hsk]
      rw [p1, p2, p3, p4]
      refine ⟨?_, ?_, ?_, ?_, ?_⟩
      · simp only [List.length_set]
        exact L
      · intro j hj
        dsimp only
        rw [getD_set_ne _ _ _ _ _ (by omega)]
        exact A j (by omega)
      · intro j hj
        dsimp only
        rcases Nat.lt_or_ge j k with hjk | hjk
        · rw [getD_set_ne _ _ _ _ _ (by omega)]
          exact B j hjk
        · have hjeq : j = k := by omega
          subst hjeq
          rw [getD_set_self _ _ _ _ (by rw [L]; exact hkn)]
          unfold relaExpected fixRelaSection
          rw [if_pos hty]
      · dsimp only
        rw [U, hrecs, List.filterMap_map]
        rfl
      · dsimp only
        rw [K, hrecs, all_map_general]
    · -- the non-RELA case
      have hstep := fixRelocationsStep_not_rela st k (by rw [hsk]; exact hty)
      rw [hstep]
      have hrecs : sectionRecsWithBound file k = [] := by
        unfold sectionRecsWithBound
        rw [if_neg hty]
      rw [hrecs]
      simp only [List.filterMap_nil, List.append_nil, List.all_nil, Bool.and_true]
      refine ⟨L, ?_, ?_, U, K⟩
      · intro j hj
        exact A j (by omega)
      · intro j hj
        rcases Nat.lt_or_ge j k with hjk | hjk
        · exact B j hjk
        · have hjeq : j = k := by omega
          subst hjeq
          rw [hsk]
          unfold relaExpected
          rw [if_neg hty]

theorem fixRelocationsAux_sections (file : ElfFile) (hlink : LinksAreSymtabs file)
    (j : Nat) :
    (fixRelocationsAux file).1.sections.getD j default = relaExpected file j := by
  obtain ⟨L, A, B, U, K⟩ :=
    fixRelocations_invariant file hlink file.sections.length (Nat.le_refl _)
  by_cases hj : j < file.sections.length
  · exact B j hj
  · have h1 : (fixRelocationsAux file).1.sections.getD j default =
        file.sections.getD j default := A j (Nat.le_of_not_lt hj)
    rw [h1, getD_of_le _ _ _ (Nat.le_of_not_lt hj)]
    unfold relaExpected
    rw [getD_of_le _ _ _ (Nat.le_of_not_lt hj), if_neg (by decide)]

theorem loweredHi_wf (n : Nat) (r : Rela) (h : RelaWF r) :
    RelaWF (loweredHi n r) := by
  obtain ⟨h1, h2, h3⟩ := h
  unfold loweredHi
  split_ifs
  · refine ⟨h1, ?_, h3⟩
    simp only [U32, R_PPC_GHS_REL16_HI] at *
    omega
  · exact ⟨h1, h2, h3⟩

theorem loweredLo_wf (n : Nat) (r : Rela) (h : RelaWF r) (x : Rela)
    (hx : loweredLo n r = some x) : RelaWF x := by
  obtain ⟨h1, h2, h3⟩ := h
  unfold loweredLo at hx
  split_ifs at hx
  · cases hx
    refine ⟨Nat.mod_lt _ U32_pos, ?_, Nat.mod_lt _ U32_pos⟩
    simp only [U32, R_PPC_GHS_REL16_LO] at *
    omega

theorem filterMap_congr_mem {α β : Type} (l : List α) (f g : α → Option β)
    (h : ∀ a ∈ l, f a = g a) : l.filterMap f = l.filterMap g := by
  induction l with
  | nil => rfl
  | cons a t ih =>
    rw [List.filterMap_cons, List.filterMap_cons, h a (by simp),
      ih (fun b hb => h b (by simp [hb]))]

/-- Claim C2: in the relocation-lowering pass, every R_PPC_REL32 record
with in-range symbol index i, addend a and offset o is rewritten in place
to R_PPC_GHS_REL16_HI with unchanged i, a, o, and contributes one new
R_PPC_GHS_REL16_LO record with index i, addend a + 2 and offset o + 2;
the new records are appended after all rewritten original records. -/
theorem fixRelocations_c2 (file : ElfFile) (j : Nat)
    (hlink : LinksAreSymtabs file)
    (hty : (file.sections.getD j default).header.type = SHT_RELA)
    (hdvd : 12 ∣ (file.sections.getD j default).data.length)
    (hidx : ∀ r ∈ parseRelas (file.sections.getD j default).data,
      r.info % 256 = R_PPC_REL32 → r.info / 256 < numSymsOf file j) :
    parseRelas ((fixRelocationsAux file).1.sections.getD j default).data =
      (parseRelas (file.sections.getD j default).data).map
        (fun r => if r.info % 256 = R_PPC_REL32 then
          { offset := r.offset, info := r.info / 256 * 256 + R_PPC_GHS_REL16_HI,
            addend := r.addend }
        else r) ++
      (parseRelas (file.sections.getD j default).data).filterMap
        (fun r => if r.info % 256 = R_PPC_REL32 then
          some { offset := (r.offset + 2) % U32,
                 info := r.info / 256 * 256 + R_PPC_GHS_REL16_LO,
                 addend := (r.addend + 2) % U32 }
        else none) := by
  rw [fixRelocationsAux_sections file hlink j]
  unfold relaExpected
  rw [if_pos hty]
  unfold fixRelaSection
  dsimp only
  have hdrop : (file.sections.getD j default).data.drop
      (12 * ((file.sections.getD j default).data.length / 12)) = [] := by
    rw [Nat.mul_div_cancel' hdvd, List.drop_length]
  rw [hdrop, List.append_nil]
  have hwf1 : ∀ r ∈ (parseRelas (file.sections.getD j default).data).map
      (loweredHi (numSymsOf file j)), RelaWF r := by
    intro r hr
    obtain ⟨t, ht, rfl⟩ := List.mem_map.mp hr
    exact loweredHi_wf _ t (parseRelas_wf _ t ht)
  have hwf2 : ∀ r ∈ (parseRelas (file.sections.getD j default).data).filterMap
      (loweredLo (numSymsOf file j)), RelaWF r := by
    intro r hr
    obtain ⟨t, ht, hsome⟩ := List.mem_filterMap.mp hr
    exact loweredLo_wf _ t (parseRelas_wf _ t ht) r hsome
  rw [parseRelas_encodeRelas _ hwf1]
  have h2 := parseRelas_encodeRelas _ hwf2 []
  rw [show parseRelas ([] : List Nat) = [] from rfl, List.append_nil,
    List.append_nil] at h2
  rw [h2]
  congr 1
  · refine List.map_congr_left (fun r hr => ?_)
    unfold loweredHi
    by_cases hrel : r.info % 256 = R_PPC_REL32
    · rw [if_pos ⟨hrel, hidx r hr hrel⟩, if_pos hrel]
    · rw [if_neg (fun h => hrel h.1), if_neg hrel]
  · refine filterMap_congr_mem _ _ _ (fun r hr => ?_)
    unfold loweredLo
    by_cases hrel : r.info % 256 = R_PPC_REL32
    · rw [if_pos ⟨hrel, hidx r hr hrel⟩, if_pos hrel]
    · rw [if_neg (fun h => hrel h.1), if_neg hrel]

theorem fixRelocations_c2_witness :
    (LinksAreSymtabs c2File ∧
      (c2File.sections.getD 1 default).header.type = SHT_RELA ∧
      12 ∣ (c2File.sections.getD 1 default).data.length ∧
      (∀ r ∈ parseRelas (c2File.sections.getD 1 default).data,
        r.info % 256 = R_PPC_REL32 → r.info / 256 < numSymsOf c2File 1)) ∧
    parseRelas ((fixRelocationsAux c2File).1.sections.getD 1 default).data =
      (parseRelas (c2File.sections.getD 1 default).data).map
        (fun r => if r.info % 256 = R_PPC_REL32 then
          { offset := r.offset, info := r.info / 256 * 256 + R_PPC_GHS_REL16_HI,
            addend := r.addend }
        else r) ++
      (parseRelas (c2File.sections.getD 1 default).data).filterMap
        (fun r => if r.info % 256 = R_PPC_REL32 then
          some { offset := (r.offset + 2) % U32,
                 info := r.info / 256 * 256 + R_PPC_GHS_REL16_LO,
                 addend := (r.addend + 2) % U32 }
        else none) :=
  ⟨⟨by unfold LinksAreSymtabs; decide, by decide, by decide, by decide⟩,
    fixRelocations_c2 c2File 1 (by unfold LinksAreSymtabs; decide) (by decide)
      (by decide) (by decide)⟩

/-- Claim C9: the relocation-lowering pass fails exactly when some record
has an unsupported type or some R_PPC_REL32 record's symbol index is out
of range for the linked symbol table; the reported unsupported types are
each reported once (the list has no duplicates and contains exactly the
types that occur); and every section ends up with its records accepted
unchanged or lowered as described by relaExpected. -/
theorem fixRelocations_c9 (file : ElfFile) (hlink : LinksAreSymtabs file) :
    (fixRelocationsOk file = true ↔
      (∀ p ∈ allRecsPairs file, unsupTypeOf p.2 = none) ∧
      (∀ p ∈ allRecsPairs file, rel32BadIndex p.1 p.2 = false)) ∧
    (fixRelocationsAux file).2.1.Nodup ∧
    (∀ t, t ∈ (fixRelocationsAux file).2.1 ↔
      ∃ p ∈ allRecsPairs file, unsupTypeOf p.2 = some t) ∧
    (∀ j, (fixRelocationsAux file).1.sections.getD j default =
      relaExpected file j) := by
  obtain ⟨L, A, B, U, K⟩ :=
    fixRelocations_invariant file hlink file.sections.length (Nat.le_refl _)
  have hU : (fixRelocationsAux file).2.1 =
      ((allRecsPairs file).filterMap (fun p => unsupTypeOf p.2)).foldl
        insertType [] := U
  have hK : (fixRelocationsAux file).2.2 =
      (allRecsPairs file).all (fun p => ! rel32BadIndex p.1 p.2) := K
  refine ⟨?_, ?_, ?_, fixRelocationsAux_sections file hlink⟩
  · unfold fixRelocationsOk
    rw [show (fixRelocationsAux file) =
      ((fixRelocationsAux file).1, (fixRelocationsAux file).2.1,
        (fixRelocationsAux file).2.2) from rfl]
    dsimp only
    rw [hU, hK]
    constructor
    · intro h
      obtain ⟨hall, hemp⟩ := Bool.and_eq_true_iff.mp h
      constructor
      · intro p hp
        have hnil : ((allRecsPairs file).filterMap (fun p => unsupTypeOf p.2)) = [] := by
          by_contra hne
          obtain ⟨x, hx⟩ := List.exists_mem_of_ne_nil _ hne
          have : x ∈ ((allRecsPairs file).filterMap
              (fun p => unsupTypeOf p.2)).foldl insertType [] := by
            rw [insertType_fold_mem]
            exact Or.inr hx
          rw [List.isEmpty_iff.mp hemp] at this
          simp at this
        cases hopt : unsupTypeOf p.2 with
        | none => rfl
        | some t =>
          exfalso
          have : t ∈ (allRecsPairs file).filterMap (fun p => unsupTypeOf p.2) :=
            List.mem_filterMap.mpr ⟨p, hp, hopt⟩
          rw [hnil] at this
          simp at this
      · intro p hp
        have := List.all_eq_true.mp hall p hp
        simpa using this
    · rintro ⟨h1, h2⟩
      rw [Bool.and_eq_true_iff]
      constructor
      · exact List.all_eq_true.mpr (fun p hp => by simp [h2 p hp])
      · rw [List.isEmpty_iff]
        have hnil : ((allRecsPairs file).filterMap (fun p => unsupTypeOf p.2)) = [] := by
          rw [List.filterMap_eq_nil_iff]
          intro p hp
          exact h1 p hp
        rw [hnil]
        rfl
  · rw [hU]
    exact insertType_fold_nodup _ [] List.nodup_nil
  · intro t
    rw [hU, insertType_fold_mem]
    simp only [List.not_mem_nil, false_or]
    exact List.mem_filterMap

theorem fixRelocations_c9_witness :
    LinksAreSymtabs c2File ∧ fixRelocationsOk c2File = true := by
  have hl : LinksAreSymtabs c2File := by unfold LinksAreSymtabs; decide
  exact ⟨hl, (fixRelocations_c9 c2File hl).1.mpr (by decide)⟩

theorem fixRelocations_size_frame (file : ElfFile) (hlink : LinksAreSymtabs file)
    (j : Nat) :
    ((fixRelocationsAux file).1.sections.getD j default).header.size =
      (file.sections.getD j default).header.size := by
  rw [fixRelocationsAux_sections file hlink j]
  unfold relaExpected
  dsimp only
  split
  · rfl
  · rfl

theorem filterMap_header_congr (F : ElfSection → Option Nat)
    (hf : ∀ s t : ElfSection, s.header = t.header → F s = F t) :
    ∀ l₁ l₂ : List ElfSection,
      l₁.map (fun s => s.header) = l₂.map (fun s => s.header) →
      l₁.filterMap F = l₂.filterMap F
  | [], [], _ => rfl
  | [], _ :: _, h => by simp at h
  | _ :: _, [], h => by simp at h
  | a :: l₁, b :: l₂, h => by
    rw [List.map_cons, List.map_cons, List.cons.injEq] at h
    rw [List.filterMap_cons, List.filterMap_cons, hf a b h.1,
      filterMap_header_congr F hf l₁ l₂ h.2]

theorem computeFileInfo_header_only (f g : ElfFile)
    (h : f.sections.map (fun s => s.header) = g.sections.map (fun s => s.header)) :
    (computeFileInfo f).textSize = (computeFileInfo g).textSize ∧
    (computeFileInfo f).dataSize = (computeFileInfo g).dataSize ∧
    (computeFileInfo f).loadSize = (computeFileInfo g).loadSize := by
  have htext := filterMap_header_congr textCand
    (fun s t hh => by unfold textCand; rw [hh]) f.sections g.sections h
  have hdata := filterMap_header_congr dataCand
    (fun s t hh => by unfold dataCand; rw [hh]) f.sections g.sections h
  have hload := filterMap_header_congr loadCand
    (fun s t hh => by unfold loadCand; rw [hh]) f.sections g.sections h
  obtain ⟨ha1, ha2, ha3⟩ := scan_aligns f.sections initialFileInfo
  obtain ⟨hb1, hb2, hb3⟩ := scan_aligns g.sections initialFileInfo
  unfold computeFileInfo
  dsimp only
  refine ⟨?_, ?_, ?_⟩
  · rw [ha1, hb1, scan_textSize, scan_textSize, htext]
  · rw [ha2, hb2, scan_dataSize, scan_dataSize, hdata]
  · rw [ha3, hb3, scan_loadSize, scan_loadSize, hload]

theorem offsetStep_data (st : ElfFile × Nat) (i j : Nat) :
    ((offsetStep st i).1.sections.getD j default).data =
      (st.1.sections.getD j default).data := by
  unfold offsetStep
  dsimp only
  by_cases hij : i = j ∧ i < st.1.sections.length
  · rw [getD_set_getD, if_pos hij, ← hij.1]
  · rw [getD_set_getD, if_neg hij]

theorem offsetStep_type (st : ElfFile × Nat) (i j : Nat) :
    ((offsetStep st i).1.sections.getD j default).header.type =
      (st.1.sections.getD j default).header.type := by
  unfold offsetStep
  dsimp only
  by_cases hij : i = j ∧ i < st.1.sections.length
  · rw [getD_set_getD, if_pos hij, ← hij.1]
  · rw [getD_set_getD, if_neg hij]

theorem offsetStep_flags (st : ElfFile × Nat) (i j : Nat) :
    ((offsetStep st i).1.sections.getD j default).header.flags =
      (st.1.sections.getD j default).header.flags := by
  unfold offsetStep
  dsimp only
  by_cases hij : i = j ∧ i < st.1.sections.length
  · rw [getD_set_getD, if_pos hij, ← hij.1]
  · rw [getD_set_getD, if_neg hij]

theorem offsetStep_length (st : ElfFile × Nat) (i : Nat) :
    (offsetStep st i).1.sections.length = st.1.sections.length := by
  unfold offsetStep
  dsimp only
  exact List.length_set _ _ _

theorem offsetStep_size (st : ElfFile × Nat) (i j : Nat) :
    ((offsetStep st i).1.sections.getD j default).header.size =
      (st.1.sections.getD j default).header.size ∨
    ((offsetStep st i).1.sections.getD j default).header.size =
      ((offsetStep st i).1.sections.getD j default).data.length % U32 := by
  by_cases hij : i = j ∧ i < st.1.sections.length
  · right
    rw [offsetStep_data]
    unfold offsetStep
    dsimp only
    rw [getD_set_getD, if_pos hij, ← hij.1]
  · left
    unfold offsetStep
    dsimp only
    rw [getD_set_getD, if_neg hij]

theorem offsetStep_size_self (st : ElfFile × Nat) (i : Nat)
    (h : i < st.1.sections.length) :
    ((offsetStep st i).1.sections.getD i default).header.size =
      ((offsetStep st i).1.sections.getD i default).data.length % U32 := by
  rw [offsetStep_data]
  unfold offsetStep
  dsimp only
  rw [getD_set_getD, if_pos ⟨rfl, h⟩]

theorem offsetVisit_data (p : ElfSection → Bool) (st : ElfFile × Nat) (i j : Nat) :
    ((offsetVisit p st i).1.sections.getD j default).data =
      (st.1.sections.getD j default).data := by
  unfold offsetVisit
  split
  · exact offsetStep_data st i j
  · rfl

theorem offsetVisit_type (p : ElfSection → Bool) (st : ElfFile × Nat) (i j : Nat) :
    ((offsetVisit p st i).1.sections.getD j default).header.type =
      (st.1.sections.getD j default).header.type := by
  unfold offsetVisit
  split
  · exact offsetStep_type st i j
  · rfl

theorem offsetVisit_flags (p : ElfSection → Bool) (st : ElfFile × Nat) (i j : Nat) :
    ((offsetVisit p st i).1.sections.getD j default).header.flags =
      (st.1.sections.getD j default).header.flags := by
  unfold offsetVisit
  split
  · exact offsetStep_flags st i j
  · rfl

theorem offsetVisit_length (p : ElfSection → Bool) (st : ElfFile × Nat) (i : Nat) :
    (offsetVisit p st i).1.sections.length = st.1.sections.length := by
  unfold offsetVisit
  split
  · exact offsetStep_length st i
  · rfl

theorem offsetVisit_size (p : ElfSection → Bool) (st : ElfFile × Nat) (i j : Nat) :
    ((offsetVisit p st i).1.sections.getD j default).header.size =
      (st.1.sections.getD j default).header.size ∨
    ((offsetVisit p st i).1.sections.getD j default).header.size =
      ((offsetVisit p st i).1.sections.getD j default).data.length % U32 := by
  unfold offsetVisit
  split
  · exact offsetStep_size st i j
  · left
    rfl

theorem visitFold_data (p : ElfSection → Bool) (L : List Nat) :
    ∀ (st : ElfFile × Nat) (j : Nat),
      ((L.foldl (offsetVisit p) st).1.sections.getD j default).data =
        (st.1.sections.getD j default).data := by
  induction L with
  | nil => intro st j; rfl
  | cons i t ih =>
    intro st j
    rw [List.foldl_cons, ih, offsetVisit_data]

theorem visitFold_type (p : ElfSection → Bool) (L : List Nat) :
    ∀ (st : ElfFile × Nat) (j : Nat),
      ((L.foldl (offsetVisit p) st).1.sections.getD j default).header.type =
        (st.1.sections.getD j default).header.type := by
  induction L with
  | nil => intro st j; rfl
  | cons i t ih =>
    intro st j
    rw [List.foldl_cons, ih, offsetVisit_type]

theorem visitFold_flags (p : ElfSection → Bool) (L : List Nat) :
    ∀ (st : ElfFile × Nat) (j : Nat),
      ((L.foldl (offsetVisit p) st).1.sections.getD j default).header.flags =
        (st.1.sections.getD j default).header.flags := by
  induction L with
  | nil => intro st j; rfl
  | cons i t ih =>
    intro st j
    rw [List.foldl_cons, ih, offsetVisit_flags]

theorem visitFold_length (p : ElfSection → Bool) (L : List Nat) :
    ∀ st : ElfFile × Nat,
      (L.foldl (offsetVisit p) st).1.sections.length = st.1.sections.length := by
  induction L with
  | nil => intro st; rfl
  | cons i t ih =>
    intro st
    rw [List.foldl_cons, ih, offsetVisit_length]

theorem visitFold_size (p : ElfSection → Bool) (L : List Nat) :
    ∀ (st : ElfFile × Nat) (j : Nat),
      ((L.foldl (offsetVisit p) st).1.sections.getD j default).header.size =
        (st.1.sections.getD j default).header.size ∨
      ((L.foldl (offsetVisit p) st).1.sections.getD j default).header.size =
        ((L.foldl (offsetVisit p) st).1.sections.getD j default).data.length % U32 := by
  induction L with
  | nil => intro st j; exact Or.inl rfl
  | cons i t ih =>
    intro st j
    rw [List.foldl_cons]
    rcases ih (offsetVisit p st i) j with h | h
    · rw [h]
      rcases offsetVisit_size p st i j with h2 | h2
      · exact Or.inl h2
      · right
        rw [h2, visitFold_data]
    · exact Or.inr h

theorem visitFold_synced (p : ElfSection → Bool) (L : List Nat)
    (st : ElfFile × Nat) (j : Nat)
    (h : (st.1.sections.getD j default).header.size =
      (st.1.sections.getD j default).data.length % U32) :
    ((L.foldl (offsetVisit p) st).1.sections.getD j default).header.size =
      ((L.foldl (offsetVisit p) st).1.sections.getD j default).data.length % U32 := by
  rcases visitFold_size p L st j with h2 | h2
  · rw [h2, h, visitFold_data]
  · exact h2

theorem visitFold_establishes (p : ElfSection → Bool) (hp : TypeFlagsPred p)
    (L : List Nat) :
    ∀ (st : ElfFile × Nat) (j : Nat), j ∈ L → j < st.1.sections.length →
      p (st.1.sections.getD j default) = true →
      ((L.foldl (offsetVisit p) st).1.sections.getD j default).header.size =
        ((L.foldl (offsetVisit p) st).1.sections.getD j default).data.length % U32 := by
  induction L with
  | nil => intro st j hj; exact absurd hj (List.not_mem_nil j)
  | cons i t ih =>
    intro st j hj hlen hpj
    rw [List.foldl_cons]
    rcases List.mem_cons.mp hj with h | h
    · subst h
      refine visitFold_synced p t (offsetVisit p st j) j ?_
      have hv : offsetVisit p st j = offsetStep st j := by
        unfold offsetVisit
        rw [if_pos hpj]
      rw [hv]
      exact offsetStep_size_self st j hlen
    · refine ih (offsetVisit p st i) j h ?_ ?_
      · rw [offsetVisit_length]
        exact hlen
      · rw [hp ((offsetVisit p st i).1.sections.getD j default)
          (st.1.sections.getD j default) (offsetVisit_type p st i j)
          (offsetVisit_flags p st i j)]
        exact hpj

theorem offsetBlock_eq_fold (p : ElfSection → Bool) (st : ElfFile × Nat) :
    offsetBlock p st = (List.range st.1.sections.length).foldl (offsetVisit p) st :=
  rfl

theorem offsetFirstOfType_data (t : Nat) (st : ElfFile × Nat) (j : Nat) :
    ((offsetFirstOfType t st).1.sections.getD j default).data =
      (st.1.sections.getD j default).data := by
  unfold offsetFirstOfType
  cases getSectionIndexByType st.1 t with
  | none => rfl
  | some i => exact offsetStep_data st i j

theorem offsetFirstOfType_type (t : Nat) (st : ElfFile × Nat) (j : Nat) :
    ((offsetFirstOfType t st).1.sections.getD j default).header.type =
      (st.1.sections.getD j default).header.type := by
  unfold offsetFirstOfType
  cases getSectionIndexByType st.1 t with
  | none => rfl
  | some i => exact offsetStep_type st i j

theorem offsetFirstOfType_flags (t : Nat) (st : ElfFile × Nat) (j : Nat) :
    ((offsetFirstOfType t st).1.sections.getD j default).header.flags =
      (st.1.sections.getD j default).header.flags := by
  unfold offsetFirstOfType
  cases getSectionIndexByType st.1 t with
  | none => rfl
  | some i => exact offsetStep_flags st i j

theorem offsetFirstOfType_length (t : Nat) (st : ElfFile × Nat) :
    (offsetFirstOfType t st).1.sections.length = st.1.sections.length := by
  unfold offsetFirstOfType
  cases getSectionIndexByType st.1 t with
  | none => rfl
  | some i => exact offsetStep_length st i

theorem offsetFirstOfType_size (t : Nat) (st : ElfFile × Nat) (j : Nat) :
    ((offsetFirstOfType t st).1.sections.getD j default).header.size =
      (st.1.sections.getD j default).header.size ∨
    ((offsetFirstOfType t st).1.sections.getD j default).header.size =
      ((offsetFirstOfType t st).1.sections.getD j default).data.length % U32 := by
  unfold offsetFirstOfType
  cases getSectionIndexByType st.1 t with
  | none => exact Or.inl rfl
  | some i => exact offsetStep_size st i j

theorem sizeRel_trans (f g h : ElfFile) (j : Nat)
    (hdh : (h.sections.getD j default).data = (g.sections.getD j default).data)
    (h1 : sizeRel f g j) (h2 : sizeRel g h j) : sizeRel f h j := by
  rcases h2 with h2 | h2
  · rcases h1 with h1 | h1
    · exact Or.inl (h2.trans h1)
    · right
      rw [h2, h1, hdh]
  · exact Or.inr h2

theorem offsetBlock_data (p : ElfSection → Bool) (st : ElfFile × Nat) (j : Nat) :
    ((offsetBlock p st).1.sections.getD j default).data =
      (st.1.sections.getD j default).data := by
  rw [offsetBlock_eq_fold]
  exact visitFold_data p _ st j

theorem offsetBlock_type (p : ElfSection → Bool) (st : ElfFile × Nat) (j : Nat) :
    ((offsetBlock p st).1.sections.getD j default).header.type =
      (st.1.sections.getD j default).header.type := by
  rw [offsetBlock_eq_fold]
  exact visitFold_type p _ st j

theorem offsetBlock_flags (p : ElfSection → Bool) (st : ElfFile × Nat) (j : Nat) :
    ((offsetBlock p st).1.sections.getD j default).header.flags =
      (st.1.sections.getD j default).header.flags := by
  rw [offsetBlock_eq_fold]
  exact visitFold_flags p _ st j

theorem offsetBlock_length (p : ElfSection → Bool) (st : ElfFile × Nat) :
    (offsetBlock p st).1.sections.length = st.1.sections.length := by
  rw [offsetBlock_eq_fold]
  exact visitFold_length p _ st

theorem offsetBlock_sizeRel (p : ElfSection → Bool) (st : ElfFile × Nat) (j : Nat) :
    sizeRel st.1 (offsetBlock p st).1 j := by
  rw [offsetBlock_eq_fold]
  exact visitFold_size p _ st j

theorem offsetFirstOfType_sizeRel (t : Nat) (st : ElfFile × Nat) (j : Nat) :
    sizeRel st.1 (offsetFirstOfType t st).1 j :=
  offsetFirstOfType_size t st j

theorem offsetBlock_synced (p : ElfSection → Bool) (st : ElfFile × Nat) (j : Nat)
    (h : (st.1.sections.getD j default).header.size =
      (st.1.sections.getD j default).data.length % U32) :
    ((offsetBlock p st).1.sections.getD j default).header.size =
      ((offsetBlock p st).1.sections.getD j default).data.length % U32 := by
  rw [offsetBlock_eq_fold]
  exact visitFold_synced p _ st j h

theorem offsetBlock_establishes (p : ElfSection → Bool) (hp : TypeFlagsPred p)
    (st : ElfFile × Nat) (j : Nat) (hlen : j < st.1.sections.length)
    (hpj : p (st.1.sections.getD j default) = true) :
    ((offsetBlock p st).1.sections.getD j default).header.size =
      ((offsetBlock p st).1.sections.getD j default).data.length % U32 := by
  rw [offsetBlock_eq_fold]
  exact visitFold_establishes p hp _ st j (List.mem_range.mpr hlen) hlen hpj

theorem tfp_data : TypeFlagsPred isDataOffsetSection := by
  intro s t h1 h2
  unfold isDataOffsetSection
  rw [h1, h2]

theorem tfp_exports : TypeFlagsPred isExportsSection := by
  intro s t h1 h2
  unfold isExportsSection
  rw [h1]

theorem tfp_imports : TypeFlagsPred isImportsSection := by
  intro s t h1 h2
  unfold isImportsSection
  rw [h1]

theorem tfp_symstr : TypeFlagsPred isSymStrSection := by
  intro s t h1 h2
  unfold isSymStrSection
  rw [h1]

theorem tfp_code : TypeFlagsPred isCodeSection := by
  intro s t h1 h2
  unfold isCodeSection
  rw [h1, h2]

theorem tfp_rela : TypeFlagsPred isRelaOrRelSection := by
  intro s t h1 h2
  unfold isRelaOrRelSection
  rw [h1]

theorem sizeRel_block (f : ElfFile) (p : ElfSection → Bool) (st : ElfFile × Nat)
    (j : Nat) (h : sizeRel f st.1 j) : sizeRel f (offsetBlock p st).1 j :=
  sizeRel_trans f st.1 (offsetBlock p st).1 j (offsetBlock_data p st j) h
    (offsetBlock_sizeRel p st j)

theorem sizeRel_first (f : ElfFile) (t : Nat) (st : ElfFile × Nat) (j : Nat)
    (h : sizeRel f st.1 j) : sizeRel f (offsetFirstOfType t st).1 j :=
  sizeRel_trans f st.1 (offsetFirstOfType t st).1 j (offsetFirstOfType_data t st j) h
    (offsetFirstOfType_sizeRel t st j)

theorem offsetFirstOfType_synced (t : Nat) (st : ElfFile × Nat) (j : Nat)
    (h : (st.1.sections.getD j default).header.size =
      (st.1.sections.getD j default).data.length % U32) :
    ((offsetFirstOfType t st).1.sections.getD j default).header.size =
      ((offsetFirstOfType t st).1.sections.getD j default).data.length % U32 := by
  rcases offsetFirstOfType_size t st j with h2 | h2
  · rw [h2, h, offsetFirstOfType_data]
  · exact h2

theorem offsetPipeline_sizeRel (st0 : ElfFile × Nat) (j : Nat) :
    sizeRel st0.1
      ((offsetBlock isRelaOrRelSection (offsetBlock isCodeSection
        (offsetBlock isSymStrSection (offsetBlock isImportsSection
          (offsetBlock isExportsSection (offsetBlock isDataOffsetSection
            (offsetFirstOfType SHT_RPL_FILEINFO
              (offsetFirstOfType SHT_RPL_CRCS st0)))))))).1) j :=
  sizeRel_block _ _ _ j (sizeRel_block _ _ _ j (sizeRel_block _ _ _ j
    (sizeRel_block _ _ _ j (sizeRel_block _ _ _ j (sizeRel_block _ _ _ j
      (sizeRel_first _ _ _ j (sizeRel_first _ _ _ j (Or.inl rfl))))))))

theorem offsetPipeline_synced (st0 : ElfFile × Nat) (j : Nat)
    (hlen : j < st0.1.sections.length)
    (hvis : isDataOffsetSection (st0.1.sections.getD j default) = true ∨
      isExportsSection (st0.1.sections.getD j default) = true ∨
      isImportsSection (st0.1.sections.getD j default) = true ∨
      isSymStrSection (st0.1.sections.getD j default) = true ∨
      isCodeSection (st0.1.sections.getD j default) = true ∨
      isRelaOrRelSection (st0.1.sections.getD j default) = true) :
    (((offsetBlock isRelaOrRelSection (offsetBlock isCodeSection
        (offsetBlock isSymStrSection (offsetBlock isImportsSection
          (offsetBlock isExportsSection (offsetBlock isDataOffsetSection
            (offsetFirstOfType SHT_RPL_FILEINFO
              (offsetFirstOfType SHT_RPL_CRCS st0)))))))).1).sections.getD j
        default).header.size =
      (((offsetBlock isRelaOrRelSection (offsetBlock isCodeSection
        (offsetBlock isSymStrSection (offsetBlock isImportsSection
          (offsetBlock isExportsSection (offsetBlock isDataOffsetSection
            (offsetFirstOfType SHT_RPL_FILEINFO
              (offsetFirstOfType SHT_RPL_CRCS st0)))))))).1).sections.getD j
        default).data.length % U32 := by
  rcases hvis with h | h | h | h | h | h
  · exact offsetBlock_synced _ _ j (offsetBlock_synced _ _ j (offsetBlock_synced _ _ j
      (offsetBlock_synced _ _ j (offsetBlock_synced _ _ j
        (offsetBlock_establishes _ tfp_data _ j
          (by rw [offsetFirstOfType_length, offsetFirstOfType_length]; exact hlen)
          ((tfp_data _ _
            (by rw [offsetFirstOfType_type, offsetFirstOfType_type])
            (by rw [offsetFirstOfType_flags, offsetFirstOfType_flags])).trans h))))))
  · exact offsetBlock_synced _ _ j (offsetBlock_synced _ _ j (offsetBlock_synced _ _ j
      (offsetBlock_synced _ _ j
        (offsetBlock_establishes _ tfp_exports _ j
          (by rw [offsetBlock_length, offsetFirstOfType_length,
            offsetFirstOfType_length]; exact hlen)
          ((tfp_exports _ _
            (by rw [offsetBlock_type, offsetFirstOfType_type, offsetFirstOfType_type])
            (by rw [offsetBlock_flags, offsetFirstOfType_flags,
              offsetFirstOfType_flags])).trans h)))))
  · exact offsetBlock_synced _ _ j (offsetBlock_synced _ _ j (offsetBlock_synced _ _ j
      (offsetBlock_establishes _ tfp_imports _ j
        (by rw [offsetBlock_length, offsetBlock_length, offsetFirstOfType_length,
          offsetFirstOfType_length]; exact hlen)
        ((tfp_imports _ _
          (by rw [offsetBlock_type, offsetBlock_type, offsetFirstOfType_type,
            offsetFirstOfType_type])
          (by rw [offsetBlock_flags, offsetBlock_flags, offsetFirstOfType_flags,
            offsetFirstOfType_flags])).trans h))))
  · exact offsetBlock_synced _ _ j (offsetBlock_synced _ _ j
      (offsetBlock_establishes _ tfp_symstr _ j
        (by rw [offsetBlock_length, offsetBlock_length, offsetBlock_length,
          offsetFirstOfType_length, offsetFirstOfType_length]; exact hlen)
        ((tfp_symstr _ _
          (by rw [offsetBlock_type, offsetBlock_type, offsetBlock_type,
            offsetFirstOfType_type, offsetFirstOfType_type])
          (by rw [offsetBlock_flags, offsetBlock_flags, offsetBlock_flags,
            offsetFirstOfType_flags, offsetFirstOfType_flags])).trans h)))
  · exact offsetBlock_synced _ _ j
      (offsetBlock_establishes _ tfp_code _ j
        (by
          rw [offsetBlock_length, offsetBlock_length, offsetBlock_length,
            offsetBlock_length, offsetFirstOfType_length, offsetFirstOfType_length]
          exact hlen)
        ((tfp_code _ _
          (by rw [offsetBlock_type, offsetBlock_type, offsetBlock_type,
            offsetBlock_type, offsetFirstOfType_type, offsetFirstOfType_type])
          (by rw [offsetBlock_flags, offsetBlock_flags, offsetBlock_flags,
            offsetBlock_flags, offsetFirstOfType_flags,
            offsetFirstOfType_flags])).trans h))
  · exact offsetBlock_establishes _ tfp_rela _ j
      (by
        rw [offsetBlock_length, offsetBlock_length, offsetBlock_length,
          offsetBlock_length, offsetBlock_length, offsetFirstOfType_length,
          offsetFirstOfType_length]
        exact hlen)
      ((tfp_rela _ _
        (by rw [offsetBlock_type, offsetBlock_type, offsetBlock_type,
          offsetBlock_type, offsetBlock_type, offsetFirstOfType_type,
          offsetFirstOfType_type])
        (by rw [offsetBlock_flags, offsetBlock_flags, offsetBlock_flags,
          offsetBlock_flags, offsetBlock_flags, offsetFirstOfType_flags,
          offsetFirstOfType_flags])).trans h)

theorem calcOffsets_data (file : ElfFile) (j : Nat) :
    ((calculateSectionOffsets file).sections.getD j default).data =
      (file.sections.getD j default).data := by
  unfold calculateSectionOffsets
  dsimp only
  rw [offsetBlock_data, offsetBlock_data, offsetBlock_data, offsetBlock_data,
    offsetBlock_data, offsetBlock_data, offsetFirstOfType_data,
    offsetFirstOfType_data]

theorem calcOffsets_sizeRel (file : ElfFile) (j : Nat) :
    sizeRel file (calculateSectionOffsets file) j := by
  unfold calculateSectionOffsets
  dsimp only
  exact offsetPipeline_sizeRel (file, _) j

theorem calcOffsets_visited_synced (file : ElfFile) (j : Nat)
    (hlen : j < file.sections.length)
    (hvis : isDataOffsetSection (file.sections.getD j default) = true ∨
      isExportsSection (file.sections.getD j default) = true ∨
      isImportsSection (file.sections.getD j default) = true ∨
      isSymStrSection (file.sections.getD j default) = true ∨
      isCodeSection (file.sections.getD j default) = true ∨
      isRelaOrRelSection (file.sections.getD j default) = true) :
    sizeSynced (calculateSectionOffsets file) j := by
  unfold sizeSynced calculateSectionOffsets
  dsimp only
  exact offsetPipeline_synced (file, _) j hlen hvis

/-- Claim C10: the relocation-lowering pass preserves every section's
declared header size while growing RELA payloads (concretely, in c2File
the lowered section's declared size stays below its payload length); the
FILEINFO text/data/load maxima are computed from declared header sizes
only, so two files with identical header lists get identical maxima
regardless of payloads; and the offset-layout pass never touches
payloads, only ever rewrites a declared size to the payload length, and
synchronizes the two for every section of its traversal buckets. -/
theorem staleSizes_c10 :
    (∀ file : ElfFile, LinksAreSymtabs file → ∀ j : Nat,
      ((fixRelocationsAux file).1.sections.getD j default).header.size =
        (file.sections.getD j default).header.size) ∧
    (((fixRelocationsAux c2File).1.sections.getD 1 default).header.size <
      ((fixRelocationsAux c2File).1.sections.getD 1 default).data.length) ∧
    (∀ f g : ElfFile,
      f.sections.map (fun s => s.header) = g.sections.map (fun s => s.header) →
      (computeFileInfo f).textSize = (computeFileInfo g).textSize ∧
      (computeFileInfo f).dataSize = (computeFileInfo g).dataSize ∧
      (computeFileInfo f).loadSize = (computeFileInfo g).loadSize) ∧
    (∀ (file : ElfFile) (j : Nat),
      ((calculateSectionOffsets file).sections.getD j default).data =
        (file.sections.getD j default).data ∧
      sizeRel file (calculateSectionOffsets file) j) ∧
    (∀ (file : ElfFile) (j : Nat), j < file.sections.length →
      (isDataOffsetSection (file.sections.getD j default) = true ∨
        isExportsSection (file.sections.getD j default) = true ∨
        isImportsSection (file.sections.getD j default) = true ∨
        isSymStrSection (file.sections.getD j default) = true ∨
        isCodeSection (file.sections.getD j default) = true ∨
        isRelaOrRelSection (file.sections.getD j default) = true) →
      sizeSynced (calculateSectionOffsets file) j) :=
  ⟨fun file hlink j => fixRelocations_size_frame file hlink j,
   by decide,
   fun f g h => computeFileInfo_header_only f g h,
   fun file j => ⟨calcOffsets_data file j, calcOffsets_sizeRel file j⟩,
   fun file j hlen hvis => calcOffsets_visited_synced file j hlen hvis⟩

theorem getD_append_left {α : Type} (l₁ l₂ : List α) (n : Nat) (d : α)
    (h : n < l₁.length) : (l₁ ++ l₂).getD n d = l₁.getD n d := by
  simp [List.getD_eq_getElem?_getD, List.getElem?_append_left h]

theorem getD_append_last {α : Type} (l : List α) (x d : α) :
    (l ++ [x]).getD l.length d = x := by
  simp [List.getD_eq_getElem?_getD]

theorem findIdxAux_lt {α : Type} (p : α → Bool) : ∀ (l : List α) (s j : Nat),
    List.findIdx? p l s = some j → j < s + l.length := by
  intro l
  induction l with
  | nil =>
    intro s j h
    rw [List.findIdx?_nil] at h
    exact absurd h (by simp)
  | cons a t ih =>
    intro s j h
    rw [List.findIdx?_cons] at h
    by_cases hp : p a
    · rw [if_pos hp] at h
      cases h
      simp
    · rw [if_neg hp] at h
      have := ih (s + 1) j h
      simp only [List.length_cons]
      omega

theorem getSectionIndexByType_lt (f : ElfFile) (t i : Nat)
    (h : getSectionIndexByType f t = some i) : i < f.sections.length := by
  unfold getSectionIndexByType at h
  have := findIdxAux_lt _ f.sections 0 i h
  omega

theorem offsetStep_getD_ne (st : ElfFile × Nat) (i j : Nat) (hij : i ≠ j) :
    (offsetStep st i).1.sections.getD j default = st.1.sections.getD j default := by
  unfold offsetStep
  dsimp only
  exact getD_set_ne _ _ _ _ _ hij

theorem offsetStep_offset_self (st : ElfFile × Nat) (i : Nat)
    (hi : i < st.1.sections.length) :
    ((offsetStep st i).1.sections.getD i default).header.offset = st.2 := by
  unfold offsetStep
  dsimp only
  rw [getD_set_self _ _ _ _ hi]

theorem traceChain_append (e : Nat × Nat × Nat) :
    ∀ (T : List (Nat × Nat × Nat)) (c c2 : Nat), traceChain c T c2 → e.2.1 = c2 →
      traceChain c (T ++ [e]) ((e.2.1 + e.2.2) % U32) := by
  intro T
  induction T with
  | nil =>
    intro c c2 h he
    exact ⟨he.trans h, rfl⟩
  | cons f rest ih =>
    intro c c2 h he
    exact ⟨h.1, ih _ c2 h.2 he⟩

theorem offsetStepTr_inv (file : ElfFile)
    (st : (ElfFile × Nat) × List (Nat × Nat × Nat)) (i : Nat)
    (hi : i < st.1.1.sections.length) (h : offTrInv file st) :
    offTrInv file (offsetStepTr st i) := by
  obtain ⟨hL, hD, hC, hS, hV⟩ := h
  refine ⟨?_, ?_, ?_, ?_, ?_⟩
  · rw [show (offsetStepTr st i).1 = offsetStep st.1 i from rfl, offsetStep_length]
    exact hL
  · intro j
    rw [show (offsetStepTr st i).1 = offsetStep st.1 i from rfl, offsetStep_data]
    exact hD j
  · exact traceChain_append _ st.2 _ st.1.2 hC rfl
  · intro k hk
    rw [show (offsetStepTr st i).2 = st.2 ++
      [(i, st.1.2, (st.1.1.sections.getD i default).data.length % U32)] from rfl]
      at hk ⊢
    rw [List.length_append] at hk
    by_cases hlt : k < st.2.length
    · rw [getD_append_left _ _ _ _ hlt]
      exact hS k hlt
    · have hk2 : k = st.2.length := by
        simp only [List.length_singleton] at hk
        omega
      subst hk2
      rw [getD_append_last]
      dsimp only
      rw [hD i]
  · intro k hk hnot
    rw [show (offsetStepTr st i).2 = st.2 ++
      [(i, st.1.2, (st.1.1.sections.getD i default).data.length % U32)] from rfl]
      at hk hnot ⊢
    rw [show (offsetStepTr st i).1 = offsetStep st.1 i from rfl]
    rw [List.length_append] at hk
    by_cases hlt : k < st.2.length
    · rw [getD_append_left _ _ _ _ hlt] at hnot ⊢
      rw [List.drop_append_of_le_length (by omega), List.map_append] at hnot
      have hne : (st.2.getD k (0, 0, 0)).1 ≠ i := by
        intro hcontra
        refine hnot (List.mem_append.mpr (Or.inr ?_))
        rw [hcontra]
        simp
      have hold := hV k hlt (fun hmem => hnot (List.mem_append.mpr (Or.inl hmem)))
      rw [offsetStep_getD_ne st.1 i _ (fun hcontra => hne hcontra.symm)]
      exact hold
    · have hk2 : k = st.2.length := by
        simp only [List.length_singleton] at hk
        omega
      subst hk2
      rw [getD_append_last]
      dsimp only
      constructor
      · exact offsetStep_offset_self st.1 i hi
      · rw [offsetStep_size_self st.1 i hi, offsetStep_data]

theorem visitFoldTr_inv (file : ElfFile) (p : ElfSection → Bool) (L : List Nat) :
    ∀ st, (∀ i ∈ L, i < file.sections.length) → offTrInv file st →
      offTrInv file (L.foldl (offsetVisitTr p) st) := by
  induction L with
  | nil => intro st _ h; exact h
  | cons i t ih =>
    intro st hmem h
    rw [List.foldl_cons]
    refine ih _ (fun a ha => hmem a (List.mem_cons_of_mem _ ha)) ?_
    unfold offsetVisitTr
    split
    · refine offsetStepTr_inv file st i ?_ h
      rw [h.1]
      exact hmem i (List.mem_cons_self i t)
    · exact h

theorem offsetBlockTr_inv (file : ElfFile) (p : ElfSection → Bool)
    (st : (ElfFile × Nat) × List (Nat × Nat × Nat)) (h : offTrInv file st) :
    offTrInv file (offsetBlockTr p st) := by
  unfold offsetBlockTr
  refine visitFoldTr_inv file p _ st (fun i hi => ?_) h
  rw [← h.1]
  exact List.mem_range.mp hi

theorem offsetFirstOfTypeTr_inv (file : ElfFile) (t : Nat)
    (st : (ElfFile × Nat) × List (Nat × Nat × Nat)) (h : offTrInv file st) :
    offTrInv file (offsetFirstOfTypeTr t st) := by
  unfold offsetFirstOfTypeTr
  cases hfi : getSectionIndexByType st.1.1 t with
  | none => exact h
  | some i =>
    refine offsetStepTr_inv file st i ?_ h
    exact getSectionIndexByType_lt _ _ _ hfi

theorem calcOffsetsTr_inv (file : ElfFile) :
    offTrInv file (calculateSectionOffsetsTr file) := by
  unfold calculateSectionOffsetsTr
  refine offsetBlockTr_inv file _ _ (offsetBlockTr_inv file _ _
    (offsetBlockTr_inv file _ _ (offsetBlockTr_inv file _ _
      (offsetBlockTr_inv file _ _ (offsetBlockTr_inv file _ _
        (offsetFirstOfTypeTr_inv file _ _ (offsetFirstOfTypeTr_inv file _ _ ?_)))))))
  refine ⟨rfl, fun j => rfl, rfl, ?_, ?_⟩
  · intro k hk
    simp at hk
  · intro k hk
    simp at hk

theorem offsetVisitTr_fst (p : ElfSection → Bool)
    (st : (ElfFile × Nat) × List (Nat × Nat × Nat)) (i : Nat) :
    (offsetVisitTr p st i).1 = offsetVisit p st.1 i := by
  unfold offsetVisitTr offsetVisit
  by_cases hp : p (st.1.1.sections.getD i default) = true
  · rw [if_pos hp, if_pos hp]
    exact rfl
  · rw [if_neg hp, if_neg hp]

theorem visitFoldTr_fst (p : ElfSection → Bool) (L : List Nat) :
    ∀ st : (ElfFile × Nat) × List (Nat × Nat × Nat),
      (L.foldl (offsetVisitTr p) st).1 = L.foldl (offsetVisit p) st.1 := by
  induction L with
  | nil => intro st; rfl
  | cons i t ih =>
    intro st
    rw [List.foldl_cons, List.foldl_cons, ih, offsetVisitTr_fst]

theorem offsetBlockTr_fst (p : ElfSection → Bool)
    (st : (ElfFile × Nat) × List (Nat × Nat × Nat)) :
    (offsetBlockTr p st).1 = offsetBlock p st.1 := by
  unfold offsetBlockTr
  rw [offsetBlock_eq_fold]
  exact visitFoldTr_fst p _ st

theorem offsetFirstOfTypeTr_fst (t : Nat)
    (st : (ElfFile × Nat) × List (Nat × Nat × Nat)) :
    (offsetFirstOfTypeTr t st).1 = offsetFirstOfType t st.1 := by
  unfold offsetFirstOfTypeTr offsetFirstOfType
  cases getSectionIndexByType st.1.1 t <;> rfl

theorem calcOffsetsTr_fst (file : ElfFile) :
    (calculateSectionOffsetsTr file).1.1 = calculateSectionOffsets file := by
  unfold calculateSectionOffsetsTr calculateSectionOffsets
  dsimp only
  rw [offsetBlockTr_fst, offsetBlockTr_fst, offsetBlockTr_fst, offsetBlockTr_fst,
    offsetBlockTr_fst, offsetBlockTr_fst, offsetFirstOfTypeTr_fst,
    offsetFirstOfTypeTr_fst]

theorem traceChain_getD_zero (T : List (Nat × Nat × Nat)) (c c2 : Nat)
    (h : traceChain c T c2) (h0 : 0 < T.length) :
    (T.getD 0 (0, 0, 0)).2.1 = c := by
  cases T with
  | nil => simp at h0
  | cons e rest => exact h.1

theorem traceChain_adjacent : ∀ (T : List (Nat × Nat × Nat)) (c c2 : Nat),
    traceChain c T c2 → ∀ k, k + 1 < T.length →
      (T.getD (k + 1) (0, 0, 0)).2.1 =
        ((T.getD k (0, 0, 0)).2.1 + (T.getD k (0, 0, 0)).2.2) % U32 := by
  intro T
  induction T with
  | nil =>
    intro c c2 h k hk
    simp at hk
  | cons e rest ih =>
    intro c c2 h k hk
    cases k with
    | zero =>
      have h0 : 0 < rest.length := by
        simp only [List.length_cons] at hk
        omega
      have := traceChain_getD_zero rest _ c2 h.2 h0
      simpa using this
    | succ k =>
      have := ih _ c2 h.2 k (by simp only [List.length_cons] at hk ⊢; omega)
      simpa using this

theorem trace_mono (T : List (Nat × Nat × Nat))
    (hadj : ∀ k, k + 1 < T.length →
      (T.getD (k + 1) (0, 0, 0)).2.1 =
        ((T.getD k (0, 0, 0)).2.1 + (T.getD k (0, 0, 0)).2.2) % U32)
    (hw : ∀ k, k < T.length →
      (T.getD k (0, 0, 0)).2.1 + (T.getD k (0, 0, 0)).2.2 < U32) :
    ∀ l k, k < l → l < T.length →
      (T.getD k (0, 0, 0)).2.1 + (T.getD k (0, 0, 0)).2.2 ≤
        (T.getD l (0, 0, 0)).2.1 := by
  intro l
  induction l with
  | zero =>
    intro k hk
    omega
  | succ l ih =>
    intro k hk hlt
    rcases Nat.lt_succ_iff_lt_or_eq.mp hk with h | h
    · have h1 := ih k h (by omega)
      have h2 := hadj l (by omega)
      have h3 := hw l (by omega)
      rw [h2, Nat.mod_eq_of_lt h3]
      omega
    · subst h
      have h2 := hadj k (by omega)
      have h3 := hw k (by omega)
      rw [h2, Nat.mod_eq_of_lt h3]

section

attribute [local irreducible] calculateSectionOffsetsTr traceChain

/-- Claim C8 (corrected): in the traced canonical traversal of the
offset pass, each visit is assigned the running cursor, which advances
by the visited section's payload length, so (absent 32-bit wrap) offsets
are NONDECREASING rather than strictly increasing, and the byte ranges
of any two visits do not overlap; every recorded size is the visited
section's payload length, and the last visit of an index writes exactly
its recorded offset and size into that section's header. Strict
increase fails for empty sections (calcOffsets_c8_cex). -/
theorem calcOffsets_c8 (file : ElfFile)
    (hw : ∀ k, k < (calculateSectionOffsetsTr file).2.length →
      ((calculateSectionOffsetsTr file).2.getD k (0, 0, 0)).2.1 +
        ((calculateSectionOffsetsTr file).2.getD k (0, 0, 0)).2.2 < U32) :
    (∀ k, k + 1 < (calculateSectionOffsetsTr file).2.length →
      ((calculateSectionOffsetsTr file).2.getD (k + 1) (0, 0, 0)).2.1 =
        (((calculateSectionOffsetsTr file).2.getD k (0, 0, 0)).2.1 +
          ((calculateSectionOffsetsTr file).2.getD k (0, 0, 0)).2.2) % U32) ∧
    (∀ k l, k < l → l < (calculateSectionOffsetsTr file).2.length →
      ((calculateSectionOffsetsTr file).2.getD k (0, 0, 0)).2.1 +
        ((calculateSectionOffsetsTr file).2.getD k (0, 0, 0)).2.2 ≤
        ((calculateSectionOffsetsTr file).2.getD l (0, 0, 0)).2.1) ∧
    (∀ k, k < (calculateSectionOffsetsTr file).2.length →
      ((calculateSectionOffsetsTr file).2.getD k (0, 0, 0)).2.2 =
        (file.sections.getD ((calculateSectionOffsetsTr file).2.getD k (0, 0, 0)).1
          default).data.length % U32) ∧
    (∀ k, k < (calculateSectionOffsetsTr file).2.length →
      ((calculateSectionOffsetsTr file).2.getD k (0, 0, 0)).1 ∉
        (((calculateSectionOffsetsTr file).2.drop (k + 1)).map (fun e => e.1)) →
      ((calculateSectionOffsets file).sections.getD
          ((calculateSectionOffsetsTr file).2.getD k (0, 0, 0)).1 default).header.offset =
        ((calculateSectionOffsetsTr file).2.getD k (0, 0, 0)).2.1 ∧
      ((calculateSectionOffsets file).sections.getD
          ((calculateSectionOffsetsTr file).2.getD k (0, 0, 0)).1 default).header.size =
        ((calculateSectionOffsetsTr file).2.getD k (0, 0, 0)).2.2) := by
  obtain ⟨hL, hD, hC, hS, hV⟩ := calcOffsetsTr_inv file
  have hadj := traceChain_adjacent _ _ _ hC
  refine ⟨hadj, ?_, hS, ?_⟩
  · intro k l hkl hl
    exact trace_mono (calculateSectionOffsetsTr file).2 hadj hw l k hkl hl
  · intro k hk hnot
    rw [← calcOffsetsTr_fst]
    exact hV k hk hnot

end

theorem calcOffsets_c8_witness :
    (∀ k, k < (calculateSectionOffsetsTr c8File).2.length →
      ((calculateSectionOffsetsTr c8File).2.getD k (0, 0, 0)).2.1 +
        ((calculateSectionOffsetsTr c8File).2.getD k (0, 0, 0)).2.2 < U32) ∧
    ((calculateSectionOffsetsTr c8File).2.getD 0 (0, 0, 0)).2.1 +
      ((calculateSectionOffsetsTr c8File).2.getD 0 (0, 0, 0)).2.2 ≤
      ((calculateSectionOffsetsTr c8File).2.getD 1 (0, 0, 0)).2.1 := by
  have hw : ∀ k, k < (calculateSectionOffsetsTr c8File).2.length →
      ((calculateSectionOffsetsTr c8File).2.getD k (0, 0, 0)).2.1 +
        ((calculateSectionOffsetsTr c8File).2.getD k (0, 0, 0)).2.2 < U32 := by decide
  exact ⟨hw, (calcOffsets_c8 c8File hw).2.1 0 1 (by decide) (by decide)⟩

theorem calcOffsets_c8_cex :
    calcOffsetsTrace c8File = [(0, 192, 0), (1, 192, 0)] ∧
    ¬ (((calculateSectionOffsets c8File).sections.getD 0 default).header.offset <
      ((calculateSectionOffsets c8File).sections.getD 1 default).header.offset) :=
  ⟨by decide, by decide⟩

theorem relocSectionUpd_header (o e n : Nat) (t : ElfSection) :
    (relocSectionUpd o e n t).header = t.header := by
  unfold relocSectionUpd
  split_ifs <;> rfl

theorem relocSectionUpd_dataLen (o e n : Nat) (t : ElfSection) :
    (relocSectionUpd o e n t).data.length = t.data.length := by
  unfold relocSectionUpd
  split_ifs
  · exact mapSymbolData_length _ _
  · exact mapRelaData_length _ _
  · rfl

theorem relocateSection_length (file : ElfFile) (tgt a : Nat) :
    (relocateSection file tgt a).sections.length = file.sections.length := by
  rw [relocateSection_eq]
  unfold setSectionAddr
  dsimp only
  rw [List.length_set, List.length_map]

theorem relocateSection_dataLen (file : ElfFile) (tgt a j : Nat) :
    ((relocateSection file tgt a).sections.getD j default).data.length =
      (file.sections.getD j default).data.length := by
  rw [relocateSection_getD]
  dsimp only
  split
  · exact relocSectionUpd_dataLen _ _ _ _
  · exact relocSectionUpd_dataLen _ _ _ _

theorem relocateSection_align (file : ElfFile) (tgt a j : Nat) :
    ((relocateSection file tgt a).sections.getD j default).header.addralign =
      (file.sections.getD j default).header.addralign := by
  rw [relocateSection_getD]
  dsimp only
  split
  · dsimp only
    exact congrArg SectionHeader.addralign (relocSectionUpd_header _ _ _ _)
  · exact congrArg SectionHeader.addralign (relocSectionUpd_header _ _ _ _)

theorem relocateSection_addr_ne (file : ElfFile) (tgt a j : Nat) (h : tgt ≠ j) :
    ((relocateSection file tgt a).sections.getD j default).header.addr =
      (file.sections.getD j default).header.addr := by
  rw [relocateSection_getD]
  dsimp only
  rw [if_neg (fun hc => h hc.1)]
  exact congrArg SectionHeader.addr (relocSectionUpd_header _ _ _ _)

theorem relocateSection_addr_self (file : ElfFile) (tgt a : Nat)
    (h : tgt < file.sections.length) :
    ((relocateSection file tgt a).sections.getD tgt default).header.addr = a := by
  rw [relocateSection_getD]
  dsimp only
  rw [if_pos ⟨rfl, h⟩]

theorem setAllocFlag_length (f : ElfFile) (i : Nat) :
    (setAllocFlag f i).sections.length = f.sections.length := by
  unfold setAllocFlag
  dsimp only
  exact List.length_set _ _ _

theorem setAllocFlag_dataLen (f : ElfFile) (i j : Nat) :
    ((setAllocFlag f i).sections.getD j default).data.length =
      (f.sections.getD j default).data.length := by
  unfold setAllocFlag
  dsimp only
  by_cases hij : i = j ∧ i < f.sections.length
  · rw [getD_set_getD, if_pos hij, ← hij.1]
  · rw [getD_set_getD, if_neg hij]

theorem setAllocFlag_align (f : ElfFile) (i j : Nat) :
    ((setAllocFlag f i).sections.getD j default).header.addralign =
      (f.sections.getD j default).header.addralign := by
  unfold setAllocFlag
  dsimp only
  by_cases hij : i = j ∧ i < f.sections.length
  · rw [getD_set_getD, if_pos hij, ← hij.1]
  · rw [getD_set_getD, if_neg hij]

theorem setAllocFlag_addr (f : ElfFile) (i j : Nat) :
    ((setAllocFlag f i).sections.getD j default).header.addr =
      (f.sections.getD j default).header.addr := by
  unfold setAllocFlag
  dsimp only
  by_cases hij : i = j ∧ i < f.sections.length
  · rw [getD_set_getD, if_pos hij, ← hij.1]
  · rw [getD_set_getD, if_neg hij]

theorem allocCond_length (b : Bool) (f : ElfFile) (i : Nat) :
    (if b then setAllocFlag f i else f).sections.length = f.sections.length := by
  cases b
  · rfl
  · exact setAllocFlag_length f i

theorem allocCond_dataLen (b : Bool) (f : ElfFile) (i j : Nat) :
    ((if b then setAllocFlag f i else f).sections.getD j default).data.length =
      (f.sections.getD j default).data.length := by
  cases b
  · rfl
  · exact setAllocFlag_dataLen f i j

theorem allocCond_align (b : Bool) (f : ElfFile) (i j : Nat) :
    ((if b then setAllocFlag f i else f).sections.getD j default).header.addralign =
      (f.sections.getD j default).header.addralign := by
  cases b
  · rfl
  · exact setAllocFlag_align f i j

theorem allocCond_addr (b : Bool) (f : ElfFile) (i j : Nat) :
    ((if b then setAllocFlag f i else f).sections.getD j default).header.addr =
      (f.sections.getD j default).header.addr := by
  cases b
  · rfl
  · exact setAllocFlag_addr f i j

theorem getSectionIndex_lt (f : ElfFile) (nm : String) (i : Nat)
    (h : getSectionIndex f nm = some i) : i < f.sections.length := by
  unfold getSectionIndex at h
  have := findIdxAux_lt _ f.sections 0 i h
  omega

theorem loadChain_append (file : ElfFile) (e : Nat × Nat × Nat) :
    ∀ (T : List (Nat × Nat × Nat)) (c c2 : Nat), loadChain file c T c2 →
      e.2.1 = c2 →
      loadChain file c (T ++ [e])
        ((e.2.1 + (file.sections.getD e.1 default).data.length) % U32) := by
  intro T
  induction T with
  | nil =>
    intro c c2 h he
    exact ⟨he.trans h, rfl⟩
  | cons f rest ih =>
    intro c c2 h he
    exact ⟨h.1, ih _ c2 h.2 he⟩

theorem loadVisit_inv (file : ElfFile) (st : LoadState) (i : Nat) (alloc : Bool)
    (hi : i < st.file.sections.length) (h : LInv file st) :
    LInv file (loadVisit alloc st i) := by
  obtain ⟨hL, hD, hA, hC, hE, hV⟩ := h
  unfold LInv loadVisit
  dsimp only
  refine ⟨?_, ?_, ?_, ?_, ?_, ?_⟩
  · rw [allocCond_length, relocateSection_length]
    exact hL
  · intro j
    rw [allocCond_dataLen, relocateSection_dataLen]
    exact hD j
  · intro j
    rw [allocCond_align, relocateSection_align]
    exact hA j
  · rw [allocCond_dataLen, relocateSection_dataLen, hD i]
    exact loadChain_append file _ st.trace _ st.cursor hC rfl
  · intro k hk
    rw [List.length_append] at hk
    by_cases hlt : k < st.trace.length
    · rw [getD_append_left _ _ _ _ hlt]
      exact hE k hlt
    · have hk2 : k = st.trace.length := by
        simp only [List.length_singleton] at hk
        omega
      subst hk2
      rw [getD_append_last]
      dsimp only
      rw [hA i]
  · intro k hk hnot
    rw [List.length_append] at hk
    by_cases hlt : k < st.trace.length
    · rw [getD_append_left _ _ _ _ hlt] at hnot ⊢
      rw [List.drop_append_of_le_length (by omega), List.map_append] at hnot
      have hne : (st.trace.getD k (0, 0, 0)).1 ≠ i := by
        intro hcontra
        refine hnot (List.mem_append.mpr (Or.inr ?_))
        rw [hcontra]
        simp
      have hold := hV k hlt (fun hmem => hnot (List.mem_append.mpr (Or.inl hmem)))
      rw [allocCond_addr,
        relocateSection_addr_ne st.file i _ _ (fun hc => hne hc.symm)]
      exact hold
    · have hk2 : k = st.trace.length := by
        simp only [List.length_singleton] at hk
        omega
      subst hk2
      rw [getD_append_last]
      dsimp only
      rw [allocCond_addr, relocateSection_addr_self st.file i _ hi]

theorem loadStepNamed_inv (file : ElfFile) (alloc : Bool) (nm : String)
    (st : LoadState) (h : LInv file st) : LInv file (loadStepNamed alloc nm st) := by
  unfold loadStepNamed
  cases hfi : getSectionIndex st.file nm with
  | none => exact h
  | some i => exact loadVisit_inv file st i alloc (getSectionIndex_lt _ _ _ hfi) h

theorem loadStepImport_inv (file : ElfFile) (st : LoadState) (i : Nat)
    (hi : i < file.sections.length) (h : LInv file st) :
    LInv file (loadStepImport st i) := by
  unfold loadStepImport
  split
  · refine loadVisit_inv file st i false ?_ h
    rw [h.1]
    exact hi
  · exact h

theorem loadFoldImport_inv (file : ElfFile) (L : List Nat) :
    ∀ st, (∀ i ∈ L, i < file.sections.length) → LInv file st →
      LInv file (L.foldl loadStepImport st) := by
  induction L with
  | nil => intro st _ h; exact h
  | cons i t ih =>
    intro st hmem h
    rw [List.foldl_cons]
    exact ih _ (fun a ha => hmem a (List.mem_cons_of_mem _ ha))
      (loadStepImport_inv file st i (hmem i (List.mem_cons_self i t)) h)

theorem fixLoader_inv (file : ElfFile) : LInv file (fixLoaderVirtualAddressesAux file) := by
  unfold fixLoaderVirtualAddressesAux
  dsimp only
  have h0 : LInv file { file := file, cursor := LoadBaseAddress, trace := [] } := by
    refine ⟨rfl, fun j => rfl, fun j => rfl, rfl, ?_, ?_⟩
    · intro k hk
      simp at hk
    · intro k hk
      simp at hk
  have h1 := loadStepNamed_inv file false ".fexports" _ h0
  have h2 := loadStepNamed_inv file false ".dexports" _ h1
  have h3 := loadStepNamed_inv file true ".symtab" _ h2
  have h4 := loadStepNamed_inv file true ".strtab" _ h3
  have h5 := loadStepNamed_inv file true ".shstrtab" _ h4
  refine loadFoldImport_inv file _ _ (fun i hi => ?_) h5
  rw [← h5.1]
  exact List.mem_range.mp hi

theorem alignUp_ge (v a : Nat) : v ≤ alignUp v a := by
  unfold alignUp
  split
  · exact Nat.le_refl v
  · rename_i hne
    have h1 : 0 < a := Nat.pos_of_ne_zero hne
    have hdm := Nat.div_add_mod (v + a - 1) a
    have hml : (v + a - 1) % a < a := Nat.mod_lt _ h1
    omega

theorem loadChain_getD_zero (file : ElfFile) (T : List (Nat × Nat × Nat))
    (c c2 : Nat) (h : loadChain file c T c2) (h0 : 0 < T.length) :
    (T.getD 0 (0, 0, 0)).2.1 = c := by
  cases T with
  | nil => simp at h0
  | cons e rest => exact h.1

theorem loadChain_adjacent (file : ElfFile) :
    ∀ (T : List (Nat × Nat × Nat)) (c c2 : Nat), loadChain file c T c2 →
      ∀ k, k + 1 < T.length →
      (T.getD (k + 1) (0, 0, 0)).2.1 =
        ((T.getD k (0, 0, 0)).2.1 +
          (file.sections.getD (T.getD k (0, 0, 0)).1 default).data.length) % U32 := by
  intro T
  induction T with
  | nil =>
    intro c c2 h k hk
    simp at hk
  | cons e rest ih =>
    intro c c2 h k hk
    cases k with
    | zero =>
      have h0 : 0 < rest.length := by
        simp only [List.length_cons] at hk
        omega
      have := loadChain_getD_zero file rest _ c2 h.2 h0
      simpa using this
    | succ k =>
      have := ih _ c2 h.2 k (by simp only [List.length_cons] at hk ⊢; omega)
      simpa using this

theorem loadChain_lb (file : ElfFile) :
    ∀ (T : List (Nat × Nat × Nat)) (c c2 : Nat), loadChain file c T c2 →
      (∀ k, k < T.length →
        (T.getD k (0, 0, 0)).2.1 +
          (file.sections.getD (T.getD k (0, 0, 0)).1 default).data.length < U32) →
      ∀ k, k < T.length → c ≤ (T.getD k (0, 0, 0)).2.1 := by
  intro T
  induction T with
  | nil =>
    intro c c2 h hw k hk
    simp at hk
  | cons e rest ih =>
    intro c c2 h hw k hk
    cases k with
    | zero =>
      simp only [List.getD_cons_zero]
      exact Nat.le_of_eq h.1.symm
    | succ k =>
      have hw0 := hw 0 (by simp)
      simp only [List.getD_cons_zero] at hw0
      have hc2 : (e.2.1 + (file.sections.getD e.1 default).data.length) % U32 =
          e.2.1 + (file.sections.getD e.1 default).data.length :=
        Nat.mod_eq_of_lt hw0
      have hrest := ih _ c2 h.2 (fun k2 hk2 => by
        have := hw (k2 + 1) (by simp only [List.length_cons]; omega)
        simpa using this) k (by simp only [List.length_cons] at hk; omega)
      simp only [List.getD_cons_succ]
      calc c = e.2.1 := h.1.symm
        _ ≤ e.2.1 + (file.sections.getD e.1 default).data.length :=
          Nat.le_add_right _ _
        _ = (e.2.1 + (file.sections.getD e.1 default).data.length) % U32 :=
          hc2.symm
        _ ≤ (rest.getD k (0, 0, 0)).2.1 := hrest

section

attribute [local irreducible] fixLoaderVirtualAddressesAux loadChain

/-- Claim C4 (corrected): the loader pass visits .fexports, .dexports,
.symtab, .strtab, .shstrtab and every RPL_IMPORTS section; each visit
places the section at the cursor aligned up to the section's addralign,
but the cursor then advances from its UNALIGNED value by the payload
length, so addresses of processed sections need not be distinct
(fixLoader_c4_cex shows a collision). What holds (absent 32-bit wrap):
every assigned address is the pre-visit cursor aligned to the section's
addralign, the cursor starts at LOAD_BASE and advances by payload
lengths, every assigned address is at least LOAD_BASE and a multiple of
the section's (nonzero) addralign, and the last visit of a section
writes exactly its recorded address into that header. -/
theorem fixLoader_c4 (file : ElfFile)
    (hw : ∀ k, k < (fixLoaderVirtualAddressesAux file).trace.length →
      ((fixLoaderVirtualAddressesAux file).trace.getD k (0, 0, 0)).2.1 +
        (file.sections.getD
          ((fixLoaderVirtualAddressesAux file).trace.getD k (0, 0, 0)).1
          default).data.length < U32 ∧
      alignUp ((fixLoaderVirtualAddressesAux file).trace.getD k (0, 0, 0)).2.1
        (file.sections.getD
          ((fixLoaderVirtualAddressesAux file).trace.getD k (0, 0, 0)).1
          default).header.addralign < U32) :
    (∀ k, k < (fixLoaderVirtualAddressesAux file).trace.length →
      ((fixLoaderVirtualAddressesAux file).trace.getD k (0, 0, 0)).2.2 =
        alignUp ((fixLoaderVirtualAddressesAux file).trace.getD k (0, 0, 0)).2.1
          (file.sections.getD
            ((fixLoaderVirtualAddressesAux file).trace.getD k (0, 0, 0)).1
            default).header.addralign % U32) ∧
    (0 < (fixLoaderVirtualAddressesAux file).trace.length →
      ((fixLoaderVirtualAddressesAux file).trace.getD 0 (0, 0, 0)).2.1 =
        LoadBaseAddress) ∧
    (∀ k, k + 1 < (fixLoaderVirtualAddressesAux file).trace.length →
      ((fixLoaderVirtualAddressesAux file).trace.getD (k + 1) (0, 0, 0)).2.1 =
        (((fixLoaderVirtualAddressesAux file).trace.getD k (0, 0, 0)).2.1 +
          (file.sections.getD
            ((fixLoaderVirtualAddressesAux file).trace.getD k (0, 0, 0)).1
            default).data.length) % U32) ∧
    (∀ k, k < (fixLoaderVirtualAddressesAux file).trace.length →
      LoadBaseAddress ≤
        ((fixLoaderVirtualAddressesAux file).trace.getD k (0, 0, 0)).2.2 ∧
      ((file.sections.getD
          ((fixLoaderVirtualAddressesAux file).trace.getD k (0, 0, 0)).1
          default).header.addralign ≠ 0 →
        (file.sections.getD
          ((fixLoaderVirtualAddressesAux file).trace.getD k (0, 0, 0)).1
          default).header.addralign ∣
          ((fixLoaderVirtualAddressesAux file).trace.getD k (0, 0, 0)).2.2)) ∧
    (∀ k, k < (fixLoaderVirtualAddressesAux file).trace.length →
      ((fixLoaderVirtualAddressesAux file).trace.getD k (0, 0, 0)).1 ∉
        (((fixLoaderVirtualAddressesAux file).trace.drop (k + 1)).map
          (fun e => e.1)) →
      ((fixLoaderVirtualAddresses file).sections.getD
          ((fixLoaderVirtualAddressesAux file).trace.getD k (0, 0, 0)).1
          default).header.addr =
        ((fixLoaderVirtualAddressesAux file).trace.getD k (0, 0, 0)).2.2) := by
  obtain ⟨hL, hD, hA, hC, hE, hV⟩ := fixLoader_inv file
  refine ⟨hE, ?_, ?_, ?_, ?_⟩
  · intro h0
    exact loadChain_getD_zero file _ _ _ hC h0
  · exact loadChain_adjacent file _ _ _ hC
  · intro k hk
    have hlb := loadChain_lb file _ _ _ hC (fun k2 hk2 => (hw k2 hk2).1) k hk
    have haddr := hE k hk
    constructor
    · rw [haddr, Nat.mod_eq_of_lt (hw k hk).2]
      exact le_trans hlb (alignUp_ge _ _)
    · intro hne
      rw [haddr, Nat.mod_eq_of_lt (hw k hk).2]
      exact dvd_alignUp _ _ hne
  · intro k hk hnot
    rw [show fixLoaderVirtualAddresses file = (fixLoaderVirtualAddressesAux file).file
      from rfl]
    exact hV k hk hnot

end

theorem fixLoader_c4_witness :
    (∀ k, k < (fixLoaderVirtualAddressesAux c4File).trace.length →
      ((fixLoaderVirtualAddressesAux c4File).trace.getD k (0, 0, 0)).2.1 +
        (c4File.sections.getD
          ((fixLoaderVirtualAddressesAux c4File).trace.getD k (0, 0, 0)).1
          default).data.length < U32 ∧
      alignUp ((fixLoaderVirtualAddressesAux c4File).trace.getD k (0, 0, 0)).2.1
        (c4File.sections.getD
          ((fixLoaderVirtualAddressesAux c4File).trace.getD k (0, 0, 0)).1
          default).header.addralign < U32) ∧
    (0 < (fixLoaderVirtualAddressesAux c4File).trace.length →
      ((fixLoaderVirtualAddressesAux c4File).trace.getD 0 (0, 0, 0)).2.1 =
        LoadBaseAddress) := by
  have hw : ∀ k, k < (fixLoaderVirtualAddressesAux c4File).trace.length →
      ((fixLoaderVirtualAddressesAux c4File).trace.getD k (0, 0, 0)).2.1 +
        (c4File.sections.getD
          ((fixLoaderVirtualAddressesAux c4File).trace.getD k (0, 0, 0)).1
          default).data.length < U32 ∧
      alignUp ((fixLoaderVirtualAddressesAux c4File).trace.getD k (0, 0, 0)).2.1
        (c4File.sections.getD
          ((fixLoaderVirtualAddressesAux c4File).trace.getD k (0, 0, 0)).1
          default).header.addralign < U32 := by decide
  exact ⟨hw, (fixLoader_c4 c4File hw).2.1⟩

theorem mem_idxWhere {sections : List ElfSection} {p : ElfSection → Bool} {i : Nat} :
    i ∈ idxWhere sections p ↔
      i < sections.length ∧ p (sections.getD i default) = true := by
  unfold idxWhere
  rw [List.mem_filter, List.mem_range]

theorem idxWhere_pairwise (sections : List ElfSection) (p : ElfSection → Bool) :
    (idxWhere sections p).Pairwise (· < ·) := by
  unfold idxWhere
  exact (List.pairwise_lt_range _).filter _

theorem bucketRank_of_code {s : ElfSection} (h : isCodeSection s = true) :
    bucketRank s = 1 := by
  unfold bucketRank
  rw [if_pos h]

theorem bucketRank_of_exports {s : ElfSection} (h : isExportsSection s = true) :
    bucketRank s = 2 := by
  have ht : s.header.type = SHT_RPL_EXPORTS := by
    unfold isExportsSection at h
    simpa using h
  unfold bucketRank isCodeSection isExportsSection
  rw [ht]
  simp [SHT_RPL_EXPORTS, SHT_PROGBITS]

theorem bucketRank_of_rodata {s : ElfSection} (h : isRodataSection s = true) :
    bucketRank s = 3 := by
  have h2 := h
  unfold isRodataSection at h2
  rw [Bool.and_eq_true, Bool.and_eq_true] at h2
  obtain ⟨⟨ht', he'⟩, hw'⟩ := h2
  have ht : s.header.type = SHT_PROGBITS := by simpa using ht'
  have hee : s.header.flags &&& SHF_EXECINSTR = 0 := by simpa using he'
  have hww : s.header.flags &&& SHF_WRITE = 0 := by simpa using hw'
  unfold bucketRank isCodeSection isExportsSection isRodataSection
  rw [ht]
  simp [SHT_PROGBITS, SHT_RPL_EXPORTS, hee, hww]

theorem bucketRank_of_wdata {s : ElfSection} (h : isWdataSection s = true) :
    bucketRank s = 4 := by
  have h2 := h
  unfold isWdataSection at h2
  rw [Bool.and_eq_true, Bool.and_eq_true] at h2
  obtain ⟨⟨ht', he'⟩, hw'⟩ := h2
  have ht : s.header.type = SHT_PROGBITS := by simpa using ht'
  have hee : s.header.flags &&& SHF_EXECINSTR = 0 := by simpa using he'
  have hww : s.header.flags &&& SHF_WRITE ≠ 0 := by simpa using hw'
  unfold bucketRank isCodeSection isExportsSection isRodataSection isWdataSection
  rw [ht]
  simp [SHT_PROGBITS, SHT_RPL_EXPORTS, hee, hww]

theorem bucketRank_of_bss {s : ElfSection} (h : isBssSection s = true) :
    bucketRank s = 5 := by
  have ht : s.header.type = SHT_NOBITS := by
    unfold isBssSection at h
    simpa using h
  unfold bucketRank isCodeSection isExportsSection isRodataSection isWdataSection
    isBssSection
  rw [ht]
  simp [SHT_NOBITS, SHT_PROGBITS, SHT_RPL_EXPORTS]

theorem bucketRank_of_rel {s : ElfSection} (h : isRelaOrRelSection s = true) :
    bucketRank s = 6 := by
  have h2 := h
  unfold isRelaOrRelSection at h2
  rw [Bool.or_eq_true] at h2
  unfold bucketRank isCodeSection isExportsSection isRodataSection isWdataSection
    isBssSection isRelaOrRelSection
  rcases h2 with ht' | ht'
  · have ht : s.header.type = SHT_REL := by simpa using ht'
    rw [ht]
    simp [SHT_REL, SHT_RELA, SHT_PROGBITS, SHT_RPL_EXPORTS, SHT_NOBITS]
  · have ht : s.header.type = SHT_RELA := by simpa using ht'
    rw [ht]
    simp [SHT_REL, SHT_RELA, SHT_PROGBITS, SHT_RPL_EXPORTS, SHT_NOBITS]

theorem bucketRank_of_imports {s : ElfSection} (h : isImportsSection s = true) :
    bucketRank s = 7 := by
  have ht : s.header.type = SHT_RPL_IMPORTS := by
    unfold isImportsSection at h
    simpa using h
  unfold bucketRank isCodeSection isExportsSection isRodataSection isWdataSection
    isBssSection isRelaOrRelSection isImportsSection
  rw [ht]
  simp [SHT_RPL_IMPORTS, SHT_PROGBITS, SHT_RPL_EXPORTS, SHT_NOBITS, SHT_REL, SHT_RELA]

theorem bucketRank_of_symstr {s : ElfSection} (h : isSymStrSection s = true) :
    bucketRank s = 8 := by
  have h2 := h
  unfold isSymStrSection at h2
  rw [Bool.or_eq_true] at h2
  unfold bucketRank isCodeSection isExportsSection isRodataSection isWdataSection
    isBssSection isRelaOrRelSection isImportsSection isSymStrSection
  rcases h2 with ht' | ht'
  · have ht : s.header.type = SHT_SYMTAB := by simpa using ht'
    rw [ht]
    simp [SHT_SYMTAB, SHT_STRTAB, SHT_PROGBITS, SHT_RPL_EXPORTS, SHT_NOBITS,
      SHT_REL, SHT_RELA, SHT_RPL_IMPORTS]
  · have ht : s.header.type = SHT_STRTAB := by simpa using ht'
    rw [ht]
    simp [SHT_SYMTAB, SHT_STRTAB, SHT_PROGBITS, SHT_RPL_EXPORTS, SHT_NOBITS,
      SHT_REL, SHT_RELA, SHT_RPL_IMPORTS]

theorem bucketRank_of_null {s : ElfSection} (h : s.header.type = SHT_NULL) :
    bucketRank s = 0 := by
  unfold bucketRank isCodeSection isExportsSection isRodataSection isWdataSection
    isBssSection isRelaOrRelSection isImportsSection isSymStrSection
  rw [h]
  simp [SHT_NULL, SHT_SYMTAB, SHT_STRTAB, SHT_PROGBITS, SHT_RPL_EXPORTS,
    SHT_NOBITS, SHT_REL, SHT_RELA, SHT_RPL_IMPORTS]

theorem fixLoader_c4_cex :
    ((fixLoaderVirtualAddressesAux c4File).trace.map (fun e => e.1) = [0, 1, 2]) ∧
    ((fixLoaderVirtualAddressesAux c4File).file.sections.getD 1 default).header.addr =
      ((fixLoaderVirtualAddressesAux c4File).file.sections.getD 2 default).header.addr ∧
    ((fixLoaderVirtualAddressesAux c4File).file.sections.getD 2 default).header.addr =
      0xC0000040 :=
  ⟨by decide, by decide, by decide⟩

theorem bucketChunk_pairwise (sections : List ElfSection) (p : ElfSection → Bool)
    (r : Nat) (hp : ∀ t : ElfSection, p t = true → bucketRank t = r) :
    (idxWhere sections p).Pairwise (reorderKey sections) := by
  refine (idxWhere_pairwise sections p).imp_of_mem ?_
  intro a b ha hb hlt
  right
  refine ⟨?_, hlt⟩
  rw [hp _ (mem_idxWhere.mp ha).2, hp _ (mem_idxWhere.mp hb).2]

theorem bucketChunk_rank (sections : List ElfSection) (p : ElfSection → Bool)
    (r : Nat) (hp : ∀ t : ElfSection, p t = true → bucketRank t = r) :
    ∀ a ∈ idxWhere sections p, bucketRank (sections.getD a default) = r :=
  fun _ ha => hp _ (mem_idxWhere.mp ha).2

theorem chunk_append_left (sections : List ElfSection) (L1 L2 : List Nat)
    (rmax r2 : Nat) (h1p : L1.Pairwise (reorderKey sections))
    (h1r : ∀ a ∈ L1, bucketRank (sections.getD a default) ≤ rmax)
    (h2p : L2.Pairwise (reorderKey sections))
    (h2r : ∀ b ∈ L2, bucketRank (sections.getD b default) = r2)
    (hlt : rmax < r2) :
    (L1 ++ L2).Pairwise (reorderKey sections) ∧
    (∀ a ∈ L1 ++ L2, bucketRank (sections.getD a default) ≤ r2) := by
  constructor
  · refine List.pairwise_append.mpr ⟨h1p, h2p, ?_⟩
    intro a ha b hb
    left
    rw [h2r b hb]
    exact Nat.lt_of_le_of_lt (h1r a ha) hlt
  · intro a ha
    rcases List.mem_append.mp ha with h | h
    · exact Nat.le_trans (h1r a h) (Nat.le_of_lt hlt)
    · exact Nat.le_of_eq (h2r a h)

theorem sectionMap_tail_pairwise (sections : List ElfSection) :
    ((sectionMapOf sections).tail).Pairwise (reorderKey sections) := by
  have hP1 : (idxWhere sections isCodeSection).Pairwise (reorderKey sections) ∧
      (∀ a ∈ idxWhere sections isCodeSection,
        bucketRank (sections.getD a default) ≤ 1) :=
    ⟨bucketChunk_pairwise sections _ 1 (fun t ht => bucketRank_of_code ht),
     fun a ha => Nat.le_of_eq
       (bucketChunk_rank sections _ 1 (fun t ht => bucketRank_of_code ht) a ha)⟩
  have hP2 := chunk_append_left sections _ (idxWhere sections isExportsSection) 1 2
    hP1.1 hP1.2
    (bucketChunk_pairwise sections _ 2 (fun t ht => bucketRank_of_exports ht))
    (bucketChunk_rank sections _ 2 (fun t ht => bucketRank_of_exports ht))
    (by omega)
  have hP3 := chunk_append_left sections _ (idxWhere sections isRodataSection) 2 3
    hP2.1 hP2.2
    (bucketChunk_pairwise sections _ 3 (fun t ht => bucketRank_of_rodata ht))
    (bucketChunk_rank sections _ 3 (fun t ht => bucketRank_of_rodata ht))
    (by omega)
  have hP4 := chunk_append_left sections _ (idxWhere sections isWdataSection) 3 4
    hP3.1 hP3.2
    (bucketChunk_pairwise sections _ 4 (fun t ht => bucketRank_of_wdata ht))
    (bucketChunk_rank sections _ 4 (fun t ht => bucketRank_of_wdata ht))
    (by omega)
  have hP5 := chunk_append_left sections _ (idxWhere sections isBssSection) 4 5
    hP4.1 hP4.2
    (bucketChunk_pairwise sections _ 5 (fun t ht => bucketRank_of_bss ht))
    (bucketChunk_rank sections _ 5 (fun t ht => bucketRank_of_bss ht))
    (by omega)
  have hP6 := chunk_append_left sections _ (idxWhere sections isRelaOrRelSection) 5 6
    hP5.1 hP5.2
    (bucketChunk_pairwise sections _ 6 (fun t ht => bucketRank_of_rel ht))
    (bucketChunk_rank sections _ 6 (fun t ht => bucketRank_of_rel ht))
    (by omega)
  have hP7 := chunk_append_left sections _ (idxWhere sections isImportsSection) 6 7
    hP6.1 hP6.2
    (bucketChunk_pairwise sections _ 7 (fun t ht => bucketRank_of_imports ht))
    (bucketChunk_rank sections _ 7 (fun t ht => bucketRank_of_imports ht))
    (by omega)
  have hP8 := chunk_append_left sections _ (idxWhere sections isSymStrSection) 7 8
    hP7.1 hP7.2
    (bucketChunk_pairwise sections _ 8 (fun t ht => bucketRank_of_symstr ht))
    (bucketChunk_rank sections _ 8 (fun t ht => bucketRank_of_symstr ht))
    (by omega)
  unfold sectionMapOf
  rw [List.tail_cons]
  exact hP8.1

theorem sectionMap_tail_rank_pos (sections : List ElfSection) :
    ∀ b ∈ (sectionMapOf sections).tail,
      1 ≤ bucketRank (sections.getD b default) := by
  intro b hb
  unfold sectionMapOf at hb
  rw [List.tail_cons] at hb
  simp only [List.mem_append] at hb
  rcases hb with ((((((h | h) | h) | h) | h) | h) | h) | h
  · exact Nat.le_of_eq (bucketRank_of_code (mem_idxWhere.mp h).2).symm
  · rw [bucketRank_of_exports (mem_idxWhere.mp h).2]
    omega
  · rw [bucketRank_of_rodata (mem_idxWhere.mp h).2]
    omega
  · rw [bucketRank_of_wdata (mem_idxWhere.mp h).2]
    omega
  · rw [bucketRank_of_bss (mem_idxWhere.mp h).2]
    omega
  · rw [bucketRank_of_rel (mem_idxWhere.mp h).2]
    omega
  · rw [bucketRank_of_imports (mem_idxWhere.mp h).2]
    omega
  · rw [bucketRank_of_symstr (mem_idxWhere.mp h).2]
    omega

theorem sectionMap_nodup (sections : List ElfSection)
    (h0 : (sections.getD 0 default).header.type = SHT_NULL) :
    (sectionMapOf sections).Nodup := by
  have hpair := sectionMap_tail_pairwise sections
  have htail : ((sectionMapOf sections).tail).Nodup := by
    refine hpair.imp ?_
    intro a b hr hab
    subst hab
    rcases hr with h | h
    · exact absurd h (lt_irrefl _)
    · exact absurd h.2 (lt_irrefl _)
  have hzero : 0 ∉ (sectionMapOf sections).tail := by
    intro hmem
    have h1 := sectionMap_tail_rank_pos sections 0 hmem
    rw [bucketRank_of_null h0] at h1
    omega
  exact List.nodup_cons.mpr ⟨hzero, htail⟩

theorem sectionMap_subset (sections : List ElfSection)
    (hn0 : 0 < sections.length) :
    ∀ x ∈ sectionMapOf sections, x < sections.length := by
  intro x hx
  unfold sectionMapOf at hx
  rcases List.mem_cons.mp hx with h | h
  · omega
  · have hb : ∀ p : ElfSection → Bool, x ∈ idxWhere sections p →
        x < sections.length := fun p hp => (mem_idxWhere.mp hp).1
    simp only [List.mem_append] at h
    rcases h with ((((((h | h) | h) | h) | h) | h) | h) | h <;> exact hb _ h

theorem sectionMap_perm (sections : List ElfSection)
    (h0 : (sections.getD 0 default).header.type = SHT_NULL)
    (hlen : (sectionMapOf sections).length = sections.length) :
    (sectionMapOf sections).Perm (List.range sections.length) := by
  have hn0 : 0 < sections.length := by
    rw [← hlen]
    unfold sectionMapOf
    simp
  have hsub : sectionMapOf sections ⊆ List.range sections.length := by
    intro x hx
    rw [List.mem_range]
    exact sectionMap_subset sections hn0 x hx
  exact ((sectionMap_nodup sections h0).subperm hsub).perm_of_length_le
    (by rw [hlen, List.length_range])

theorem invFold_length : ∀ (l : List (Nat × Nat)) (acc : List Nat),
    (l.foldl (fun acc p => acc.set p.2 (p.1 % 65536)) acc).length = acc.length := by
  intro l
  induction l with
  | nil => intro acc; rfl
  | cons q t ih =>
    intro acc
    rw [List.foldl_cons, ih, List.length_set]

theorem invFold_getD_lt : ∀ (l : List (Nat × Nat)) (acc : List Nat),
    (∀ j, acc.getD j 0 < 65536) →
    ∀ j, (l.foldl (fun acc p => acc.set p.2 (p.1 % 65536)) acc).getD j 0 < 65536 := by
  intro l
  induction l with
  | nil => intro acc h j; exact h j
  | cons q t ih =>
    intro acc h j
    rw [List.foldl_cons]
    refine ih _ (fun j2 => ?_) j
    rw [getD_set_getD]
    split
    · exact Nat.mod_lt _ (by omega)
    · exact h j2

theorem invFold_getD : ∀ (l : List (Nat × Nat)) (acc : List Nat) (v k : Nat),
    v < acc.length →
    (∀ p ∈ l, p.2 = v → p.1 = k) →
    ((∃ p ∈ l, p.2 = v) ∨ acc.getD v 0 = k % 65536) →
    (l.foldl (fun acc p => acc.set p.2 (p.1 % 65536)) acc).getD v 0 = k % 65536 := by
  intro l
  induction l with
  | nil =>
    intro acc v k hv huni hd
    rcases hd with ⟨p, hp, _⟩ | h
    · exact absurd hp (List.not_mem_nil p)
    · exact h
  | cons q t ih =>
    intro acc v k hv huni hd
    rw [List.foldl_cons]
    by_cases hq : q.2 = v
    · have hk := huni q (List.mem_cons_self q t) hq
      refine ih _ v k (by rw [List.length_set]; exact hv)
        (fun p hp => huni p (List.mem_cons_of_mem _ hp)) (Or.inr ?_)
      rw [← hq, getD_set_self _ _ _ _ (by rw [hq]; exact hv), hk]
    · refine ih _ v k (by rw [List.length_set]; exact hv)
        (fun p hp => huni p (List.mem_cons_of_mem _ hp)) ?_
      rcases hd with ⟨p, hp, hpv⟩ | h
      · rcases List.mem_cons.mp hp with hh | hh
        · exact absurd (hh ▸ hpv) hq
        · exact Or.inl ⟨p, hh, hpv⟩
      · refine Or.inr ?_
        rw [getD_set_ne _ _ _ _ _ hq]
        exact h

theorem buildInverse_length (m : List Nat) (n : Nat) :
    (buildInverse m n).length = n := by
  unfold buildInverse
  rw [invFold_length, List.length_replicate]

theorem replicate_getD (n j : Nat) : (List.replicate n 0).getD j 0 = 0 := by
  by_cases hj : j < n
  · rw [getD_of_lt _ _ _ (by simpa using hj)]
    simp
  · rw [getD_of_le _ _ _ (by simpa using Nat.le_of_not_lt hj)]

theorem buildInverse_getD_lt (m : List Nat) (n : Nat) (x : Nat) :
    (buildInverse m n).getD x 0 < 65536 := by
  unfold buildInverse
  refine invFold_getD_lt m.enum _ (fun j => ?_) x
  rw [replicate_getD]
  omega

theorem mem_enum_self (m : List Nat) (k : Nat) (hk : k < m.length) :
    (k, m.getD k 0) ∈ m.enum := by
  have hk2 : k < m.enum.length := by rw [List.enum_length]; exact hk
  have h1 := List.getElem_enum m k hk2
  rw [getD_of_lt _ _ _ hk, ← h1]
  exact List.getElem_mem hk2

theorem mem_enum_shape (m : List Nat) (p : Nat × Nat) (hp : p ∈ m.enum) :
    p.1 < m.length ∧ p.2 = m.getD p.1 0 := by
  obtain ⟨i, hi, hieq⟩ := List.mem_iff_getElem.mp hp
  rw [List.getElem_enum] at hieq
  have hlen : i < m.length := by rw [← List.enum_length]; exact hi
  constructor
  · rw [← hieq]
    exact hlen
  · rw [← hieq, getD_of_lt _ _ _ hlen]

theorem buildInverse_getD_eq (m : List Nat) (n : Nat) (hnodup : m.Nodup)
    (k : Nat) (hk : k < m.length) (hvn : m.getD k 0 < n) :
    (buildInverse m n).getD (m.getD k 0) 0 = k % 65536 := by
  unfold buildInverse
  refine invFold_getD m.enum _ (m.getD k 0) k
    (by rw [List.length_replicate]; exact hvn) ?_
    (Or.inl ⟨(k, m.getD k 0), mem_enum_self m k hk, rfl⟩)
  intro p hp hpv
  obtain ⟨hp1, hp2⟩ := mem_enum_shape m p hp
  have heq : m.getD p.1 0 = m.getD k 0 := by rw [← hp2, hpv]
  rw [getD_of_lt _ _ _ hp1, getD_of_lt _ _ _ hk] at heq
  exact (List.Nodup.getElem_inj_iff hnodup).mp heq

theorem remapShndx_wf (inv : List Nat) (hinv : ∀ x, inv.getD x 0 < 65536)
    (s : Symbol) (h : SymbolWF s) : SymbolWF (remapSymbolShndx inv s) := by
  obtain ⟨h1, h2, h3, h4, h5, h6⟩ := h
  unfold remapSymbolShndx
  split
  · exact ⟨h1, h2, h3, h4, h5, hinv s.shndx⟩
  · exact ⟨h1, h2, h3, h4, h5, h6⟩

theorem reorderSectionIndex_some (file : ElfFile)
    (hlen : (sectionMapOf file.sections).length = file.sections.length) :
    reorderSectionIndex file = some (reorderApplied file) := by
  unfold reorderSectionIndex reorderApplied
  dsimp only
  rw [if_pos hlen, List.map_map, List.map_map]
  rfl

theorem reorderApplied_length (file : ElfFile) :
    (reorderApplied file).sections.length = (sectionMapOf file.sections).length := by
  unfold reorderApplied
  dsimp only
  rw [List.length_map, List.length_map]

theorem reorderApplied_shstrndx (file : ElfFile) :
    (reorderApplied file).header.shstrndx =
      (buildInverse (sectionMapOf file.sections)
        (sectionMapOf file.sections).length).getD file.header.shstrndx 0 := by
  unfold reorderApplied
  dsimp only
  rw [List.length_map]

theorem reorderApplied_getD (file : ElfFile) (k : Nat)
    (hk : k < (sectionMapOf file.sections).length) :
    (reorderApplied file).sections.getD k default =
      reorderedSection
        (buildInverse (sectionMapOf file.sections) (sectionMapOf file.sections).length)
        (file.sections.getD ((sectionMapOf file.sections).getD k 0) default) := by
  unfold reorderApplied
  dsimp only
  rw [List.length_map,
    getD_map _ _ _ default _ (by rw [List.length_map]; exact hk),
    getD_map _ _ _ 0 _ hk]

theorem reorderedSection_symtab (inv : List Nat) (s : ElfSection)
    (hty : s.header.type = SHT_SYMTAB) :
    reorderedSection inv s =
      { s with
        header := { s.header with link := inv.getD s.header.link 0 }
        data := mapSymbolData (remapSymbolShndx inv) s.data } := by
  unfold reorderedSection
  dsimp only
  rw [hty, if_neg (show ¬ (SHT_SYMTAB = SHT_RELA) from by decide)]
  dsimp only
  rw [if_pos rfl]

/-- Claim C3: with a NULL section 0 (and a 16-bit section count, as the
on-disk shnum field guarantees), the reordering pass fails exactly when
the computed new-to-old map is not a permutation of the section indices;
the map lays the sections out in the canonical bucket order with each
bucket preserving the original relative order; and on success the output
has the permuted sections with link, RELA info, SYMTAB symbol shndx
below SHN_LORESERVE and the header's shstrndx rewritten through the
inverse map, which is a two-sided inverse of the permutation. -/
theorem reorder_c3 (file : ElfFile)
    (h0 : (file.sections.getD 0 default).header.type = SHT_NULL)
    (hn : file.sections.length ≤ 65536) :
    (reorderSectionIndex file = none ↔
      ¬ (sectionMapOf file.sections).Perm (List.range file.sections.length)) ∧
    ((sectionMapOf file.sections).tail).Pairwise (reorderKey file.sections) ∧
    (∀ out : ElfFile, reorderSectionIndex file = some out →
      (sectionMapOf file.sections).Perm (List.range file.sections.length) ∧
      out.sections.length = file.sections.length ∧
      out.header.shstrndx =
        (buildInverse (sectionMapOf file.sections) file.sections.length).getD
          file.header.shstrndx 0 ∧
      (∀ k, k < file.sections.length →
        out.sections.getD k default =
          reorderedSection
            (buildInverse (sectionMapOf file.sections) file.sections.length)
            (file.sections.getD ((sectionMapOf file.sections).getD k 0) default)) ∧
      (∀ k, k < file.sections.length →
        (buildInverse (sectionMapOf file.sections) file.sections.length).getD
          ((sectionMapOf file.sections).getD k 0) 0 = k) ∧
      (∀ i, i < file.sections.length →
        (buildInverse (sectionMapOf file.sections) file.sections.length).getD i 0 <
          file.sections.length ∧
        (sectionMapOf file.sections).getD
          ((buildInverse (sectionMapOf file.sections) file.sections.length).getD
            i 0) 0 = i ∧
        out.sections.getD
          ((buildInverse (sectionMapOf file.sections) file.sections.length).getD
            i 0) default =
          reorderedSection
            (buildInverse (sectionMapOf file.sections) file.sections.length)
            (file.sections.getD i default)) ∧
      (∀ k, k < file.sections.length →
        (file.sections.getD ((sectionMapOf file.sections).getD k 0)
          default).header.type = SHT_SYMTAB →
        parseSymbols ((out.sections.getD k default).data) =
          (parseSymbols ((file.sections.getD ((sectionMapOf file.sections).getD k 0)
            default).data)).map
            (remapSymbolShndx
              (buildInverse (sectionMapOf file.sections) file.sections.length)))) := by
  refine ⟨?_, sectionMap_tail_pairwise file.sections, ?_⟩
  · by_cases hlen : (sectionMapOf file.sections).length = file.sections.length
    · have hperm := sectionMap_perm file.sections h0 hlen
      have hsome : ¬ (reorderSectionIndex file = none) := by
        rw [reorderSectionIndex_some file hlen]
        simp
      exact iff_of_false hsome (not_not_intro hperm)
    · have hnone : reorderSectionIndex file = none := by
        unfold reorderSectionIndex
        rw [if_neg hlen]
      refine iff_of_true hnone (fun hperm => hlen ?_)
      rw [hperm.length_eq, List.length_range]
  · intro out hout
    by_cases hlen : (sectionMapOf file.sections).length = file.sections.length
    case neg =>
      unfold reorderSectionIndex at hout
      rw [if_neg hlen] at hout
      simp at hout
    case pos =>
      rw [reorderSectionIndex_some file hlen] at hout
      injection hout with hout2
      subst hout2
      have hperm := sectionMap_perm file.sections h0 hlen
      have hn0 : 0 < file.sections.length := by
        rw [← hlen]
        unfold sectionMapOf
        simp
      have hnodup := sectionMap_nodup file.sections h0
      have hsub := sectionMap_subset file.sections hn0
      have hbInvLt : ∀ x, (buildInverse (sectionMapOf file.sections)
          file.sections.length).getD x 0 < 65536 :=
        fun x => buildInverse_getD_lt _ _ x
      have hInvLeft : ∀ k, k < file.sections.length →
          (buildInverse (sectionMapOf file.sections) file.sections.length).getD
            ((sectionMapOf file.sections).getD k 0) 0 = k := by
        intro k hk
        have hk2 : k < (sectionMapOf file.sections).length := by
          rw [hlen]
          exact hk
        have hv : (sectionMapOf file.sections).getD k 0 < file.sections.length := by
          refine hsub _ ?_
          rw [getD_of_lt _ _ _ hk2]
          exact List.getElem_mem hk2
        rw [buildInverse_getD_eq _ _ hnodup k hk2 hv]
        exact Nat.mod_eq_of_lt (by omega)
      have hb : ∀ k, k < file.sections.length →
          (reorderApplied file).sections.getD k default =
            reorderedSection
              (buildInverse (sectionMapOf file.sections) file.sections.length)
              (file.sections.getD ((sectionMapOf file.sections).getD k 0)
                default) := by
        intro k hk
        rw [reorderApplied_getD file k (by rw [hlen]; exact hk), hlen]
      refine ⟨hperm, ?_, ?_, hb, hInvLeft, ?_, ?_⟩
      · rw [reorderApplied_length, hlen]
      · rw [reorderApplied_shstrndx, hlen]
      · intro i hi
        have hmem : i ∈ sectionMapOf file.sections :=
          hperm.mem_iff.mpr (List.mem_range.mpr hi)
        obtain ⟨kk, hkk, hkeq⟩ := List.mem_iff_getElem.mp hmem
        have hkk2 : kk < file.sections.length := by
          rw [← hlen]
          exact hkk
        have hgetd : (sectionMapOf file.sections).getD kk 0 = i := by
          rw [getD_of_lt _ _ _ hkk]
          exact hkeq
        have hinvi : (buildInverse (sectionMapOf file.sections)
            file.sections.length).getD i 0 = kk := by
          rw [← hgetd]
          exact hInvLeft kk hkk2
        refine ⟨?_, ?_, ?_⟩
        · rw [hinvi]
          exact hkk2
        · rw [hinvi, hgetd]
        · rw [hinvi, hb kk hkk2, hgetd]
      · intro k hk hty
        rw [hb k hk, reorderedSection_symtab _ _ hty]
        dsimp only
        exact parseSymbols_mapSymbolData _
          (fun s hs => remapShndx_wf _ hbInvLt s hs) _

theorem reorder_c3_witness :
    ((c3File.sections.getD 0 default).header.type = SHT_NULL ∧
      c3File.sections.length ≤ 65536) ∧
    (reorderSectionIndex c3File = none ↔
      ¬ (sectionMapOf c3File.sections).Perm (List.range c3File.sections.length)) :=
  ⟨⟨by decide, by decide⟩, (reorder_c3 c3File (by decide) (by decide)).1⟩

end Elf2Rpl

